import Mathlib

/-!
# MyTunes: playback coordinator, queue and history

A shallow embedding of the playback engine of `src/global.js`
(`playSong`, `playAudioFallback`, `nextTrack`, `previousTrack`,
`handleSongEnd`, `stopPlayback`, `addToRecentlyPlayed`, the
`metadataManager` object and the helpers they call), of the queue functions
(`addToQueue`, `playFromQueue`, `playFromRecent`, `shuffleAllSongs`) and of
the time helpers (`formatTime`, `parseDuration`).

The module files (`playbackControls.js`, `queueManager.js`, `musicPlayer.js`)
repeat the same transition logic on top of objects that are not all
defined there; `global.js`, which is self-contained, is the text embedded.

Conventions of the embedding

* The free-standing `let` variables of `global.js` are the fields of `State`.
* A JavaScript property that may be `undefined`/`null` is an `Option`.
* `async` functions are run to completion; what the environment answers
  while they are suspended (player readiness, load and play results) is an
  explicit `Outcome` argument.
* A call that ends in an uncaught `TypeError` returns `none`.
* A function of the embedding does what the body of the JavaScript function
  does. Handlers that the environment calls later (`onPlay`, `onPause`,
  `onPlayerStateChange`, timer callbacks) are transitions of their own and
  are not folded into the function that provoked them.
* Commands sent to the two playback backends are appended to `State.log`.
* Times are rationals (every finite double is one); a random draw of
  `Math.random()` is a rational argument `r`.
* DOM updates, notifications and `syncGlobalState` (which only copies the
  variables to `window`) touch none of the modelled variables and are left out.
* Songs are values. Where object identity matters, `RefState` holds the song
  objects on a heap and the variables hold references to them.
* The numbers of `formatTime` and `parseDuration` are `JsNum`: NaN, the
  infinities, and rationals for the finite values. The code computes with
  doubles; the embedding gives a result where that arithmetic is exact (safe
  integers) and `none` where the result depends on rounding.
* `toLowerCase` is the Unicode default case conversion, from the tables of
  the Unicode character database.
-/

namespace MyTunes

/-! ## Data model -/

/-- Song object; every property may be absent (`none` stands for `undefined`). -/
structure Song where
  id : Option String := none
  title : Option String := none
  artist : Option String := none
  album : Option String := none
  cover : Option String := none
  youtube : Option String := none
  artwork : Option String := none
  albumArt : Option String := none
  duration : Option String := none
deriving DecidableEq, Repr

/-- Catalog album: `{ album, songs }`. -/
structure Album where
  album : String
  songs : List Song
deriving DecidableEq, Repr

/-- Catalog artist: `{ artist, albums }`; `window.music` is a list of these. -/
structure Artist where
  artist : String
  albums : List Album
deriving DecidableEq, Repr

/-- The three values `repeatMode` takes in `global.js`. -/
inductive RepeatMode where
  | off
  | all
  | one
deriving DecidableEq, Repr

/-- The `Audio` element: the properties the coordinator reads or writes. -/
structure AudioElement where
  src : String
  currentTime : ℚ
deriving DecidableEq, Repr

/-- The `YT.Player` object. `ready` says that the API methods
(`loadVideoById`, `stopVideo`, `seekTo`, `getCurrentTime`, ...) are attached;
`currentTime` is what `getCurrentTime()` answers and `playerState` what
`getPlayerState()` answers (1 is `YT.PlayerState.PLAYING`). -/
structure YTPlayer where
  ready : Bool
  currentTime : ℚ
  playerState : Int
deriving DecidableEq, Repr

/-- Commands sent to the playback backends. -/
inductive Cmd where
  | audioPause
  | audioPlay
  | audioSetSrc (url : String)
  | audioSetCurrentTime (t : ℚ)
  | ytStopVideo
  | ytLoadVideoById (videoId : String)
  | ytPlayVideo
  | ytPauseVideo
  | ytSeekTo (t : ℚ)
deriving DecidableEq, Repr

/-- One entry of the `artwork` array of a metadata descriptor. -/
structure Artwork where
  src : String
  sizes : String
  type : String
deriving DecidableEq, Repr

/-- The descriptor built by `metadataManager.setMetadata`. -/
structure Metadata where
  title : String
  artist : String
  album : String
  artwork : List Artwork
deriving DecidableEq, Repr

/-- The module-level variables of `global.js` that the playback engine uses,
the `metadataManager` fields, the media-session surface and the command log. -/
structure State where
  currentSong : Option Song
  currentArtist : Option String
  currentAlbum : Option String
  isPlaying : Bool
  queue : List Song
  recentlyPlayed : List Song
  shuffleMode : Bool
  repeatMode : RepeatMode
  audioElement : Option AudioElement
  youtubePlayer : Option YTPlayer
  /-- Value of `'mediaSession' in navigator`. -/
  hasMediaSession : Bool
  /-- Field `metadataManager.currentMetadata`. -/
  currentMetadata : Option Metadata
  /-- Field `metadataManager.protectionInterval` (a timer id). -/
  protectionInterval : Option Nat
  /-- Field `metadataManager.hijackAttempts`. -/
  hijackAttempts : Nat
  metadataProtectionActive : Bool
  /-- What reading `navigator.mediaSession.metadata` returns. -/
  sessionMetadata : Option Metadata
  /-- Set once `overrideMediaMetadata` has replaced `window.MediaMetadata`. -/
  ctorOverridden : Bool
  /-- Set once `monitorMetadataChanges` has redefined the `metadata` property. -/
  setterIntercepted : Bool
  /-- Ids of the intervals registered with `setInterval` and not yet cleared. -/
  intervals : List Nat
  /-- The id the next `setInterval` call returns. -/
  nextTimerId : Nat
  /-- Backend commands issued so far, oldest first. -/
  log : List Cmd
deriving DecidableEq, Repr

/-- The variables as `global.js` declares them, on a page with a media session. -/
def State.init : State where
  currentSong := none
  currentArtist := none
  currentAlbum := none
  isPlaying := false
  queue := []
  recentlyPlayed := []
  shuffleMode := false
  repeatMode := RepeatMode.off
  audioElement := none
  youtubePlayer := none
  hasMediaSession := true
  currentMetadata := none
  protectionInterval := none
  hijackAttempts := 0
  metadataProtectionActive := false
  sessionMetadata := none
  ctorOverridden := false
  setterIntercepted := false
  intervals := []
  nextTimerId := 1
  log := []

/-- What the environment does while one `playSong` call is suspended. -/
structure Outcome where
  /-- Value of `youtubePlayer` when `waitForYouTubePlayer` resolves. -/
  ytAfterWait : Option YTPlayer
  /-- The call `youtubePlayer.loadVideoById` raises. -/
  ytLoadThrows : Bool
  /-- The state PLAYING was seen before `waitForYouTubePlayback` timed out. -/
  ytPlaybackStarted : Bool
  /-- Per format: `canplaythrough` fires (`true`) or `error` fires (`false`). -/
  audioCanPlay : String → Bool
  /-- Per format: the promise of `audioElement.play()` resolves. -/
  audioPlayResolves : String → Bool

/-! ## JavaScript primitives -/

/-- Truthiness of an optional string: defined and non-empty. -/
def truthy (v : Option String) : Bool :=
  match v with
  | some x => x != ""
  | none => false

/-- Expression `v || d` for an optional string and a string default. -/
def orDefault (v : Option String) (d : String) : String :=
  match v with
  | some x => if x != "" then x else d
  | none => d

/-- Method `Array.prototype.findIndex`: first index satisfying `p`, or `-1`. -/
def findIndex {α : Type} (p : α → Bool) (xs : List α) : Int :=
  if List.findIdx p xs < xs.length then (List.findIdx p xs : Int) else -1

/-- Indexing `xs[i]` with a number: `undefined` outside the array. -/
def elemAt {α : Type} (xs : List α) (i : Int) : Option α :=
  if i < 0 then none else xs[i.toNat]?

/-- The remainder operator `%` on integers (sign of the dividend). -/
def jsRem (a b : Int) : Int := Int.tmod a b

/-- Characters matched by `\s` in a JavaScript regular expression. -/
def isJsSpace (c : Char) : Bool :=
  let n := c.toNat
  n = 9 || n = 10 || n = 11 || n = 12 || n = 13 || n = 32 || n = 160 ||
  n = 5760 || (8192 ≤ n && n ≤ 8202) || n = 8232 || n = 8233 || n = 8239 ||
  n = 8287 || n = 12288 || n = 65279

/-- Characters matched by `\w`: ASCII letters, digits and the underscore. -/
def isJsWord (c : Char) : Bool :=
  c.isAlphanum || c = '_'

/-- The characters with the Unicode property Cased (Unicode 14), as inclusive
ranges of code points. -/
def casedRanges : List (Nat × Nat) :=
  [(65, 90), (97, 122), (170, 170), (181, 181), (186, 186), (192, 214), (216, 246), (248, 442),
   (444, 447), (452, 659), (661, 696), (704, 705), (736, 740), (837, 837), (880, 883),
   (886, 887), (890, 893), (895, 895), (902, 902), (904, 906), (908, 908), (910, 929),
   (931, 1013), (1015, 1153), (1162, 1327), (1329, 1366), (1376, 1416), (4256, 4293),
   (4295, 4295), (4301, 4301), (4304, 4346), (4349, 4351), (5024, 5109), (5112, 5117),
   (7296, 7304), (7312, 7354), (7357, 7359), (7424, 7615), (7680, 7957), (7960, 7965),
   (7968, 8005), (8008, 8013), (8016, 8023), (8025, 8025), (8027, 8027), (8029, 8029),
   (8031, 8061), (8064, 8116), (8118, 8124), (8126, 8126), (8130, 8132), (8134, 8140),
   (8144, 8147), (8150, 8155), (8160, 8172), (8178, 8180), (8182, 8188), (8305, 8305),
   (8319, 8319), (8336, 8348), (8450, 8450), (8455, 8455), (8458, 8467), (8469, 8469),
   (8473, 8477), (8484, 8484), (8486, 8486), (8488, 8488), (8490, 8493), (8495, 8500),
   (8505, 8505), (8508, 8511), (8517, 8521), (8526, 8526), (8544, 8575), (8579, 8580),
   (9398, 9449), (11264, 11492), (11499, 11502), (11506, 11507), (11520, 11557), (11559, 11559),
   (11565, 11565), (42560, 42605), (42624, 42653), (42786, 42887), (42891, 42894),
   (42896, 42954), (42960, 42961), (42963, 42963), (42965, 42969), (42997, 42998),
   (43000, 43002), (43824, 43866), (43868, 43880), (43888, 43967), (64256, 64262),
   (64275, 64279), (65313, 65338), (65345, 65370), (66560, 66639), (66736, 66771),
   (66776, 66811), (66928, 66938), (66940, 66954), (66956, 66962), (66964, 66965),
   (66967, 66977), (66979, 66993), (66995, 67001), (67003, 67004), (67456, 67456),
   (67459, 67461), (67463, 67504), (67506, 67514), (68736, 68786), (68800, 68850),
   (71840, 71903), (93760, 93823), (119808, 119892), (119894, 119964), (119966, 119967),
   (119970, 119970), (119973, 119974), (119977, 119980), (119982, 119993), (119995, 119995),
   (119997, 120003), (120005, 120069), (120071, 120074), (120077, 120084), (120086, 120092),
   (120094, 120121), (120123, 120126), (120128, 120132), (120134, 120134), (120138, 120144),
   (120146, 120485), (120488, 120512), (120514, 120538), (120540, 120570), (120572, 120596),
   (120598, 120628), (120630, 120654), (120656, 120686), (120688, 120712), (120714, 120744),
   (120746, 120770), (120772, 120779), (122624, 122633), (122635, 122654), (125184, 125251),
   (127280, 127305), (127312, 127337), (127344, 127369)]

/-- The characters with the Unicode property Case_Ignorable (Unicode 14), as
inclusive ranges of code points. -/
def caseIgnorableRanges : List (Nat × Nat) :=
  [(39, 39), (46, 46), (58, 58), (94, 94), (96, 96), (168, 168), (173, 173), (175, 175),
   (180, 180), (183, 184), (688, 879), (884, 885), (890, 890), (900, 901), (903, 903),
   (1155, 1161), (1369, 1369), (1375, 1375), (1425, 1469), (1471, 1471), (1473, 1474),
   (1476, 1477), (1479, 1479), (1524, 1524), (1536, 1541), (1552, 1562), (1564, 1564),
   (1600, 1600), (1611, 1631), (1648, 1648), (1750, 1757), (1759, 1768), (1770, 1773),
   (1807, 1807), (1809, 1809), (1840, 1866), (1958, 1968), (2027, 2037), (2042, 2042),
   (2045, 2045), (2070, 2093), (2137, 2139), (2184, 2184), (2192, 2193), (2200, 2207),
   (2249, 2306), (2362, 2362), (2364, 2364), (2369, 2376), (2381, 2381), (2385, 2391),
   (2402, 2403), (2417, 2417), (2433, 2433), (2492, 2492), (2497, 2500), (2509, 2509),
   (2530, 2531), (2558, 2558), (2561, 2562), (2620, 2620), (2625, 2626), (2631, 2632),
   (2635, 2637), (2641, 2641), (2672, 2673), (2677, 2677), (2689, 2690), (2748, 2748),
   (2753, 2757), (2759, 2760), (2765, 2765), (2786, 2787), (2810, 2815), (2817, 2817),
   (2876, 2876), (2879, 2879), (2881, 2884), (2893, 2893), (2901, 2902), (2914, 2915),
   (2946, 2946), (3008, 3008), (3021, 3021), (3072, 3072), (3076, 3076), (3132, 3132),
   (3134, 3136), (3142, 3144), (3146, 3149), (3157, 3158), (3170, 3171), (3201, 3201),
   (3260, 3260), (3263, 3263), (3270, 3270), (3276, 3277), (3298, 3299), (3328, 3329),
   (3387, 3388), (3393, 3396), (3405, 3405), (3426, 3427), (3457, 3457), (3530, 3530),
   (3538, 3540), (3542, 3542), (3633, 3633), (3636, 3642), (3654, 3662), (3761, 3761),
   (3764, 3772), (3782, 3782), (3784, 3789), (3864, 3865), (3893, 3893), (3895, 3895),
   (3897, 3897), (3953, 3966), (3968, 3972), (3974, 3975), (3981, 3991), (3993, 4028),
   (4038, 4038), (4141, 4144), (4146, 4151), (4153, 4154), (4157, 4158), (4184, 4185),
   (4190, 4192), (4209, 4212), (4226, 4226), (4229, 4230), (4237, 4237), (4253, 4253),
   (4348, 4348), (4957, 4959), (5906, 5908), (5938, 5939), (5970, 5971), (6002, 6003),
   (6068, 6069), (6071, 6077), (6086, 6086), (6089, 6099), (6103, 6103), (6109, 6109),
   (6155, 6159), (6211, 6211), (6277, 6278), (6313, 6313), (6432, 6434), (6439, 6440),
   (6450, 6450), (6457, 6459), (6679, 6680), (6683, 6683), (6742, 6742), (6744, 6750),
   (6752, 6752), (6754, 6754), (6757, 6764), (6771, 6780), (6783, 6783), (6823, 6823),
   (6832, 6862), (6912, 6915), (6964, 6964), (6966, 6970), (6972, 6972), (6978, 6978),
   (7019, 7027), (7040, 7041), (7074, 7077), (7080, 7081), (7083, 7085), (7142, 7142),
   (7144, 7145), (7149, 7149), (7151, 7153), (7212, 7219), (7222, 7223), (7288, 7293),
   (7376, 7378), (7380, 7392), (7394, 7400), (7405, 7405), (7412, 7412), (7416, 7417),
   (7468, 7530), (7544, 7544), (7579, 7679), (8125, 8125), (8127, 8129), (8141, 8143),
   (8157, 8159), (8173, 8175), (8189, 8190), (8203, 8207), (8216, 8217), (8228, 8228),
   (8231, 8231), (8234, 8238), (8288, 8292), (8294, 8303), (8305, 8305), (8319, 8319),
   (8336, 8348), (8400, 8432), (11388, 11389), (11503, 11505), (11631, 11631), (11647, 11647),
   (11744, 11775), (11823, 11823), (12293, 12293), (12330, 12333), (12337, 12341),
   (12347, 12347), (12441, 12446), (12540, 12542), (40981, 40981), (42232, 42237),
   (42508, 42508), (42607, 42610), (42612, 42621), (42623, 42623), (42652, 42655),
   (42736, 42737), (42752, 42785), (42864, 42864), (42888, 42890), (42994, 42996),
   (43000, 43001), (43010, 43010), (43014, 43014), (43019, 43019), (43045, 43046),
   (43052, 43052), (43204, 43205), (43232, 43249), (43263, 43263), (43302, 43309),
   (43335, 43345), (43392, 43394), (43443, 43443), (43446, 43449), (43452, 43453),
   (43471, 43471), (43493, 43494), (43561, 43566), (43569, 43570), (43573, 43574),
   (43587, 43587), (43596, 43596), (43632, 43632), (43644, 43644), (43696, 43696),
   (43698, 43700), (43703, 43704), (43710, 43711), (43713, 43713), (43741, 43741),
   (43756, 43757), (43763, 43764), (43766, 43766), (43867, 43871), (43881, 43883),
   (44005, 44005), (44008, 44008), (44013, 44013), (64286, 64286), (64434, 64450),
   (65024, 65039), (65043, 65043), (65056, 65071), (65106, 65106), (65109, 65109),
   (65279, 65279), (65287, 65287), (65294, 65294), (65306, 65306), (65342, 65342),
   (65344, 65344), (65392, 65392), (65438, 65439), (65507, 65507), (65529, 65531),
   (66045, 66045), (66272, 66272), (66422, 66426), (67456, 67461), (67463, 67504),
   (67506, 67514), (68097, 68099), (68101, 68102), (68108, 68111), (68152, 68154),
   (68159, 68159), (68325, 68326), (68900, 68903), (69291, 69292), (69446, 69456),
   (69506, 69509), (69633, 69633), (69688, 69702), (69744, 69744), (69747, 69748),
   (69759, 69761), (69811, 69814), (69817, 69818), (69821, 69821), (69826, 69826),
   (69837, 69837), (69888, 69890), (69927, 69931), (69933, 69940), (70003, 70003),
   (70016, 70017), (70070, 70078), (70089, 70092), (70095, 70095), (70191, 70193),
   (70196, 70196), (70198, 70199), (70206, 70206), (70367, 70367), (70371, 70378),
   (70400, 70401), (70459, 70460), (70464, 70464), (70502, 70508), (70512, 70516),
   (70712, 70719), (70722, 70724), (70726, 70726), (70750, 70750), (70835, 70840),
   (70842, 70842), (70847, 70848), (70850, 70851), (71090, 71093), (71100, 71101),
   (71103, 71104), (71132, 71133), (71219, 71226), (71229, 71229), (71231, 71232),
   (71339, 71339), (71341, 71341), (71344, 71349), (71351, 71351), (71453, 71455),
   (71458, 71461), (71463, 71467), (71727, 71735), (71737, 71738), (71995, 71996),
   (71998, 71998), (72003, 72003), (72148, 72151), (72154, 72155), (72160, 72160),
   (72193, 72202), (72243, 72248), (72251, 72254), (72263, 72263), (72273, 72278),
   (72281, 72283), (72330, 72342), (72344, 72345), (72752, 72758), (72760, 72765),
   (72767, 72767), (72850, 72871), (72874, 72880), (72882, 72883), (72885, 72886),
   (73009, 73014), (73018, 73018), (73020, 73021), (73023, 73029), (73031, 73031),
   (73104, 73105), (73109, 73109), (73111, 73111), (73459, 73460), (78896, 78904),
   (92912, 92916), (92976, 92982), (92992, 92995), (94031, 94031), (94095, 94111),
   (94176, 94177), (94179, 94180), (110576, 110579), (110581, 110587), (110589, 110590),
   (113821, 113822), (113824, 113827), (118528, 118573), (118576, 118598), (119143, 119145),
   (119155, 119170), (119173, 119179), (119210, 119213), (119362, 119364), (121344, 121398),
   (121403, 121452), (121461, 121461), (121476, 121476), (121499, 121503), (121505, 121519),
   (122880, 122886), (122888, 122904), (122907, 122913), (122915, 122916), (122918, 122922),
   (123184, 123197), (123566, 123566), (123628, 123631), (125136, 125142), (125252, 125259),
   (127995, 127999), (917505, 917505), (917536, 917631), (917760, 917999)]

/-- The one-to-one lowercase mappings of the Unicode character database
(Unicode 14) outside ASCII, without capital sigma: an entry
`(first, last, step, delta)` maps the code points `first`, `first + step`, ...,
`last` to themselves plus `delta`. -/
def lowerRanges : List (Nat × Nat × Nat × Int) :=
  [(192, 214, 1, 32), (216, 222, 1, 32), (256, 302, 2, 1), (306, 310, 2, 1), (313, 327, 2, 1),
   (330, 374, 2, 1), (376, 376, 1, -121), (377, 381, 2, 1), (385, 385, 1, 210), (386, 388, 2, 1),
   (390, 390, 1, 206), (391, 391, 1, 1), (393, 394, 1, 205), (395, 395, 1, 1), (398, 398, 1, 79),
   (399, 399, 1, 202), (400, 400, 1, 203), (401, 401, 1, 1), (403, 403, 1, 205),
   (404, 404, 1, 207), (406, 406, 1, 211), (407, 407, 1, 209), (408, 408, 1, 1),
   (412, 412, 1, 211), (413, 413, 1, 213), (415, 415, 1, 214), (416, 420, 2, 1),
   (422, 422, 1, 218), (423, 423, 1, 1), (425, 425, 1, 218), (428, 428, 1, 1),
   (430, 430, 1, 218), (431, 431, 1, 1), (433, 434, 1, 217), (435, 437, 2, 1),
   (439, 439, 1, 219), (440, 440, 1, 1), (444, 444, 1, 1), (452, 452, 1, 2), (453, 453, 1, 1),
   (455, 455, 1, 2), (456, 456, 1, 1), (458, 458, 1, 2), (459, 475, 2, 1), (478, 494, 2, 1),
   (497, 497, 1, 2), (498, 500, 2, 1), (502, 502, 1, -97), (503, 503, 1, -56), (504, 542, 2, 1),
   (544, 544, 1, -130), (546, 562, 2, 1), (570, 570, 1, 10795), (571, 571, 1, 1),
   (573, 573, 1, -163), (574, 574, 1, 10792), (577, 577, 1, 1), (579, 579, 1, -195),
   (580, 580, 1, 69), (581, 581, 1, 71), (582, 590, 2, 1), (880, 882, 2, 1), (886, 886, 1, 1),
   (895, 895, 1, 116), (902, 902, 1, 38), (904, 906, 1, 37), (908, 908, 1, 64),
   (910, 911, 1, 63), (913, 929, 1, 32), (932, 939, 1, 32), (975, 975, 1, 8), (984, 1006, 2, 1),
   (1012, 1012, 1, -60), (1015, 1015, 1, 1), (1017, 1017, 1, -7), (1018, 1018, 1, 1),
   (1021, 1023, 1, -130), (1024, 1039, 1, 80), (1040, 1071, 1, 32), (1120, 1152, 2, 1),
   (1162, 1214, 2, 1), (1216, 1216, 1, 15), (1217, 1229, 2, 1), (1232, 1326, 2, 1),
   (1329, 1366, 1, 48), (4256, 4293, 1, 7264), (4295, 4295, 1, 7264), (4301, 4301, 1, 7264),
   (5024, 5103, 1, 38864), (5104, 5109, 1, 8), (7312, 7354, 1, -3008), (7357, 7359, 1, -3008),
   (7680, 7828, 2, 1), (7838, 7838, 1, -7615), (7840, 7934, 2, 1), (7944, 7951, 1, -8),
   (7960, 7965, 1, -8), (7976, 7983, 1, -8), (7992, 7999, 1, -8), (8008, 8013, 1, -8),
   (8025, 8031, 2, -8), (8040, 8047, 1, -8), (8072, 8079, 1, -8), (8088, 8095, 1, -8),
   (8104, 8111, 1, -8), (8120, 8121, 1, -8), (8122, 8123, 1, -74), (8124, 8124, 1, -9),
   (8136, 8139, 1, -86), (8140, 8140, 1, -9), (8152, 8153, 1, -8), (8154, 8155, 1, -100),
   (8168, 8169, 1, -8), (8170, 8171, 1, -112), (8172, 8172, 1, -7), (8184, 8185, 1, -128),
   (8186, 8187, 1, -126), (8188, 8188, 1, -9), (8486, 8486, 1, -7517), (8490, 8490, 1, -8383),
   (8491, 8491, 1, -8262), (8498, 8498, 1, 28), (8544, 8559, 1, 16), (8579, 8579, 1, 1),
   (9398, 9423, 1, 26), (11264, 11311, 1, 48), (11360, 11360, 1, 1), (11362, 11362, 1, -10743),
   (11363, 11363, 1, -3814), (11364, 11364, 1, -10727), (11367, 11371, 2, 1),
   (11373, 11373, 1, -10780), (11374, 11374, 1, -10749), (11375, 11375, 1, -10783),
   (11376, 11376, 1, -10782), (11378, 11378, 1, 1), (11381, 11381, 1, 1),
   (11390, 11391, 1, -10815), (11392, 11490, 2, 1), (11499, 11501, 2, 1), (11506, 11506, 1, 1),
   (42560, 42604, 2, 1), (42624, 42650, 2, 1), (42786, 42798, 2, 1), (42802, 42862, 2, 1),
   (42873, 42875, 2, 1), (42877, 42877, 1, -35332), (42878, 42886, 2, 1), (42891, 42891, 1, 1),
   (42893, 42893, 1, -42280), (42896, 42898, 2, 1), (42902, 42920, 2, 1),
   (42922, 42922, 1, -42308), (42923, 42923, 1, -42319), (42924, 42924, 1, -42315),
   (42925, 42925, 1, -42305), (42926, 42926, 1, -42308), (42928, 42928, 1, -42258),
   (42929, 42929, 1, -42282), (42930, 42930, 1, -42261), (42931, 42931, 1, 928),
   (42932, 42946, 2, 1), (42948, 42948, 1, -48), (42949, 42949, 1, -42307),
   (42950, 42950, 1, -35384), (42951, 42953, 2, 1), (42960, 42960, 1, 1), (42966, 42968, 2, 1),
   (42997, 42997, 1, 1), (65313, 65338, 1, 32), (66560, 66599, 1, 40), (66736, 66771, 1, 40),
   (66928, 66938, 1, 39), (66940, 66954, 1, 39), (66956, 66962, 1, 39), (66964, 66965, 1, 39),
   (68736, 68786, 1, 64), (71840, 71871, 1, 32), (93760, 93791, 1, 32), (125184, 125217, 1, 34)]

/-- Membership of a code point in a list of inclusive ranges. -/
def inRanges (rs : List (Nat × Nat)) (n : Nat) : Bool :=
  rs.any fun r => r.1 ≤ n && n ≤ r.2

/-- Unicode property Cased of a character. -/
def isCased (c : Char) : Bool :=
  inRanges casedRanges c.toNat

/-- Unicode property Case_Ignorable of a character. -/
def isCaseIgnorable (c : Char) : Bool :=
  inRanges caseIgnorableRanges c.toNat

/-- Lowercase mapping of one character outside ASCII other than capital sigma:
capital I with dot above becomes `i` and a combining dot above, a character
of `lowerRanges` is shifted, any other character stays. -/
def lowerNonAscii (c : Char) : List Char :=
  if c.toNat = 304 then ['i', Char.ofNat 775]
  else
    match lowerRanges.find? (fun r =>
      r.1 ≤ c.toNat && c.toNat ≤ r.2.1 && (c.toNat - r.1) % r.2.2.1 == 0) with
    | some r => [Char.ofNat (Int.toNat ((c.toNat : Int) + r.2.2.2))]
    | none => [c]

/-- Condition Final_Sigma of the Unicode default case conversion: the sigma
follows a cased letter (case-ignorable characters between them apart) and no
cased letter follows it (again case-ignorable characters apart). `before` is
the text before the sigma, nearest character first. -/
def finalSigma (before after : List Char) : Bool :=
  (match before.dropWhile isCaseIgnorable with
    | c :: _ => isCased c
    | [] => false) &&
  !(match after.dropWhile isCaseIgnorable with
    | c :: _ => isCased c
    | [] => false)

/-- Lowercase of the characters `cs` that follow the characters `before`
(nearest first): ASCII letters by the ASCII mapping, capital sigma to final
or medial small sigma, the rest by `lowerNonAscii`. -/
def lowerChars : List Char → List Char → List Char
  | _, [] => []
  | before, c :: rest =>
    (if c.toNat < 128 then [Char.toLower c]
     else if c.toNat = 931 then
       [if finalSigma before rest then Char.ofNat 962 else Char.ofNat 963]
     else lowerNonAscii c) ++ lowerChars (c :: before) rest

/-- Method `String.prototype.toLowerCase`: the locale-independent default case
conversion of the Unicode standard (full mappings, with the Final_Sigma
condition), on the characters of the string. -/
def toLowerCase (str : String) : String :=
  String.mk (lowerChars [] str.data)

/-- Result of `.replace(/\s+/g, rep)` on a list of characters; `inRun` says
that the character before was white space (its run is already replaced). -/
def replaceSpaceRuns (rep : List Char) : Bool → List Char → List Char
  | _, [] => []
  | inRun, c :: cs =>
    if isJsSpace c then
      (if inRun then replaceSpaceRuns rep true cs
       else rep ++ replaceSpaceRuns rep true cs)
    else c :: replaceSpaceRuns rep false cs

/-- Spread `{ ...song }` of a possibly `undefined` song. -/
def spread (song : Option Song) : Song :=
  match song with
  | some x => x
  | none => {}

/-! ## Helpers of `global.js` -/

/-- Function `getAlbumImageUrl(albumName)` of `global.js`. -/
def getAlbumImageUrl (albumName : String) : String :=
  "/images/albums/" ++
    String.mk (replaceSpaceRuns ['-'] false (toLowerCase albumName).data) ++ ".png"

/-- Function `addToRecentlyPlayed(song)`: `unshift`, then `slice(0, 50)` when
the list has grown beyond 50. -/
def addToRecentlyPlayed (song : Song) (s : State) : State :=
  let rp := song :: s.recentlyPlayed
  if rp.length > 50 then { s with recentlyPlayed := rp.take 50 }
  else { s with recentlyPlayed := rp }

/-- File name derived from the title in `playAudioFallback`:
`title.toLowerCase().replace(/\s+/g, '').replace(/[^\w]/g, '')`. -/
def songFileName (title : String) : String :=
  String.mk ((replaceSpaceRuns [] false (toLowerCase title).data).filter isJsWord)

/-- Candidate URL of `playAudioFallback` for one format. -/
def audioUrl (title : String) (format : String) : String :=
  "https://koders.cloud/global/content/audio/" ++ songFileName title ++ "." ++ format

/-! ## The metadata manager -/

/-- Call `new MediaMetadata(data)`; after `overrideMediaMetadata` the
constructor answers with the intended descriptor while protection is active. -/
def newMediaMetadata (data : Metadata) (s : State) : Metadata :=
  if s.ctorOverridden && s.metadataProtectionActive then
    match s.currentMetadata with
    | some m => m
    | none => data
  else data

/-- Assignment `navigator.mediaSession.metadata = value`; after
`monitorMetadataChanges` the setter installed there runs. -/
def setSessionMetadata (value : Option Metadata) (s : State) : State :=
  if s.setterIntercepted && s.metadataProtectionActive then
    match s.currentMetadata, value with
    | some m, some _ => { s with sessionMetadata := some (newMediaMetadata m s) }
    | some _, none => { s with sessionMetadata := none }
    | none, v => { s with sessionMetadata := v }
  else { s with sessionMetadata := value }

/-- Method `metadataManager.stopProtection`. -/
def stopProtection (s : State) : State :=
  let s1 := { s with metadataProtectionActive := false }
  match s1.protectionInterval with
  | some t =>
    if t != 0 then
      { s1 with intervals := s1.intervals.filter (fun i => i != t), protectionInterval := none }
    else s1
  | none => s1

/-- Method `metadataManager.applyMetadata`, up to the `setTimeout` it schedules. -/
def applyMetadata (s : State) : State :=
  match s.currentMetadata with
  | none => s
  | some m =>
    if !s.hasMediaSession then s
    else
      let s1 := setSessionMetadata none s
      setSessionMetadata (some (newMediaMetadata m s1)) s1

/-- Method `metadataManager.startProtection`. -/
def startProtection (s : State) : State :=
  let s1 := stopProtection s
  let s2 := { s1 with metadataProtectionActive := true }
  let s3 := { s2 with protectionInterval := some s2.nextTimerId,
                      intervals := s2.intervals ++ [s2.nextTimerId],
                      nextTimerId := s2.nextTimerId + 1 }
  if s3.hasMediaSession then { s3 with ctorOverridden := true, setterIntercepted := true }
  else s3

/-- Source of every artwork entry:
`songData.artwork || songData.albumArt || getAlbumImageUrl(songData.album)`;
`none` when `getAlbumImageUrl` is reached with an absent album (TypeError). -/
def artworkSrc (songData : Song) : Option String :=
  if truthy songData.artwork then songData.artwork
  else if truthy songData.albumArt then songData.albumArt
  else songData.album.map getAlbumImageUrl

/-- The object literal assigned to `currentMetadata` in `setMetadata`. -/
def buildMetadata (songData : Song) : Option Metadata :=
  (artworkSrc songData).map fun src =>
    { title := orDefault songData.title "Unknown Song"
      artist := orDefault songData.artist "Unknown Artist"
      album := orDefault songData.album "Unknown Album"
      artwork := ["96x96", "128x128", "192x192", "256x256", "384x384", "512x512"].map
        fun sz => { src := src, sizes := sz, type := "image/jpeg" } }

/-- Method `metadataManager.setMetadata(songData)`; `none` when building the
descriptor raises. -/
def setMetadata (songData : Song) (s : State) : Option State :=
  if !s.hasMediaSession then some s
  else
    match buildMetadata songData with
    | none => none
    | some m => some (startProtection (applyMetadata { s with currentMetadata := some m }))

/-! ## Playback coordinator -/

/-- Function `initPlayer`: builds the audio element once; `setupMediaSession`
then clears the session metadata. -/
def initPlayer (s : State) : State :=
  match s.audioElement with
  | some _ => s
  | none =>
    let s1 := { s with audioElement := some { src := "", currentTime := 0 } }
    if s1.hasMediaSession then setSessionMetadata none s1 else s1

/-- One round of the `for` loop of `playAudioFallback`: `true` when the
`try` block reaches `return true`, `false` when it lands in `catch`. -/
def tryFormat (o : Outcome) (songData : Song) (format : String) (s : State) : Bool × State :=
  match songData.title, s.audioElement with
  | none, _ => (false, s)
  | some _, none => (false, s)
  | some title, some a =>
    let url := audioUrl title format
    let s1 := { s with audioElement := some { a with src := url },
                       log := s.log ++ [Cmd.audioSetSrc url] }
    if !o.audioCanPlay format then (false, s1)
    else
      let s2 := { s1 with log := s1.log ++ [Cmd.audioPlay] }
      if !o.audioPlayResolves format then (false, s2)
      else
        match setMetadata songData s2 with
        | none => (false, s2)
        | some s3 => (true, s3)

/-- The `for (let format of formats)` loop of `playAudioFallback`. -/
def playAudioFallbackLoop (o : Outcome) (songData : Song) : List String → State → Bool × State
  | [], s => (false, s)
  | format :: rest, s =>
    match tryFormat o songData format s with
    | (true, s1) => (true, s1)
    | (false, s1) => playAudioFallbackLoop o songData rest s1

/-- Function `playAudioFallback(songData)`: the returned flag and the state. -/
def playAudioFallback (o : Outcome) (songData : Song) (s : State) : Bool × State :=
  playAudioFallbackLoop o songData ["mp3", "ogg", "m4a"] s

/-- Function `playSong(songData)` for a song object (the guard
`if (!songData) return` is for a missing argument). Both waits resolve on
their timeout as well: after `waitForYouTubePlayer` the player may still be
missing, so that `loadVideoById` raises, and after `waitForYouTubePlayback`
the function goes on whether or not playback was seen, so `ytPlaybackStarted`
has no influence. The `setTimeout` that re-applies the metadata is a timer
callback and not part of this function. -/
def playSong (o : Outcome) (songData : Song) (s : State) : State :=
  let s1 := initPlayer s
  let s2 := match s1.currentSong with
    | some c => addToRecentlyPlayed c s1
    | none => s1
  let s3 := { s2 with currentSong := some songData,
                      currentArtist := songData.artist,
                      currentAlbum := songData.album }
  let s4 := stopProtection s3
  let s5 := match s4.audioElement with
    | some _ => { s4 with log := s4.log ++ [Cmd.audioPause] }
    | none => s4
  let s6 := match s5.youtubePlayer with
    | some p => if p.ready then { s5 with log := s5.log ++ [Cmd.ytStopVideo] } else s5
    | none => s5
  match songData.youtube with
  | none => (playAudioFallback o songData s6).2
  | some videoId =>
    if videoId == "" then (playAudioFallback o songData s6).2
    else
      let s7 := match s6.youtubePlayer with
        | none => { s6 with youtubePlayer := o.ytAfterWait }
        | some _ => s6
      match setMetadata songData s7 with
      | none => (playAudioFallback o songData s7).2
      | some s8 =>
        match s8.youtubePlayer with
        | none => (playAudioFallback o songData s8).2
        | some p =>
          if p.ready && !o.ytLoadThrows then
            { s8 with log := s8.log ++ [Cmd.ytLoadVideoById videoId], isPlaying := true }
          else (playAudioFallback o songData s8).2

/-- Function `stopPlayback`. -/
def stopPlayback (s : State) : State :=
  let s1 := match s.youtubePlayer with
    | some p => if p.ready then { s with log := s.log ++ [Cmd.ytStopVideo] } else s
    | none => s
  let s2 := match s1.audioElement with
    | some _ => { s1 with log := s1.log ++ [Cmd.audioPause] }
    | none => s1
  stopProtection { s2 with isPlaying := false }

/-- The lookup `window.music.find(...)` followed by `artist?.albums.find(...)`,
both by strict equality with `currentArtist` and `currentAlbum`. -/
def findAlbum (music : List Artist) (s : State) : Option (Artist × Album) :=
  match music.find? (fun a => some a.artist == s.currentArtist) with
  | none => none
  | some artist =>
    match artist.albums.find? (fun al => some al.album == s.currentAlbum) with
    | none => none
    | some album => some (artist, album)

/-- The object literal
`{ ...album.songs[i], artist: artist.artist, album: album.album, cover: ... }`. -/
def catalogSong (artist : Artist) (album : Album) (i : Int) : Song :=
  { spread (elemAt album.songs i) with
    artist := some artist.artist
    album := some album.album
    cover := some (getAlbumImageUrl album.album) }

/-- Function `nextTrack`. -/
def nextTrack (music : List Artist) (o : Outcome) (s : State) : Option State :=
  let s1 := stopProtection s
  match s1.queue with
  | nextSong :: rest => some (playSong o nextSong { s1 with queue := rest })
  | [] =>
    match findAlbum music s1 with
    | none => some s1
    | some (artist, album) =>
      if album.songs.length > 0 then
        match s1.currentSong with
        | none => none
        | some cur =>
          let songIndex := findIndex (fun x => x.title == cur.title) album.songs
          let nextSongIndex := jsRem (songIndex + 1) album.songs.length
          some (playSong o (catalogSong artist album nextSongIndex) s1)
      else some s1

/-- The local `currentTime` of `previousTrack`: read from the video player
when it has `getCurrentTime`, else from the audio element, else 0. -/
def readCurrentTime (s : State) : ℚ :=
  match s.youtubePlayer, s.audioElement with
  | some p, some a => if p.ready then p.currentTime else a.currentTime
  | some p, none => if p.ready then p.currentTime else 0
  | none, some a => a.currentTime
  | none, none => 0

/-- The seek to position 0 shared by `previousTrack` and `handleSongEnd`:
`youtubePlayer.seekTo(0)` when the player has `seekTo`, else
`audioElement.currentTime = 0`; `play` adds the play command that
`handleSongEnd` issues to the same backend. -/
def restart (play : Bool) (s : State) : State :=
  let viaAudio : State :=
    match s.audioElement with
    | some a =>
      { s with audioElement := some { a with currentTime := 0 },
               log := s.log ++ [Cmd.audioSetCurrentTime 0] ++
                 (if play then [Cmd.audioPlay] else []) }
    | none => s
  match s.youtubePlayer with
  | some p =>
    if p.ready then
      { s with log := s.log ++ [Cmd.ytSeekTo 0] ++ (if play then [Cmd.ytPlayVideo] else []) }
    else viaAudio
  | none => viaAudio

/-- Function `previousTrack`. -/
def previousTrack (music : List Artist) (o : Outcome) (s : State) : Option State :=
  if readCurrentTime s > 3 then some (restart false s)
  else
    let s1 := stopProtection s
    match s1.recentlyPlayed with
    | prevSong :: rest => some (playSong o prevSong { s1 with recentlyPlayed := rest })
    | [] =>
      match findAlbum music s1 with
      | none => some s1
      | some (artist, album) =>
        if album.songs.length > 0 then
          match s1.currentSong with
          | none => none
          | some cur =>
            let songIndex := findIndex (fun x => x.title == cur.title) album.songs
            let prevSongIndex := jsRem (songIndex - 1 + album.songs.length) album.songs.length
            some (playSong o (catalogSong artist album prevSongIndex) s1)
        else some s1

/-- The index `Math.floor(Math.random() * album.songs.length)` for the draw `r`. -/
def randomIndex (r : ℚ) (len : Nat) : Int :=
  Rat.floor (r * (len : ℚ))

/-- Function `handleSongEnd`; `r` is the value `Math.random()` returns if asked. -/
def handleSongEnd (music : List Artist) (o : Outcome) (r : ℚ) (s : State) : Option State :=
  if s.repeatMode = RepeatMode.one then some (restart true s)
  else if s.queue.length > 0 then nextTrack music o s
  else
    match findAlbum music s with
    | none => some (stopPlayback s)
    | some (artist, album) =>
      if album.songs.length = 0 then some (stopPlayback s)
      else if s.shuffleMode then
        match elemAt album.songs (randomIndex r album.songs.length) with
        | some nextSongData =>
          some (playSong o { nextSongData with
            artist := some artist.artist
            album := some album.album
            cover := some (getAlbumImageUrl album.album) } s)
        | none => some (stopPlayback s)
      else if s.repeatMode = RepeatMode.all then
        match s.currentSong with
        | none => none
        | some cur =>
          let currentSongIndex := findIndex (fun x => x.title == cur.title) album.songs
          let nextIndex := jsRem (currentSongIndex + 1) album.songs.length
          match elemAt album.songs nextIndex with
          | some nextSongData =>
            some (playSong o { nextSongData with
              artist := some artist.artist
              album := some album.album
              cover := some (getAlbumImageUrl album.album) } s)
          | none => some (stopPlayback s)
      else some (stopPlayback s)

/-- The variables that the track-transition policy owns: everything of the
player state that is neither a backend, nor the playing flag, nor metadata. -/
structure Tracks where
  currentSong : Option Song
  currentArtist : Option String
  currentAlbum : Option String
  queue : List Song
  recentlyPlayed : List Song
  shuffleMode : Bool
  repeatMode : RepeatMode
deriving DecidableEq, Repr

/-- Projection of a state on its track variables. -/
def State.tracks (s : State) : Tracks where
  currentSong := s.currentSong
  currentArtist := s.currentArtist
  currentAlbum := s.currentAlbum
  queue := s.queue
  recentlyPlayed := s.recentlyPlayed
  shuffleMode := s.shuffleMode
  repeatMode := s.repeatMode

/-- A run of `playSong` calls, one after the other, each with the answers
the environment gives during that call. -/
def playAll (plays : List (Outcome × Song)) (s : State) : State :=
  plays.foldl (fun st p => playSong p.1 p.2 st) s

/-- The history after `playSong`: the outgoing song, if any, is put in
front and the list is cut to 50 entries. -/
def historyAfterPlay (s : State) : List Song :=
  match s.currentSong with
  | some c => (c :: s.recentlyPlayed).take 50
  | none => s.recentlyPlayed

/-- The track variables after `playSong songData`. -/
def tracksAfterPlay (songData : Song) (s : State) : Tracks where
  currentSong := some songData
  currentArtist := songData.artist
  currentAlbum := songData.album
  queue := s.queue
  recentlyPlayed := historyAfterPlay s
  shuffleMode := s.shuffleMode
  repeatMode := s.repeatMode

/-- A run of `handleSongEnd` calls, each with its environment answers and
its random draw; `none` as soon as one call raises. -/
def handleSongEnds (music : List Artist) (calls : List (Outcome × ℚ)) (s : State) :
    Option State :=
  calls.foldlM (fun st c => handleSongEnd music c.1 c.2 st) s

/-- A run of `nextTrack` calls, one per entry of `os`; `none` as soon as one
call raises. -/
def nextTracks (music : List Artist) (os : List Outcome) (s : State) : Option State :=
  os.foldlM (fun st o => nextTrack music o st) s

/-- The value of `youtubePlayer.getPlayerState()` when the test
`youtubePlayer && youtubePlayer.getPlayerState` of `togglePlayPause` passes. -/
def ytPlayerState (s : State) : Option Int :=
  match s.youtubePlayer with
  | some p => if p.ready then some p.playerState else none
  | none => none

/-- Function `togglePlayPause`. -/
def togglePlayPause (s : State) : State :=
  match s.currentSong with
  | none => s
  | some _ =>
    if s.isPlaying then
      if ytPlayerState s = some 1 then { s with log := s.log ++ [Cmd.ytPauseVideo] }
      else
        match s.audioElement with
        | some _ => { s with log := s.log ++ [Cmd.audioPause] }
        | none => s
    else
      if (ytPlayerState s).isSome ∧ ytPlayerState s ≠ some 1 then
        { s with log := s.log ++ [Cmd.ytPlayVideo] }
      else
        match s.audioElement with
        | some _ => { s with log := s.log ++ [Cmd.audioPlay] }
        | none => s

/-- Handler `onPlay` of the audio element's `play` event; an error raised by
`setMetadata` ends the handler after the flag is set. -/
def onPlay (s : State) : State :=
  let s1 := { s with isPlaying := true }
  match s1.currentSong with
  | none => s1
  | some c =>
    match setMetadata c s1 with
    | some s2 => s2
    | none => s1

/-- Handler `onPause` of the audio element's `pause` event. -/
def onPause (s : State) : State :=
  { s with isPlaying := false }

/-- Handler `onPlayerStateChange(event)`; `code` is `event.data` (1 PLAYING,
2 PAUSED, 0 ENDED; -1 UNSTARTED, 3 BUFFERING and 5 CUED fall through). -/
def onPlayerStateChange (music : List Artist) (o : Outcome) (r : ℚ) (code : Int)
    (s : State) : Option State :=
  if code = 1 then
    let s1 := { s with isPlaying := true }
    match s1.currentSong with
    | none => some s1
    | some c => setMetadata c s1
  else if code = 2 then some { s with isPlaying := false }
  else if code = 0 then handleSongEnd music o r s
  else some s

/-- Method `metadataManager.useAggressiveMeasures`: registers the 10 ms
interval and resets the hijack counter (the 1 s `setTimeout` that clears the
interval is a timer callback). -/
def useAggressiveMeasures (s : State) : State :=
  { s with intervals := s.intervals ++ [s.nextTimerId],
           nextTimerId := s.nextTimerId + 1,
           hijackAttempts := 0 }

/-- The test of `enforceMetadata`: no descriptor on the session, or one whose
title, artist or album differs from the intended one. -/
def isHijacked (intended : Metadata) (session : Option Metadata) : Bool :=
  match session with
  | none => true
  | some cur =>
    cur.title != intended.title || cur.artist != intended.artist ||
      cur.album != intended.album

/-- Method `metadataManager.enforceMetadata`. -/
def enforceMetadata (s : State) : State :=
  match s.currentMetadata with
  | none => s
  | some m =>
    if !s.hasMediaSession then s
    else if isHijacked m s.sessionMetadata then
      let s1 := applyMetadata { s with hijackAttempts := s.hijackAttempts + 1 }
      if s1.hijackAttempts > 5 then useAggressiveMeasures s1 else s1
    else { s with hijackAttempts := 0 }

/-- The callback of the protection interval (every 100 ms). -/
def protectionTick (s : State) : State :=
  if s.currentMetadata.isSome ∧ s.metadataProtectionActive = true then enforceMetadata s
  else s

/-- An external write that leaves the descriptor `y` on the media session. -/
def hijack (y : Metadata) (s : State) : State :=
  { s with sessionMetadata := some y }

/-- Commands that tear a backend down: `audioElement.pause()` and
`youtubePlayer.stopVideo()`. -/
def isStopCmd : Cmd → Bool
  | Cmd.audioPause => true
  | Cmd.ytStopVideo => true
  | _ => false

/-- Commands that start a backend on a song: `loadVideoById`, the assignment
of `audioElement.src` and `audioElement.play()`. -/
def isStartCmd : Cmd → Bool
  | Cmd.ytLoadVideoById _ => true
  | Cmd.audioSetSrc _ => true
  | Cmd.audioPlay => true
  | _ => false

/-- The video player exposes its API. -/
def ytReady (s : State) : Prop :=
  ∃ p, s.youtubePlayer = some p ∧ p.ready = true

/-- The playing flag, the two backends and the command log. -/
structure Playback where
  isPlaying : Bool
  audioElement : Option AudioElement
  youtubePlayer : Option YTPlayer
  log : List Cmd
deriving DecidableEq, Repr

/-- Projection of a state on its playback variables. -/
def State.playback (s : State) : Playback where
  isPlaying := s.isPlaying
  audioElement := s.audioElement
  youtubePlayer := s.youtubePlayer
  log := s.log

/-- States reachable from the initial variables (with or without a media
session) through `playSong`, `nextTrack`, `previousTrack`, `handleSongEnd`,
`stopPlayback` and `togglePlayPause`. -/
inductive Reachable (music : List Artist) : State → Prop where
  | init (b : Bool) : Reachable music { State.init with hasMediaSession := b }
  | playSong (o : Outcome) (songData : Song) (s : State) :
      Reachable music s → Reachable music (playSong o songData s)
  | nextTrack (o : Outcome) (s t : State) :
      Reachable music s → nextTrack music o s = some t → Reachable music t
  | previousTrack (o : Outcome) (s t : State) :
      Reachable music s → previousTrack music o s = some t → Reachable music t
  | handleSongEnd (o : Outcome) (r : ℚ) (s t : State) :
      Reachable music s → handleSongEnd music o r s = some t → Reachable music t
  | stopPlayback (s : State) :
      Reachable music s → Reachable music (stopPlayback s)
  | togglePlayPause (s : State) :
      Reachable music s → Reachable music (togglePlayPause s)

/-- The first part of `playSong`: everything up to and including the pause
of the audio element and the stop of the video player. -/
def playSongTeardown (songData : Song) (s : State) : State :=
  let s1 := initPlayer s
  let s2 := match s1.currentSong with
    | some c => addToRecentlyPlayed c s1
    | none => s1
  let s3 := { s2 with currentSong := some songData,
                      currentArtist := songData.artist,
                      currentAlbum := songData.album }
  let s4 := stopProtection s3
  let s5 := match s4.audioElement with
    | some _ => { s4 with log := s4.log ++ [Cmd.audioPause] }
    | none => s4
  match s5.youtubePlayer with
  | some p => if p.ready then { s5 with log := s5.log ++ [Cmd.ytStopVideo] } else s5
  | none => s5

/-- The second part of `playSong`: the choice of the backend and its start,
from the state `s6` that the teardown leaves. -/
def playSongStart (o : Outcome) (songData : Song) (s6 : State) : State :=
  match songData.youtube with
  | none => (playAudioFallback o songData s6).2
  | some videoId =>
    if videoId == "" then (playAudioFallback o songData s6).2
    else
      let s7 := match s6.youtubePlayer with
        | none => { s6 with youtubePlayer := o.ytAfterWait }
        | some _ => s6
      match setMetadata songData s7 with
      | none => (playAudioFallback o songData s7).2
      | some s8 =>
        match s8.youtubePlayer with
        | none => (playAudioFallback o songData s8).2
        | some p =>
          if p.ready && !o.ytLoadThrows then
            { s8 with log := s8.log ++ [Cmd.ytLoadVideoById videoId], isPlaying := true }
          else (playAudioFallback o songData s8).2

/-- The two commands that end the teardown of `playSong`:
`audioElement.pause()`, then `youtubePlayer.stopVideo()`, each when its
object (and method) is there. -/
def pauseBackends (s4 : State) : State :=
  let s5 := match s4.audioElement with
    | some _ => { s4 with log := s4.log ++ [Cmd.audioPause] }
    | none => s4
  match s5.youtubePlayer with
  | some p => if p.ready then { s5 with log := s5.log ++ [Cmd.ytStopVideo] } else s5
  | none => s5

/-- The part of `playSong` before the two backend commands: `initPlayer`, the
push on the history, the three assignments and `stopProtection`. -/
def playSongPrepare (songData : Song) (s : State) : State :=
  let s1 := initPlayer s
  let s2 := match s1.currentSong with
    | some c => addToRecentlyPlayed c s1
    | none => s1
  stopProtection { s2 with currentSong := some songData,
                           currentArtist := songData.artist,
                           currentAlbum := songData.album }

/-- The step `if (!youtubePlayer) { await waitForYouTubePlayer(); }` of
`playSong`: with no player object the wait runs, and when it resolves (on
readiness or on its 5 s timeout) `youtubePlayer` is what the environment has
assigned by then. -/
def awaitPlayer (o : Outcome) (s : State) : State :=
  match s.youtubePlayer with
  | none => { s with youtubePlayer := o.ytAfterWait }
  | some _ => s

/-- Start commands of the audio backend. -/
def isAudioStartCmd : Cmd → Bool
  | Cmd.audioSetSrc _ => true
  | Cmd.audioPlay => true
  | _ => false

/-- While protection is active, the stored descriptor is the one built from
the song `x`. -/
def DescriptorOf (x : Song) (s : State) : Prop :=
  s.metadataProtectionActive = true →
    s.currentMetadata = buildMetadata x ∧ (buildMetadata x).isSome = true

/-- While protection is active, the stored descriptor is the one built from
the current song. -/
def DescriptorInv (s : State) : Prop :=
  s.metadataProtectionActive = true →
    ∃ c, s.currentSong = some c ∧ s.currentMetadata = buildMetadata c ∧
      (buildMetadata c).isSome = true

/-- A run of protection checks (callbacks of the 100 ms interval); before each
check the media session holds the entry of `ys` for that check, whatever wrote
it there. -/
def checkRun (ys : List (Option Metadata)) (s : State) : State :=
  ys.foldl (fun st y => protectionTick { st with sessionMetadata := y }) s

/-- The getter installed by `monitorMetadataChanges`: `return internalMetadata`. -/
def getSessionMetadata (s : State) : Option Metadata :=
  s.sessionMetadata

/-- The callback of the interval that `useAggressiveMeasures` registers under
the id `b` (every 10 ms); it runs only while `b` is registered. The two
assignments are inside `try`, so without a media session nothing happens. -/
def burstTick (b : Nat) (s : State) : State :=
  if b ∈ s.intervals then
    match s.currentMetadata with
    | some m =>
      if s.metadataProtectionActive then
        if s.hasMediaSession then
          let s1 := setSessionMetadata none s
          setSessionMetadata (some (newMediaMetadata m s1)) s1
        else s
      else { s with intervals := s.intervals.filter (fun i => i != b) }
    | none => { s with intervals := s.intervals.filter (fun i => i != b) }
  else s

/-- The callback of the `setTimeout` of `useAggressiveMeasures` (after 1 s):
`clearInterval(rapidOverride)`. -/
def burstTimeout (b : Nat) (s : State) : State :=
  { s with intervals := s.intervals.filter (fun i => i != b) }

/-- Call `xs.splice(start, 0, item)` for an integer `start`: a negative start
counts from the end, and the start is clamped to the array. -/
def spliceInsert {α : Type} (xs : List α) (start : Int) (item : α) : List α :=
  let len : Int := xs.length
  let k : Int := if start < 0 then max (len + start) 0 else min start len
  xs.take k.toNat ++ item :: xs.drop k.toNat

/-- Function `addToQueue(song, position = null)`. -/
def addToQueue (song : Song) (position : Option Int) (s : State) : State :=
  match position with
  | some p => { s with queue := spliceInsert s.queue p song }
  | none => { s with queue := s.queue ++ [song] }

/-- Function `playFromQueue(index)` for an integer index:
`queue.splice(index, 1)[0]` is taken out and played. -/
def playFromQueue (o : Outcome) (index : Int) (s : State) : State :=
  if 0 ≤ index ∧ index < s.queue.length then
    let s1 := { s with queue := s.queue.take index.toNat ++ s.queue.drop (index.toNat + 1) }
    match elemAt s.queue index with
    | some song => playSong o song s1
    | none => s1
  else s

/-- Function `playFromRecent(index)` for an integer index. -/
def playFromRecent (o : Outcome) (index : Int) (s : State) : State :=
  if 0 ≤ index ∧ index < s.recentlyPlayed.length then
    match elemAt s.recentlyPlayed index with
    | some song => playSong o song s
    | none => s
  else s

/-- The lookup `album.songs.findIndex(song => song.title === currentSong.title)`
shared by `nextTrack`, `previousTrack` and `handleSongEnd`. -/
def titleIndex (album : Album) (cur : Song) : Int :=
  findIndex (fun x => x.title == cur.title) album.songs

/-- The index `(songIndex + 1) % album.songs.length` of `nextTrack` and
`handleSongEnd`. -/
def nextIndexOf (album : Album) (cur : Song) : Int :=
  jsRem (titleIndex album cur + 1) album.songs.length

/-- The index `(songIndex - 1 + album.songs.length) % album.songs.length` of
`previousTrack`. -/
def prevIndexOf (album : Album) (cur : Song) : Int :=
  jsRem (titleIndex album cur - 1 + album.songs.length) album.songs.length

/-- The variables `currentArtist` and `currentAlbum` are the `artist` and
`album` properties of the current song, and are null while there is none. -/
def NamesFollowSong (s : State) : Prop :=
  match s.currentSong with
  | some c => s.currentArtist = c.artist ∧ s.currentAlbum = c.album
  | none => s.currentArtist = none ∧ s.currentAlbum = none

/-- Song objects by reference: `heap` lists the song objects alive on the page
(an object is named by its position), and the three variables hold references
to them, as the JavaScript variables do. -/
structure RefState where
  heap : List Song
  currentSong : Option Nat
  queue : List Nat
  recentlyPlayed : List Nat
deriving DecidableEq, Repr

/-- The object a reference names (an empty object for a dangling one). -/
def deref (heap : List Song) (r : Nat) : Song :=
  heap.getD r {}

/-- Function `addToQueue(song, position = null)` on references. -/
def addToQueueRef (song : Nat) (position : Option Int) (h : RefState) : RefState :=
  match position with
  | some p => { h with queue := spliceInsert h.queue p song }
  | none => { h with queue := h.queue ++ [song] }

/-- Function `addToRecentlyPlayed(song)` on references. -/
def addToRecentlyPlayedRef (song : Nat) (h : RefState) : RefState :=
  let rp := song :: h.recentlyPlayed
  if rp.length > 50 then { h with recentlyPlayed := rp.take 50 }
  else { h with recentlyPlayed := rp }

/-- The statements of `playSong(songData)` that handle song objects:
`if (currentSong) addToRecentlyPlayed(currentSong); currentSong = songData;`
(the rest of the function only reads properties of `songData`). -/
def playSongRef (songData : Nat) (h : RefState) : RefState :=
  let h1 := match h.currentSong with
    | some c => addToRecentlyPlayedRef c h
    | none => h
  { h1 with currentSong := some songData }

/-- Function `playFromQueue(index)` on references. -/
def playFromQueueRef (index : Int) (h : RefState) : RefState :=
  if 0 ≤ index ∧ index < h.queue.length then
    let h1 := { h with queue := h.queue.take index.toNat ++ h.queue.drop (index.toNat + 1) }
    match elemAt h.queue index with
    | some song => playSongRef song h1
    | none => h1
  else h

/-- Function `playFromRecent(index)` on references. -/
def playFromRecentRef (index : Int) (h : RefState) : RefState :=
  if 0 ≤ index ∧ index < h.recentlyPlayed.length then
    match elemAt h.recentlyPlayed index with
    | some song => playSongRef song h
    | none => h
  else h

/-- An assignment to properties of the object `r` (`f` gives the object's new
properties from the old ones). -/
def assignFields (r : Nat) (f : Song → Song) (h : RefState) : RefState :=
  { h with heap := h.heap.set r (f (deref h.heap r)) }

/-- The songs that the history holds, read through the references. -/
def RefState.history (h : RefState) : List Song :=
  h.recentlyPlayed.map (deref h.heap)

/-- The songs that the queue holds, read through the references. -/
def RefState.queued (h : RefState) : List Song :=
  h.queue.map (deref h.heap)

/-- The current song, read through its reference. -/
def RefState.current (h : RefState) : Option Song :=
  h.currentSong.map (deref h.heap)

/-- The array `allSongs` that `shuffleAllSongs` collects: every song of every
album of every artist in catalog order, each as the object literal
`{ ...song, artist: artist.artist, album: album.album, cover: ... }`. -/
def allSongs (music : List Artist) : List Song :=
  music.flatMap fun artist =>
    artist.albums.flatMap fun album =>
      album.songs.map fun song =>
        { song with artist := some artist.artist
                    album := some album.album
                    cover := some (getAlbumImageUrl album.album) }

/-- Function `getTotalSongs(artist)`. -/
def getTotalSongs (artist : Artist) : Nat :=
  artist.albums.foldl (fun total album => total + album.songs.length) 0

/-- The destructuring swap `[xs[i], xs[j]] = [xs[j], xs[i]]` for two positions
inside the array. -/
def swapAt {α : Type} (xs : List α) (i j : Nat) : List α :=
  match xs[i]?, xs[j]? with
  | some a, some b => (xs.set i b).set j a
  | _, _ => xs

/-- The loop `for (let i = allSongs.length - 1; i > 0; i--)` of
`shuffleAllSongs` from the value `i` of its variable on, with
`j = Math.floor(Math.random() * (i + 1))`; `k` draws have been made before and
`rs k` is the next one. -/
def shuffleLoop (rs : Nat → ℚ) : Nat → Nat → List Song → List Song
  | _, 0, xs => xs
  | k, i + 1, xs =>
    shuffleLoop rs (k + 1) i (swapAt xs (i + 1) (randomIndex (rs k) (i + 2)).toNat)

/-- Function `shuffleAllSongs`; `rs` is the sequence of values that
`Math.random()` returns. The catalog `window.music` is there (an array). -/
def shuffleAllSongs (music : List Artist) (o : Outcome) (rs : Nat → ℚ) (s : State) : State :=
  if music.length = 0 then s
  else if (allSongs music).length = 0 then s
  else
    let shuffled := shuffleLoop rs 0 ((allSongs music).length - 1) (allSongs music)
    let s1 := { s with queue := shuffled.drop 1 }
    match shuffled with
    | first :: _ => { playSong o first s1 with shuffleMode := true }
    | [] => { s1 with shuffleMode := true }

/-- Commands that move the playback position: `seekTo` on the video player
and the assignment of `audioElement.currentTime`. -/
def isSeekCmd : Cmd → Bool
  | Cmd.audioSetCurrentTime _ => true
  | Cmd.ytSeekTo _ => true
  | _ => false

/-- A JavaScript number as far as `formatTime` and `parseDuration` tell values
apart: NaN, an infinity, or a finite value, given as a rational (every finite
double is one); the sign of zero is not kept. The arithmetic of the code is
double arithmetic: the functions below compute a result where that arithmetic
is exact and answer `none` where the result depends on rounding. -/
inductive JsNum where
  | nan
  | inf (negative : Bool)
  | fin (q : ℚ)
deriving DecidableEq

/-- Test `Number.isSafeInteger`: an integer of absolute value below 2^53.
Safe integers are doubles, and sums, products and quotient floors that stay
among them are computed exactly by the double arithmetic. -/
def isSafeInteger (q : ℚ) : Bool :=
  q.den == 1 && decide (q.num.natAbs < 9007199254740992)

/-- The digit character of a value below ten. -/
def digitChar (d : Nat) : Char :=
  Char.ofNat (48 + d)

/-- Result of `Number.prototype.toString()` for a non-negative safe integer:
all its decimal digits, as characters. -/
def natToChars (n : Nat) : List Char :=
  if n = 0 then ['0'] else (Nat.digits 10 n).reverse.map digitChar

/-- Method `padStart(2, '0')` on the characters of a string. -/
def padStart2 (cs : List Char) : List Char :=
  List.replicate (2 - cs.length) '0' ++ cs

/-- Function `formatTime(seconds)`. For `Infinity` the minutes are `Infinity`
and the seconds `Math.floor(Infinity % 60)` are NaN. For a safe integer
`Math.floor(seconds / 60)` is the exact quotient floor (the double quotient is
never rounded up to the next integer below 2^53) and `seconds % 60` is exact.
The result is `none` for a non-negative value that is not a safe integer:
there the digits depend on the rounding of the division and on the shortest
digits that `toString` prints, which are not computed here. -/
def formatTime (seconds : JsNum) : Option String :=
  match seconds with
  | JsNum.nan => some "0:00"
  | JsNum.inf true => some "0:00"
  | JsNum.inf false => some "Infinity:NaN"
  | JsNum.fin q =>
    if q < 0 then some "0:00"
    else if isSafeInteger q then
      let minutes := Rat.floor (q / 60)
      let secs := Rat.floor (q - 60 * (Rat.floor (q / 60) : ℚ))
      some (String.mk (natToChars minutes.toNat ++ ':' :: padStart2 (natToChars secs.toNat)))
    else none

/-- Method `split(sep)` with a one-character separator, on characters. -/
def splitChars (sep : Char) : List Char → List (List Char)
  | [] => [[]]
  | c :: cs =>
    if c = sep then [] :: splitChars sep cs
    else
      match splitChars sep cs with
      | p :: ps => (c :: p) :: ps
      | [] => [[c]]

/-- A decimal digit `0`..`9`. -/
def isDecDigit (c : Char) : Bool :=
  48 ≤ c.toNat && c.toNat ≤ 57

/-- Value of a run of decimal digits. -/
def decimalValue (cs : List Char) : Nat :=
  cs.foldl (fun acc c => acc * 10 + (c.toNat - 48)) 0

/-- Value of a digit in a base up to 16, if the character is one. -/
def radixDigit (base : Nat) (c : Char) : Option Nat :=
  let v : Option Nat :=
    if isDecDigit c then some (c.toNat - 48)
    else if 97 ≤ c.toNat ∧ c.toNat ≤ 102 then some (c.toNat - 87)
    else if 65 ≤ c.toNat ∧ c.toNat ≤ 70 then some (c.toNat - 55)
    else none
  match v with
  | some d => if d < base then some d else none
  | none => none

/-- Value of a non-empty run of digits in the base, if the text is one. -/
def radixValue (base : Nat) (cs : List Char) : Option Nat :=
  if cs = [] then none
  else cs.foldl (fun acc c =>
    match acc, radixDigit base c with
    | some a, some d => some (a * base + d)
    | _, _ => none) (some 0)

/-- A `0x`, `0o` or `0b` literal (no sign). -/
def parseNonDecimal (cs : List Char) : Option Nat :=
  match cs with
  | c :: x :: rest =>
    if c = '0' then
      if x = 'x' ∨ x = 'X' then radixValue 16 rest
      else if x = 'o' ∨ x = 'O' then radixValue 8 rest
      else if x = 'b' ∨ x = 'B' then radixValue 2 rest
      else none
    else none
  | _ => none

/-- An optional sign: whether it was `-`, and the rest. -/
def stripSign (cs : List Char) : Bool × List Char :=
  match cs with
  | [] => (false, [])
  | c :: t =>
    if c = '+' then (false, t)
    else if c = '-' then (true, t)
    else (false, c :: t)

/-- The exponent part of a decimal literal, or nothing. -/
def parseExponent : List Char → Option Int
  | [] => some 0
  | c :: t =>
    if c = 'e' ∨ c = 'E' then
      if (stripSign t).2 ≠ [] ∧ (stripSign t).2.all isDecDigit = true then
        some (if (stripSign t).1 then -(decimalValue (stripSign t).2 : Int)
          else (decimalValue (stripSign t).2 : Int))
      else none
    else none

/-- An unsigned decimal literal: digits with an optional fraction, or a
fraction alone, and an optional exponent. -/
def parseUnsignedDecimal (cs : List Char) : Option ℚ :=
  let ip := cs.takeWhile isDecDigit
  let r1 := cs.dropWhile isDecDigit
  let fp := match r1 with
    | '.' :: t => t.takeWhile isDecDigit
    | _ => []
  let r2 := match r1 with
    | '.' :: t => t.dropWhile isDecDigit
    | _ => r1
  if ip = [] ∧ fp = [] then none
  else
    match parseExponent r2 with
    | some e =>
      some (((decimalValue ip : ℚ) + (decimalValue fp : ℚ) / 10 ^ fp.length) * 10 ^ e)
    | none => none

/-- Removal of white space and line terminators at both ends. -/
def trimChars (cs : List Char) : List Char :=
  ((cs.dropWhile isJsSpace).reverse.dropWhile isJsSpace).reverse

/-- A finite value that the double arithmetic represents exactly, as far as
this embedding tracks it: a safe integer; `none` for any other value. -/
def exactNumber (q : ℚ) : Option JsNum :=
  if isSafeInteger q then some (JsNum.fin q) else none

/-- Conversion `Number(str)` of a string (the StringToNumber grammar): blank
text is 0, then `Infinity` with an optional sign, a `0x`/`0o`/`0b` literal, or
a signed decimal literal; anything else is NaN. The code rounds the value of a
literal to the nearest double (and to an infinity beyond the largest one): the
result is `none`, a number other than NaN that is not computed here, for a
literal whose value is not a safe integer. -/
def jsNumber (cs : List Char) : Option JsNum :=
  let t := trimChars cs
  if t = [] then some (JsNum.fin 0)
  else
    match parseNonDecimal t with
    | some n => exactNumber n
    | none =>
      if (stripSign t).2 = "Infinity".data then some (JsNum.inf (stripSign t).1)
      else
        match parseUnsignedDecimal (stripSign t).2 with
        | some q => exactNumber (if (stripSign t).1 then -q else q)
        | none => some JsNum.nan

/-- The expression `parts[0] * 60 + parts[1]` for two numbers that are not
NaN; for two finite values the result is given when the product and the sum
are safe integers, so that neither operation rounds. -/
def minutesPlusSeconds (a b : JsNum) : Option JsNum :=
  match a, b with
  | JsNum.fin x, JsNum.fin y =>
    if isSafeInteger (x * 60) && isSafeInteger (x * 60 + y) then some (JsNum.fin (x * 60 + y))
    else none
  | JsNum.inf n, JsNum.fin _ => some (JsNum.inf n)
  | JsNum.fin _, JsNum.inf n => some (JsNum.inf n)
  | JsNum.inf n, JsNum.inf k => if n = k then some (JsNum.inf n) else some JsNum.nan
  | _, _ => some JsNum.nan

/-- Function `parseDuration(durationStr)`; the argument `none` stands for an
argument that is not a string. The result is `none` when neither part is NaN
and the value of a part, or of the sum, is not computed here. -/
def parseDuration (durationStr : Option String) : Option JsNum :=
  match durationStr with
  | none => some (JsNum.fin 0)
  | some str =>
    match (splitChars ':' str.data).map jsNumber with
    | [a, b] =>
      if a = some JsNum.nan ∨ b = some JsNum.nan then some (JsNum.fin 0)
      else
        match a, b with
        | some x, some y => minutesPlusSeconds x y
        | _, _ => none
    | _ => some (JsNum.fin 0)

/-- Text that reads as a number: it is not blank and `Number` does not convert
it to NaN. -/
def isNumberText (cs : List Char) : Bool :=
  cs.any (fun c => !isJsSpace c) && decide (jsNumber cs ≠ some JsNum.nan)

/-- The argument is a string of exactly two colon-separated numbers, in the
words of the description of `parseDuration`: a string that splits at its
colons into exactly two parts, each of which reads as a number. -/
def TwoColonSeparatedNumbers (durationStr : Option String) : Prop :=
  ∃ str a b, durationStr = some str ∧ splitChars ':' str.data = [a, b] ∧
    isNumberText a = true ∧ isNumberText b = true

/-! ## Concrete inputs used by the witnesses -/

/-- An environment in which every load succeeds at once. -/
def Outcome.allGood : Outcome where
  ytAfterWait := some { ready := true, currentTime := 0, playerState := 1 }
  ytLoadThrows := false
  ytPlaybackStarted := true
  audioCanPlay := fun _ => true
  audioPlayResolves := fun _ => true

/-- A catalog song with a title only. -/
def mkSong (title : String) : Song :=
  { title := some title }

/-- Three titles of one album, used in the examples. -/
def songA : Song := mkSong "A"

/-- Second song of the example album. -/
def songB : Song := mkSong "B"

/-- Third song of the example album. -/
def songC : Song := mkSong "C"

/-- A catalog of one artist with one album of three songs. -/
def demoMusic : List Artist :=
  [{ artist := "Artist", albums := [{ album := "Album", songs := [songA, songB, songC] }] }]

/-- A run of 51 plays of songs titled "0" to "50". -/
def demoPlays : List (Outcome × Song) :=
  (List.range 51).map fun i => (Outcome.allGood, mkSong (toString i))

/-- Song B of the example album playing through the audio element, 10 s in,
with song A in the history and song C queued; no video player on the page. -/
def demoAudioState : State :=
  { State.init with
    currentSong := some (catalogSong
      { artist := "Artist", albums := [] } { album := "Album", songs := [songB] } 0)
    currentArtist := some "Artist"
    currentAlbum := some "Album"
    isPlaying := true
    queue := [songC]
    recentlyPlayed := [songA]
    audioElement := some { src := audioUrl "B" "mp3", currentTime := 10 } }

/-- Song A of the example album as `nextTrack` builds it from the catalog. -/
def demoSongA : Song :=
  { songA with artist := some "Artist", album := some "Album",
               cover := some (getAlbumImageUrl "Album") }

/-- Third song of the example album as built from the catalog. -/
def demoSongC : Song :=
  { songC with artist := some "Artist", album := some "Album",
               cover := some (getAlbumImageUrl "Album") }

/-- Song A current, 3 s in on the audio element, nothing queued, nothing in
the history. -/
def demoStartState : State :=
  { State.init with
    currentSong := some demoSongA
    currentArtist := some "Artist"
    currentAlbum := some "Album"
    isPlaying := true
    audioElement := some { src := audioUrl "A" "mp3", currentTime := 3 } }

/-- A second song titled "A", told apart from `songA` by its id. -/
def songA2 : Song :=
  { id := some "a2", title := some "A" }

/-- The artist entry of a catalog whose only album holds two songs titled "A". -/
def dupArtist : Artist :=
  { artist := "Artist", albums := [{ album := "Album", songs := [songA, songB, songA2] }] }

/-- The album [A, B, A] of `dupArtist`. -/
def dupAlbum : Album :=
  { album := "Album", songs := [songA, songB, songA2] }

/-- The catalog made of `dupArtist` alone. -/
def dupMusic : List Artist := [dupArtist]

/-- The song at index 2 of `dupAlbum` is current, nothing is queued and the
repeat mode is `all`. -/
def dupStartState : State :=
  { State.init with
    currentSong := some (catalogSong dupArtist dupAlbum 2)
    currentArtist := some "Artist"
    currentAlbum := some "Album"
    repeatMode := RepeatMode.all
    audioElement := some { src := audioUrl "A" "mp3", currentTime := 0 } }

/-- An environment in which the video player never appears, every video load
raises and no audio format becomes ready. -/
def Outcome.allFail : Outcome where
  ytAfterWait := none
  ytLoadThrows := true
  ytPlaybackStarted := false
  audioCanPlay := fun _ => false
  audioPlayResolves := fun _ => false

/-- Song A of the example album with a video identifier. -/
def demoVideoSong : Song :=
  { demoSongA with youtube := some "vid" }

/-- Song B of the example album as built from the catalog; no video
identifier. -/
def demoSongB : Song :=
  { songB with artist := some "Artist", album := some "Album",
               cover := some (getAlbumImageUrl "Album") }

/-- The initial variables on a page whose video player is constructed and
exposes its API (state UNSTARTED). -/
def demoReadyState : State :=
  { State.init with youtubePlayer := some { ready := true, currentTime := 0, playerState := -1 } }

/-- The state after `playSong` of the video song on the ready player. -/
def demoVideoState : State :=
  playSong Outcome.allGood demoVideoSong demoReadyState

/-- An environment in which the video load call returns normally but the
state PLAYING is never seen before the playback wait times out; every audio
format would load and play. -/
def Outcome.videoSilent : Outcome where
  ytAfterWait := some { ready := true, currentTime := 0, playerState := -1 }
  ytLoadThrows := false
  ytPlaybackStarted := false
  audioCanPlay := fun _ => true
  audioPlayResolves := fun _ => true

/-- A song that carries a title and nothing else (no album, no artwork), as
an ad-hoc entry of the queue may. -/
def adHocSong : Song := mkSong "X"

/-- The state after the example song A, then the failed load of song B. -/
def demoStaleState : State :=
  playSong Outcome.allFail demoSongB (playSong Outcome.allGood demoSongA State.init)

/-- A descriptor of some other content, as a foreign writer would leave it. -/
def foreignMetadata : Metadata :=
  { title := "Video title", artist := "Channel", album := "", artwork := [] }

/-- Rounds of an external overwrite with `y`, each followed by one protection
check. -/
def hijackRounds (y : Metadata) : Nat → State → State
  | 0, s => s
  | n + 1, s => hijackRounds y n (enforceMetadata (hijack y s))

/-- The initial page after `setMetadata` of the example song A (the initial
page itself if that call raised). -/
def demoProtectedState : State :=
  (setMetadata demoSongA State.init).getD State.init

/-- The protected state after five overwrites, each one corrected by a
check, and a sixth overwrite that no check has seen yet. -/
def demoHijackedState : State :=
  hijack foreignMetadata (hijackRounds foreignMetadata 5 demoProtectedState)

/-- The descriptor that `setMetadata` builds for the example song A. -/
def demoDescriptorA : Metadata :=
  (buildMetadata demoSongA).getD foreignMetadata

/-- Song B of the example album with a video identifier. -/
def demoVideoSongB : Song :=
  { demoSongB with youtube := some "vidB" }

/-- The video song A playing under protection, after six checks that each found
the session metadata cleared (a write of null, which the intercepted setter
stores): the sixth has started the escalation burst. -/
def demoBurstState : State :=
  checkRun (List.replicate 6 none) demoVideoState

/-- The state after `playSong` of the video song B in `demoBurstState`. -/
def demoRestartState : State :=
  playSong Outcome.allGood demoVideoSongB demoBurstState

/-- The initial page with songs B and C queued. -/
def demoQueueState : State :=
  { State.init with queue := [songB, songC] }

/-- A song titled "Z", which is not in the example album, is current with the
example album as `currentAlbum`; repeat is `all`. -/
def demoAbsentState : State :=
  { State.init with
    currentSong := some (mkSong "Z")
    currentArtist := some "Artist"
    currentAlbum := some "Album"
    repeatMode := RepeatMode.all }

/-- Song B is current on the audio element, 2 s in, with A and C in the
history. -/
def demoBackState : State :=
  { State.init with
    currentSong := some demoSongB
    currentArtist := some "Artist"
    currentAlbum := some "Album"
    isPlaying := true
    recentlyPlayed := [demoSongA, demoSongC]
    audioElement := some { src := audioUrl "B" "mp3", currentTime := 2 } }

/-- Two song objects: object 0 (song B) is current, object 1 (song A) is the
only history entry. -/
def demoRefState : RefState :=
  { heap := [demoSongB, demoSongA], currentSong := some 0, queue := [],
    recentlyPlayed := [1] }

/-- An assignment `song.duration = "3:30"`. -/
def setDuration (x : Song) : Song :=
  { x with duration := some "3:30" }

/-- A page whose video player is constructed and exposes its API: the example
songs A and then B, neither with a video identifier, have been played, so B
plays on the audio element (its `play` event has been handled), and the audio
element is 10 s into B. The video player is idle and reports position 0. -/
def demoAudioOnVideoPage : State :=
  { onPlay (playSong Outcome.allGood demoSongB
      (playSong Outcome.allGood demoSongA demoReadyState)) with
    audioElement := some { src := audioUrl "B" "mp3", currentTime := 10 } }

/-- The video song A playing on the video player, 10 s in. -/
def demoVideoPlayingState : State :=
  { demoVideoState with
    youtubePlayer := some { ready := true, currentTime := 10, playerState := 1 } }

/-! ## Frame lemmas -/

theorem tracks_setSessionMetadata (v : Option Metadata) (s : State) :
    (setSessionMetadata v s).tracks = s.tracks := by
  unfold setSessionMetadata
  split
  · split <;> rfl
  · rfl

theorem isPlaying_setSessionMetadata (v : Option Metadata) (s : State) :
    (setSessionMetadata v s).isPlaying = s.isPlaying := by
  unfold setSessionMetadata
  split
  · split <;> rfl
  · rfl

theorem tracks_stopProtection (s : State) : (stopProtection s).tracks = s.tracks := by
  unfold stopProtection
  simp only
  split
  · split <;> rfl
  · rfl

theorem isPlaying_stopProtection (s : State) :
    (stopProtection s).isPlaying = s.isPlaying := by
  unfold stopProtection
  simp only
  split
  · split <;> rfl
  · rfl

theorem tracks_applyMetadata (s : State) : (applyMetadata s).tracks = s.tracks := by
  unfold applyMetadata
  split
  · rfl
  · split
    · rfl
    · simp only [tracks_setSessionMetadata]

theorem tracks_startProtection (s : State) : (startProtection s).tracks = s.tracks := by
  have h := tracks_stopProtection s
  unfold startProtection
  simp only
  split <;> exact h

theorem tracks_setMetadata (songData : Song) (s t : State)
    (h : setMetadata songData s = some t) : t.tracks = s.tracks := by
  unfold setMetadata at h
  split at h
  · cases h; rfl
  · split at h
    · cases h
    · cases h
      rw [tracks_startProtection, tracks_applyMetadata]
      rfl

theorem tracks_initPlayer (s : State) : (initPlayer s).tracks = s.tracks := by
  unfold initPlayer
  split
  · rfl
  · simp only
    split
    · rw [tracks_setSessionMetadata]; rfl
    · rfl

theorem tracks_tryFormat (o : Outcome) (songData : Song) (format : String) (s : State) :
    (tryFormat o songData format s).2.tracks = s.tracks := by
  unfold tryFormat
  split
  · rfl
  · rfl
  · simp only
    split
    · rfl
    · split
      · rfl
      · split
        · rfl
        · rename_i s3 h3
          rw [tracks_setMetadata _ _ _ h3]
          rfl

theorem tracks_playAudioFallbackLoop (o : Outcome) (songData : Song) (formats : List String)
    (s : State) : (playAudioFallbackLoop o songData formats s).2.tracks = s.tracks := by
  induction formats generalizing s with
  | nil => rfl
  | cons f fs ih =>
    unfold playAudioFallbackLoop
    have h := tracks_tryFormat o songData f s
    split
    · rename_i s1 h1
      rw [h1] at h
      exact h
    · rename_i s1 h1
      rw [h1] at h
      rw [ih, h]

theorem tracks_playAudioFallback (o : Outcome) (songData : Song) (s : State) :
    (playAudioFallback o songData s).2.tracks = s.tracks :=
  tracks_playAudioFallbackLoop o songData _ s

theorem recentlyPlayed_addToRecentlyPlayed (song : Song) (s : State) :
    (addToRecentlyPlayed song s).recentlyPlayed = (song :: s.recentlyPlayed).take 50 := by
  unfold addToRecentlyPlayed
  simp only
  split
  · rfl
  · rename_i h
    simp only
    rw [List.take_of_length_le (by omega)]

theorem tracks_addToRecentlyPlayed (song : Song) (s : State) :
    (addToRecentlyPlayed song s).tracks =
      { s.tracks with recentlyPlayed := (song :: s.recentlyPlayed).take 50 } := by
  have h := recentlyPlayed_addToRecentlyPlayed song s
  unfold addToRecentlyPlayed at h ⊢
  simp only at h ⊢
  split
  · rfl
  · rename_i hlen
    rw [if_neg hlen] at h
    simp only [State.tracks]
    simp only at h
    rw [← h]

theorem tracks_playSong (o : Outcome) (songData : Song) (s : State) :
    (playSong o songData s).tracks = tracksAfterPlay songData s := by
  have key : ∀ s6 : State, s6.tracks = tracksAfterPlay songData s →
      (match songData.youtube with
        | none => (playAudioFallback o songData s6).2
        | some videoId =>
          if videoId == "" then (playAudioFallback o songData s6).2
          else
            let s7 := match s6.youtubePlayer with
              | none => { s6 with youtubePlayer := o.ytAfterWait }
              | some _ => s6
            match setMetadata songData s7 with
            | none => (playAudioFallback o songData s7).2
            | some s8 =>
              match s8.youtubePlayer with
              | none => (playAudioFallback o songData s8).2
              | some p =>
                if p.ready && !o.ytLoadThrows then
                  { s8 with log := s8.log ++ [Cmd.ytLoadVideoById videoId], isPlaying := true }
                else (playAudioFallback o songData s8).2).tracks = tracksAfterPlay songData s := by
    intro s6 h6
    split
    · rw [tracks_playAudioFallback, h6]
    · split
      · rw [tracks_playAudioFallback, h6]
      · have h7 : (match s6.youtubePlayer with
            | none => { s6 with youtubePlayer := o.ytAfterWait }
            | some _ => s6).tracks = tracksAfterPlay songData s := by
          split
          · exact h6
          · exact h6
        simp only
        split
        · rw [tracks_playAudioFallback, h7]
        · rename_i s8 h8
          have h8t := tracks_setMetadata _ _ _ h8
          split
          · rw [tracks_playAudioFallback, h8t, h7]
          · split
            · rw [← h7, ← h8t]; rfl
            · rw [tracks_playAudioFallback, h8t, h7]
  unfold playSong
  apply key
  have h1 := tracks_initPlayer s
  have h2 : (match (initPlayer s).currentSong with
      | some c => addToRecentlyPlayed c (initPlayer s)
      | none => initPlayer s).tracks = { s.tracks with recentlyPlayed := historyAfterPlay s } := by
    have hc : (initPlayer s).currentSong = s.currentSong := congrArg Tracks.currentSong h1
    have hr : (initPlayer s).recentlyPlayed = s.recentlyPlayed :=
      congrArg Tracks.recentlyPlayed h1
    unfold historyAfterPlay
    split
    · rename_i c hcs
      rw [tracks_addToRecentlyPlayed, h1, hr, ← hc, hcs]
    · rename_i hcs
      rw [h1, ← hc, hcs]
      rfl
  generalize (match (initPlayer s).currentSong with
      | some c => addToRecentlyPlayed c (initPlayer s)
      | none => initPlayer s) = s2 at h2
  have h4 : (stopProtection { s2 with currentSong := some songData, currentArtist := songData.artist, currentAlbum := songData.album }).tracks
      = tracksAfterPlay songData s := by
    rw [tracks_stopProtection]
    simp only [State.tracks, tracksAfterPlay]
    simp only [State.tracks] at h2
    injection h2 with _ _ _ hq hr hs hm
    simp only [hq, hr, hs, hm]
  generalize (stopProtection { s2 with currentSong := some songData, currentArtist := songData.artist, currentAlbum := songData.album }) = s4 at h4
  have h5 : (match s4.audioElement with
      | some _ => { s4 with log := s4.log ++ [Cmd.audioPause] }
      | none => s4).tracks = tracksAfterPlay songData s := by
    split <;> exact h4
  generalize (match s4.audioElement with
      | some _ => { s4 with log := s4.log ++ [Cmd.audioPause] }
      | none => s4) = s5 at h5
  split
  · split <;> exact h5
  · exact h5

theorem queue_playSong (o : Outcome) (songData : Song) (s : State) :
    (playSong o songData s).queue = s.queue :=
  congrArg Tracks.queue (tracks_playSong o songData s)

theorem currentSong_playSong (o : Outcome) (songData : Song) (s : State) :
    (playSong o songData s).currentSong = some songData :=
  congrArg Tracks.currentSong (tracks_playSong o songData s)

theorem recentlyPlayed_playSong (o : Outcome) (songData : Song) (s : State) :
    (playSong o songData s).recentlyPlayed = historyAfterPlay s :=
  congrArg Tracks.recentlyPlayed (tracks_playSong o songData s)

theorem playAll_append (ps : List (Outcome × Song)) (p : Outcome × Song) (s : State) :
    playAll (ps ++ [p]) s = playSong p.1 p.2 (playAll ps s) := by
  unfold playAll
  rw [List.foldl_append]
  rfl

/-- After a non-empty run of plays from an empty history, the current song
is the last one played and the history is the first 50 of the songs played
before it, latest first, followed by the song that was current at the start. -/
theorem playAll_history (ps : List (Outcome × Song)) (p : Outcome × Song) (s : State)
    (hempty : s.recentlyPlayed = []) :
    (playAll (ps ++ [p]) s).currentSong = some p.2 ∧
    (playAll (ps ++ [p]) s).recentlyPlayed =
      ((ps.map Prod.snd).reverse ++ s.currentSong.toList).take 50 := by
  induction ps using List.reverseRecOn generalizing p with
  | nil =>
    refine ⟨by rw [playAll_append, currentSong_playSong], ?_⟩
    rw [playAll_append, recentlyPlayed_playSong]
    unfold historyAfterPlay
    have h0 : playAll [] s = s := rfl
    rw [h0, hempty]
    cases s.currentSong <;> rfl
  | append_singleton qs q ih =>
    obtain ⟨hc, hh⟩ := ih q
    refine ⟨by rw [playAll_append, currentSong_playSong], ?_⟩
    rw [playAll_append, recentlyPlayed_playSong]
    unfold historyAfterPlay
    rw [hc, hh]
    simp only [List.map_append, List.map_cons, List.map_nil, List.reverse_append,
      List.reverse_cons, List.reverse_nil, List.nil_append, List.singleton_append,
      List.cons_append, List.take_succ_cons, List.take_take]
    rfl

theorem restart_cases (play : Bool) (s : State) :
    (∃ p, s.youtubePlayer = some p ∧ p.ready = true ∧
      restart play s = { s with log := s.log ++ [Cmd.ytSeekTo 0] ++
        (if play then [Cmd.ytPlayVideo] else []) }) ∨
    ((∀ p, s.youtubePlayer = some p → ¬ p.ready = true) ∧
      ∃ a, s.audioElement = some a ∧
        restart play s = { s with audioElement := some { a with currentTime := 0 },
                                  log := s.log ++ [Cmd.audioSetCurrentTime 0] ++
                                    (if play then [Cmd.audioPlay] else []) }) ∨
    ((∀ p, s.youtubePlayer = some p → ¬ p.ready = true) ∧ s.audioElement = none ∧
      restart play s = s) := by
  cases hy : s.youtubePlayer with
  | none =>
    cases ha : s.audioElement with
    | none => exact Or.inr (Or.inr ⟨by simp, rfl, by simp [restart, hy, ha]⟩)
    | some a => exact Or.inr (Or.inl ⟨by simp, a, rfl, by simp [restart, hy, ha]⟩)
  | some p =>
    cases hr : p.ready with
    | true => exact Or.inl ⟨p, rfl, hr, by simp [restart, hy, hr]⟩
    | false =>
      have hn : ∀ p2, some p = some p2 → ¬ p2.ready = true := by
        intro p2 e
        cases e
        simp [hr]
      cases ha : s.audioElement with
      | none => exact Or.inr (Or.inr ⟨hn, rfl, by simp [restart, hy, ha, hr]⟩)
      | some a => exact Or.inr (Or.inl ⟨hn, a, rfl, by simp [restart, hy, ha, hr]⟩)

theorem tracks_restart (play : Bool) (s : State) : (restart play s).tracks = s.tracks := by
  rcases restart_cases play s with ⟨p, _, _, he⟩ | ⟨_, a, _, he⟩ | ⟨_, _, he⟩ <;>
    rw [he] <;> rfl

theorem isPlaying_restart (play : Bool) (s : State) :
    (restart play s).isPlaying = s.isPlaying := by
  rcases restart_cases play s with ⟨p, _, _, he⟩ | ⟨_, a, _, he⟩ | ⟨_, _, he⟩ <;>
    rw [he]

theorem findAlbum_congr (music : List Artist) (s t : State) (h : s.tracks = t.tracks) :
    findAlbum music s = findAlbum music t := by
  have ha : s.currentArtist = t.currentArtist := congrArg Tracks.currentArtist h
  have hb : s.currentAlbum = t.currentAlbum := congrArg Tracks.currentAlbum h
  unfold findAlbum
  rw [ha, hb]

theorem playback_setSessionMetadata (v : Option Metadata) (s : State) :
    (setSessionMetadata v s).playback = s.playback := by
  unfold setSessionMetadata
  split
  · split <;> rfl
  · rfl

theorem playback_stopProtection (s : State) : (stopProtection s).playback = s.playback := by
  unfold stopProtection
  simp only
  split
  · split <;> rfl
  · rfl

theorem playback_applyMetadata (s : State) : (applyMetadata s).playback = s.playback := by
  unfold applyMetadata
  split
  · rfl
  · split
    · rfl
    · simp only [playback_setSessionMetadata]

theorem playback_startProtection (s : State) : (startProtection s).playback = s.playback := by
  have h := playback_stopProtection s
  unfold startProtection
  simp only
  split <;> exact h

theorem playback_setMetadata (songData : Song) (s t : State)
    (h : setMetadata songData s = some t) : t.playback = s.playback := by
  unfold setMetadata at h
  split at h
  · cases h; rfl
  · split at h
    · cases h
    · cases h
      rw [playback_startProtection, playback_applyMetadata]
      rfl

theorem findAlbum_eq_of (music : List Artist) (s t : State)
    (ha : s.currentArtist = t.currentArtist) (hb : s.currentAlbum = t.currentAlbum) :
    findAlbum music s = findAlbum music t := by
  unfold findAlbum
  rw [ha, hb]

theorem findAlbum_names (music : List Artist) (s : State) (artist : Artist) (album : Album)
    (h : findAlbum music s = some (artist, album)) :
    s.currentArtist = some artist.artist ∧ s.currentAlbum = some album.album := by
  unfold findAlbum at h
  split at h
  · cases h
  · rename_i a ha
    split at h
    · cases h
    · rename_i al hal
      cases h
      have h1 := List.find?_some ha
      have h2 := List.find?_some hal
      simp only [beq_iff_eq] at h1 h2
      exact ⟨h1.symm, h2.symm⟩

theorem playSong_eq (o : Outcome) (songData : Song) (s : State) :
    playSong o songData s = playSongStart o songData (playSongTeardown songData s) := rfl

theorem isStartCmd_of_audio (c : Cmd) (h : isAudioStartCmd c = true) : isStartCmd c = true := by
  cases c <;> simp_all [isAudioStartCmd, isStartCmd]

theorem playback_fields (a b : State) (h : a.playback = b.playback) :
    a.isPlaying = b.isPlaying ∧ a.audioElement = b.audioElement ∧
    a.youtubePlayer = b.youtubePlayer ∧ a.log = b.log :=
  ⟨congrArg Playback.isPlaying h, congrArg Playback.audioElement h,
    congrArg Playback.youtubePlayer h, congrArg Playback.log h⟩

theorem playback_initPlayer (s : State) :
    (initPlayer s).isPlaying = s.isPlaying ∧ (initPlayer s).log = s.log ∧
    (initPlayer s).youtubePlayer = s.youtubePlayer ∧
    (initPlayer s).audioElement.isSome = true := by
  unfold initPlayer
  split
  · rename_i a ha
    exact ⟨rfl, rfl, rfl, by rw [ha]; rfl⟩
  · simp only
    split
    · obtain ⟨h1, h2, h3, h4⟩ := playback_fields _ _ (playback_setSessionMetadata none
        { s with audioElement := some { src := "", currentTime := 0 } })
      exact ⟨h1, h4, h3, by rw [h2]; rfl⟩
    · exact ⟨rfl, rfl, rfl, rfl⟩

theorem playback_addToRecentlyPlayed (song : Song) (s : State) :
    (addToRecentlyPlayed song s).playback = s.playback := by
  unfold addToRecentlyPlayed
  simp only
  split <;> rfl

theorem playSongTeardown_eq (songData : Song) (s : State) :
    playSongTeardown songData s = pauseBackends (playSongPrepare songData s) := rfl

theorem playback_playSongPrepare (songData : Song) (s : State) :
    (playSongPrepare songData s).isPlaying = s.isPlaying ∧
    (playSongPrepare songData s).log = s.log ∧
    (playSongPrepare songData s).youtubePlayer = s.youtubePlayer ∧
    (playSongPrepare songData s).audioElement.isSome = true := by
  obtain ⟨hi1, hi2, hi3, hi4⟩ := playback_initPlayer s
  have h2 : (match (initPlayer s).currentSong with
      | some c => addToRecentlyPlayed c (initPlayer s)
      | none => initPlayer s).playback = (initPlayer s).playback := by
    split
    · exact playback_addToRecentlyPlayed _ _
    · rfl
  obtain ⟨g1, g2, g3, g4⟩ := playback_fields _ _ h2
  obtain ⟨f1, f2, f3, f4⟩ := playback_fields _ _ (playback_stopProtection
    { (match (initPlayer s).currentSong with
        | some c => addToRecentlyPlayed c (initPlayer s)
        | none => initPlayer s) with
      currentSong := some songData
      currentArtist := songData.artist
      currentAlbum := songData.album })
  unfold playSongPrepare
  refine ⟨?_, ?_, ?_, ?_⟩
  · rw [← hi1, ← g1]; exact f1
  · rw [← hi2, ← g4]; exact f4
  · rw [← hi3, ← g3]; exact f3
  · rw [← hi4, ← g2]; exact congrArg Option.isSome f2

theorem pauseBackends_log (s : State) (ha : s.audioElement.isSome = true) :
    ∃ stops, (pauseBackends s).log = s.log ++ stops ∧
      (∀ c ∈ stops, isStopCmd c = true) ∧ Cmd.audioPause ∈ stops ∧
      (ytReady s → Cmd.ytStopVideo ∈ stops) ∧
      (pauseBackends s).youtubePlayer = s.youtubePlayer ∧
      (pauseBackends s).isPlaying = s.isPlaying ∧
      (pauseBackends s).audioElement = s.audioElement ∧
      (pauseBackends s).tracks = s.tracks := by
  cases hae : s.audioElement with
  | none => rw [hae] at ha; cases ha
  | some a =>
    cases hyt : s.youtubePlayer with
    | none =>
      refine ⟨[Cmd.audioPause], ?_, ?_, by simp, ?_, ?_, ?_, ?_, ?_⟩
      · simp [pauseBackends, hae, hyt]
      · intro c hc
        simp only [List.mem_singleton] at hc
        rw [hc]; rfl
      · rintro ⟨p, hp2, _⟩
        rw [hyt] at hp2
        cases hp2
      · simp [pauseBackends, hae, hyt]
      · simp [pauseBackends, hae, hyt]
      · simp [pauseBackends, hae, hyt]
      · simp [pauseBackends, hae, hyt, State.tracks]
    | some p =>
      cases hr : p.ready with
      | false =>
        refine ⟨[Cmd.audioPause], ?_, ?_, by simp, ?_, ?_, ?_, ?_, ?_⟩
        · simp [pauseBackends, hae, hyt, hr]
        · intro c hc
          simp only [List.mem_singleton] at hc
          rw [hc]; rfl
        · rintro ⟨p2, hp2, hr2⟩
          rw [hyt] at hp2
          cases hp2
          rw [hr] at hr2
          cases hr2
        · simp [pauseBackends, hae, hyt, hr]
        · simp [pauseBackends, hae, hyt, hr]
        · simp [pauseBackends, hae, hyt, hr]
        · simp [pauseBackends, hae, hyt, hr, State.tracks]
      | true =>
        refine ⟨[Cmd.audioPause, Cmd.ytStopVideo], ?_, ?_, by simp, ?_, ?_, ?_, ?_, ?_⟩
        · simp [pauseBackends, hae, hyt, hr]
        · intro c hc
          simp only [List.mem_cons, List.mem_singleton, List.not_mem_nil, or_false] at hc
          rcases hc with rfl | rfl <;> rfl
        · intro _
          simp
        · simp [pauseBackends, hae, hyt, hr]
        · simp [pauseBackends, hae, hyt, hr]
        · simp [pauseBackends, hae, hyt, hr]
        · simp [pauseBackends, hae, hyt, hr, State.tracks]

/-- The teardown appends the pause of the audio element, then the stop of the
video player when it exposes its API, and nothing else; the playing flag and
the video player are as before and the audio element exists. -/
theorem playSongTeardown_log (songData : Song) (s : State) :
    ∃ stops, (playSongTeardown songData s).log = s.log ++ stops ∧
      (∀ c ∈ stops, isStopCmd c = true) ∧ Cmd.audioPause ∈ stops ∧
      (ytReady s → Cmd.ytStopVideo ∈ stops) ∧
      (playSongTeardown songData s).youtubePlayer = s.youtubePlayer ∧
      (playSongTeardown songData s).isPlaying = s.isPlaying ∧
      (playSongTeardown songData s).audioElement.isSome = true := by
  obtain ⟨p1, p2, p3, p4⟩ := playback_playSongPrepare songData s
  obtain ⟨stops, h1, h2, h3, h4, h5, h6, h7, _⟩ :=
    pauseBackends_log (playSongPrepare songData s) p4
  rw [playSongTeardown_eq]
  refine ⟨stops, by rw [h1, p2], h2, h3, ?_, by rw [h5, p3], by rw [h6, p1],
    by rw [h7]; exact p4⟩
  rintro ⟨p, hp, hr⟩
  exact h4 ⟨p, by rw [p3]; exact hp, hr⟩

theorem tryFormat_log (o : Outcome) (songData : Song) (format : String) (s : State) :
    ∃ starts, (tryFormat o songData format s).2.log = s.log ++ starts ∧
      (∀ c ∈ starts, isAudioStartCmd c = true) ∧
      (tryFormat o songData format s).2.youtubePlayer = s.youtubePlayer ∧
      (tryFormat o songData format s).2.isPlaying = s.isPlaying := by
  unfold tryFormat
  split
  · exact ⟨[], by simp, by simp, rfl, rfl⟩
  · exact ⟨[], by simp, by simp, rfl, rfl⟩
  · rename_i title a _ _
    simp only
    split
    · exact ⟨[Cmd.audioSetSrc (audioUrl title format)], rfl,
        by intro c hc; simp only [List.mem_singleton] at hc; rw [hc]; rfl, rfl, rfl⟩
    · have hmem : ∀ c ∈ [Cmd.audioSetSrc (audioUrl title format), Cmd.audioPlay],
          isAudioStartCmd c = true := by
        intro c hc
        simp only [List.mem_cons, List.mem_singleton, List.not_mem_nil, or_false] at hc
        rcases hc with rfl | rfl <;> rfl
      split
      · exact ⟨_, by simp, hmem, rfl, rfl⟩
      · split
        · exact ⟨_, by simp, hmem, rfl, rfl⟩
        · rename_i s3 h3
          obtain ⟨f1, _, f3, f4⟩ := playback_fields _ _ (playback_setMetadata _ _ _ h3)
          exact ⟨_, by rw [f4]; simp, hmem, by rw [f3], by rw [f1]⟩

theorem playAudioFallbackLoop_log (o : Outcome) (songData : Song) (formats : List String)
    (s : State) :
    ∃ starts, (playAudioFallbackLoop o songData formats s).2.log = s.log ++ starts ∧
      (∀ c ∈ starts, isAudioStartCmd c = true) ∧
      (playAudioFallbackLoop o songData formats s).2.youtubePlayer = s.youtubePlayer ∧
      (playAudioFallbackLoop o songData formats s).2.isPlaying = s.isPlaying := by
  induction formats generalizing s with
  | nil => exact ⟨[], by simp [playAudioFallbackLoop], by simp, rfl, rfl⟩
  | cons f fs ih =>
    obtain ⟨st, h1, h2, h3, h4⟩ := tryFormat_log o songData f s
    unfold playAudioFallbackLoop
    split
    · rename_i s1 he
      rw [he] at h1 h3 h4
      exact ⟨st, h1, h2, h3, h4⟩
    · rename_i s1 he
      rw [he] at h1 h3 h4
      obtain ⟨st2, k1, k2, k3, k4⟩ := ih s1
      refine ⟨st ++ st2, ?_, ?_, by rw [k3]; exact h3, by rw [k4]; exact h4⟩
      · rw [k1]
        simp only at h1
        rw [h1, List.append_assoc]
      · intro c hc
        rcases List.mem_append.mp hc with hc | hc
        · exact h2 c hc
        · exact k2 c hc

theorem playAudioFallback_log (o : Outcome) (songData : Song) (s : State) :
    ∃ starts, (playAudioFallback o songData s).2.log = s.log ++ starts ∧
      (∀ c ∈ starts, isAudioStartCmd c = true) ∧
      (playAudioFallback o songData s).2.youtubePlayer = s.youtubePlayer ∧
      (playAudioFallback o songData s).2.isPlaying = s.isPlaying :=
  playAudioFallbackLoop_log o songData _ s

/-- The start part appends start commands only; a video is loaded only on a
player that exposes its API, and a player that is there stays as it is. -/
theorem playSongStart_log (o : Outcome) (songData : Song) (s : State) :
    ∃ starts, (playSongStart o songData s).log = s.log ++ starts ∧
      (∀ c ∈ starts, isStartCmd c = true) ∧
      ((∃ videoId, Cmd.ytLoadVideoById videoId ∈ starts) →
        ytReady (playSongStart o songData s)) ∧
      (ytReady s → ytReady (playSongStart o songData s)) := by
  have audio : ∀ s0 : State, (ytReady s → ytReady s0) → ∀ pre : List Cmd,
      s0.log = s.log ++ pre → (∀ c ∈ pre, isAudioStartCmd c = true) →
      ∃ starts, (playAudioFallback o songData s0).2.log = s.log ++ starts ∧
        (∀ c ∈ starts, isStartCmd c = true) ∧
        ((∃ videoId, Cmd.ytLoadVideoById videoId ∈ starts) →
          ytReady (playAudioFallback o songData s0).2) ∧
        (ytReady s → ytReady (playAudioFallback o songData s0).2) := by
    intro s0 hr pre hpre hall
    obtain ⟨st, h1, h2, h3, _⟩ := playAudioFallback_log o songData s0
    have hall2 : ∀ c ∈ pre ++ st, isAudioStartCmd c = true := by
      intro c hc
      rcases List.mem_append.mp hc with hc | hc
      · exact hall c hc
      · exact h2 c hc
    refine ⟨pre ++ st, by rw [h1, hpre, List.append_assoc], ?_, ?_, ?_⟩
    · intro c hc
      exact isStartCmd_of_audio c (hall2 c hc)
    · rintro ⟨videoId, hv⟩
      have := hall2 _ hv
      cases this
    · intro hs
      obtain ⟨p, hp, hpr⟩ := hr hs
      exact ⟨p, by rw [h3]; exact hp, hpr⟩
  unfold playSongStart
  split
  · exact audio s id [] (by simp) (by simp)
  · rename_i videoId _
    split
    · exact audio s id [] (by simp) (by simp)
    · have h7 : ∀ s7 : State,
          s7 = (match s.youtubePlayer with
            | none => { s with youtubePlayer := o.ytAfterWait }
            | some _ => s) →
          s7.log = s.log ∧ (ytReady s → ytReady s7) := by
        intro s7 e
        subst e
        split
        · rename_i hnone
          refine ⟨rfl, ?_⟩
          rintro ⟨p, hp, _⟩
          rw [hnone] at hp
          cases hp
        · exact ⟨rfl, id⟩
      obtain ⟨l7, r7⟩ := h7 _ rfl
      simp only
      split
      · exact audio _ r7 [] (by rw [l7]; simp) (by simp)
      · rename_i s8 h8
        obtain ⟨_, _, f3, f4⟩ := playback_fields _ _ (playback_setMetadata _ _ _ h8)
        have r8 : ytReady s → ytReady s8 := by
          intro hs
          obtain ⟨p, hp, hpr⟩ := r7 hs
          exact ⟨p, by rw [f3]; exact hp, hpr⟩
        have l8 : s8.log = s.log := by rw [f4]; exact l7
        split
        · exact audio _ r8 [] (by rw [l8]; simp) (by simp)
        · rename_i p hp
          split
          · rename_i hready
            have hpr : p.ready = true := by
              simp only [Bool.and_eq_true] at hready
              exact hready.1
            refine ⟨[Cmd.ytLoadVideoById videoId], by simp [l8], ?_, ?_, ?_⟩
            · intro c hc
              simp only [List.mem_singleton] at hc
              rw [hc]; rfl
            · intro _
              exact ⟨p, hp, hpr⟩
            · intro _
              exact ⟨p, hp, hpr⟩
          · exact audio _ r8 [] (by rw [l8]; simp) (by simp)

/-- The commands of one `playSong` call: stop commands, then start commands. -/
theorem playSong_log (o : Outcome) (songData : Song) (s : State) :
    ∃ stops starts, (playSong o songData s).log = s.log ++ stops ++ starts ∧
      (∀ c ∈ stops, isStopCmd c = true) ∧ (∀ c ∈ starts, isStartCmd c = true) ∧
      Cmd.audioPause ∈ stops ∧ (ytReady s → Cmd.ytStopVideo ∈ stops) ∧
      ((∃ videoId, Cmd.ytLoadVideoById videoId ∈ starts) →
        ytReady (playSong o songData s)) ∧
      (ytReady s → ytReady (playSong o songData s)) := by
  obtain ⟨stops, h1, h2, h3, h4, h5, _, _⟩ := playSongTeardown_log songData s
  obtain ⟨starts, k1, k2, k3, k4⟩ := playSongStart_log o songData (playSongTeardown songData s)
  rw [playSong_eq]
  refine ⟨stops, starts, by rw [k1, h1], h2, k2, h3, h4, k3, ?_⟩
  intro hs
  apply k4
  obtain ⟨p, hp, hpr⟩ := hs
  exact ⟨p, by rw [h5]; exact hp, hpr⟩

/-- Over a run of `playSong` calls from a state in which no video was loaded
yet, a video has been loaded only if the player exposes its API. -/
theorem playAll_ytReady (plays : List (Outcome × Song)) (s : State)
    (h : (∃ videoId, Cmd.ytLoadVideoById videoId ∈ s.log) → ytReady s) :
    (∃ videoId, Cmd.ytLoadVideoById videoId ∈ (playAll plays s).log) →
      ytReady (playAll plays s) := by
  induction plays generalizing s with
  | nil => exact h
  | cons p ps ih =>
    have e : playAll (p :: ps) s = playAll ps (playSong p.1 p.2 s) := rfl
    rw [e]
    apply ih
    obtain ⟨stops, starts, h1, h2, _, _, _, h6, h7⟩ := playSong_log p.1 p.2 s
    rintro ⟨videoId, hv⟩
    rw [h1] at hv
    rcases List.mem_append.mp hv with hv | hv
    · rcases List.mem_append.mp hv with hv | hv
      · exact h7 (h ⟨videoId, hv⟩)
      · have := h2 _ hv
        cases this
    · exact h6 ⟨videoId, hv⟩

theorem playSongStart_video (o : Outcome) (songData : Song) (s6 : State) (videoId : String)
    (hv : songData.youtube = some videoId) (hne : videoId ≠ "") :
    playSongStart o songData s6 =
      match setMetadata songData (awaitPlayer o s6) with
      | none => (playAudioFallback o songData (awaitPlayer o s6)).2
      | some s8 =>
        match s8.youtubePlayer with
        | none => (playAudioFallback o songData s8).2
        | some p =>
          if p.ready && !o.ytLoadThrows then
            { s8 with log := s8.log ++ [Cmd.ytLoadVideoById videoId], isPlaying := true }
          else (playAudioFallback o songData s8).2 := by
  have hb : (videoId == "") = false := by simpa using hne
  unfold playSongStart
  rw [hv]
  simp only [hb]
  rfl

theorem nextTrack_cases (music : List Artist) (o : Outcome) (s t : State)
    (h : nextTrack music o s = some t) :
    t = stopProtection s ∨ ∃ x s1, t = playSong o x s1 := by
  unfold nextTrack at h
  simp only at h
  split at h
  · cases h
    exact Or.inr ⟨_, _, rfl⟩
  · split at h
    · cases h
      exact Or.inl rfl
    · split at h
      · split at h
        · cases h
        · cases h
          exact Or.inr ⟨_, _, rfl⟩
      · cases h
        exact Or.inl rfl

theorem previousTrack_cases (music : List Artist) (o : Outcome) (s t : State)
    (h : previousTrack music o s = some t) :
    t = restart false s ∨ t = stopProtection s ∨ ∃ x s1, t = playSong o x s1 := by
  unfold previousTrack at h
  split at h
  · cases h
    exact Or.inl rfl
  · simp only at h
    split at h
    · cases h
      exact Or.inr (Or.inr ⟨_, _, rfl⟩)
    · split at h
      · cases h
        exact Or.inr (Or.inl rfl)
      · split at h
        · split at h
          · cases h
          · cases h
            exact Or.inr (Or.inr ⟨_, _, rfl⟩)
        · cases h
          exact Or.inr (Or.inl rfl)

theorem handleSongEnd_cases (music : List Artist) (o : Outcome) (r : ℚ) (s t : State)
    (h : handleSongEnd music o r s = some t) :
    t = restart true s ∨ t = stopProtection s ∨ t = stopPlayback s ∨
      ∃ x s1, t = playSong o x s1 := by
  unfold handleSongEnd at h
  split at h
  · cases h
    exact Or.inl rfl
  · split at h
    · rcases nextTrack_cases music o s t h with h1 | h1
      · exact Or.inr (Or.inl h1)
      · exact Or.inr (Or.inr (Or.inr h1))
    · split at h
      · cases h
        exact Or.inr (Or.inr (Or.inl rfl))
      · split at h
        · cases h
          exact Or.inr (Or.inr (Or.inl rfl))
        · split at h
          · split at h
            · cases h
              exact Or.inr (Or.inr (Or.inr ⟨_, _, rfl⟩))
            · cases h
              exact Or.inr (Or.inr (Or.inl rfl))
          · split at h
            · split at h
              · cases h
              · simp only at h
                split at h
                · cases h
                  exact Or.inr (Or.inr (Or.inr ⟨_, _, rfl⟩))
                · cases h
                  exact Or.inr (Or.inr (Or.inl rfl))
            · cases h
              exact Or.inr (Or.inr (Or.inl rfl))

theorem togglePlayPause_cases (s : State) :
    togglePlayPause s = s ∨
      ∃ c, togglePlayPause s = { s with log := s.log ++ [c] } ∧
        (c = Cmd.ytPauseVideo ∨ c = Cmd.audioPause ∨ c = Cmd.ytPlayVideo ∨
          c = Cmd.audioPlay) := by
  unfold togglePlayPause
  split
  · exact Or.inl rfl
  · split
    · split
      · exact Or.inr ⟨_, rfl, Or.inl rfl⟩
      · split
        · exact Or.inr ⟨_, rfl, Or.inr (Or.inl rfl)⟩
        · exact Or.inl rfl
    · split
      · exact Or.inr ⟨_, rfl, Or.inr (Or.inr (Or.inl rfl))⟩
      · split
        · exact Or.inr ⟨_, rfl, Or.inr (Or.inr (Or.inr rfl))⟩
        · exact Or.inl rfl

/-- A property that holds initially and after every `playSong`, and that
`stopProtection`, the restart seek, `stopPlayback` and the logging of one
command preserve, holds in every reachable state. -/
theorem reachable_induction (music : List Artist) (P : State → Prop)
    (hinit : ∀ b : Bool, P { State.init with hasMediaSession := b })
    (hplay : ∀ o x s, P (playSong o x s))
    (hprot : ∀ s, P s → P (stopProtection s))
    (hrestart : ∀ b s, P s → P (restart b s))
    (hstop : ∀ s, P s → P (stopPlayback s))
    (hlog : ∀ (c : Cmd) (s : State), P s → P { s with log := s.log ++ [c] }) :
    ∀ s, Reachable music s → P s := by
  intro s hs
  induction hs with
  | init b => exact hinit b
  | playSong o x s _ _ => exact hplay o x s
  | nextTrack o s t _ h ih =>
    rcases nextTrack_cases music o s t h with rfl | ⟨x, s1, rfl⟩
    · exact hprot s ih
    · exact hplay o x s1
  | previousTrack o s t _ h ih =>
    rcases previousTrack_cases music o s t h with rfl | rfl | ⟨x, s1, rfl⟩
    · exact hrestart false s ih
    · exact hprot s ih
    · exact hplay o x s1
  | handleSongEnd o r s t _ h ih =>
    rcases handleSongEnd_cases music o r s t h with rfl | rfl | rfl | ⟨x, s1, rfl⟩
    · exact hrestart true s ih
    · exact hprot s ih
    · exact hstop s ih
    · exact hplay o x s1
  | stopPlayback s _ ih => exact hstop s ih
  | togglePlayPause s _ ih =>
    rcases togglePlayPause_cases s with h | ⟨c, h, _⟩
    · rw [h]; exact ih
    · rw [h]; exact hlog c s ih

theorem audio_tryFormat (o : Outcome) (songData : Song) (format : String) (s : State)
    (h : s.audioElement.isSome = true) :
    (tryFormat o songData format s).2.audioElement.isSome = true := by
  unfold tryFormat
  split
  · exact h
  · exact h
  · simp only
    split
    · rfl
    · split
      · rfl
      · split
        · rfl
        · rename_i s3 h3
          obtain ⟨_, f2, _, _⟩ := playback_fields _ _ (playback_setMetadata _ _ _ h3)
          rw [f2]
          rfl

theorem audio_playAudioFallbackLoop (o : Outcome) (songData : Song) (formats : List String)
    (s : State) (h : s.audioElement.isSome = true) :
    (playAudioFallbackLoop o songData formats s).2.audioElement.isSome = true := by
  induction formats generalizing s with
  | nil => exact h
  | cons f fs ih =>
    have h1 := audio_tryFormat o songData f s h
    unfold playAudioFallbackLoop
    split
    · rename_i s1 he
      rw [he] at h1
      exact h1
    · rename_i s1 he
      rw [he] at h1
      exact ih s1 h1

theorem audio_playSongStart (o : Outcome) (songData : Song) (s : State)
    (h : s.audioElement.isSome = true) :
    (playSongStart o songData s).audioElement.isSome = true := by
  have fb : ∀ s0 : State, s0.audioElement.isSome = true →
      (playAudioFallback o songData s0).2.audioElement.isSome = true :=
    fun s0 h0 => audio_playAudioFallbackLoop o songData _ s0 h0
  unfold playSongStart
  split
  · exact fb s h
  · split
    · exact fb s h
    · have h7 : (match s.youtubePlayer with
          | none => { s with youtubePlayer := o.ytAfterWait }
          | some _ => s).audioElement.isSome = true := by
        split <;> exact h
      simp only
      split
      · exact fb _ h7
      · rename_i s8 h8
        obtain ⟨_, f2, _, _⟩ := playback_fields _ _ (playback_setMetadata _ _ _ h8)
        have h8a : s8.audioElement.isSome = true := by rw [f2]; exact h7
        split
        · exact fb _ h8a
        · split
          · exact h8a
          · exact fb _ h8a

theorem audio_playSong (o : Outcome) (songData : Song) (s : State) :
    (playSong o songData s).audioElement.isSome = true := by
  obtain ⟨_, _, _, _, _, _, _, h⟩ := playSongTeardown_log songData s
  rw [playSong_eq]
  exact audio_playSongStart o songData _ h

theorem playback_stopPlayback (s : State) :
    (stopPlayback s).audioElement = s.audioElement ∧
    (stopPlayback s).youtubePlayer = s.youtubePlayer := by
  unfold stopPlayback
  obtain ⟨_, f2, f3, _⟩ := playback_fields _ _ (playback_stopProtection
    { (match (match s.youtubePlayer with
          | some p => if p.ready then { s with log := s.log ++ [Cmd.ytStopVideo] } else s
          | none => s).audioElement with
        | some _ => { (match s.youtubePlayer with
            | some p => if p.ready then { s with log := s.log ++ [Cmd.ytStopVideo] } else s
            | none => s) with log := (match s.youtubePlayer with
            | some p => if p.ready then { s with log := s.log ++ [Cmd.ytStopVideo] } else s
            | none => s).log ++ [Cmd.audioPause] }
        | none => (match s.youtubePlayer with
            | some p => if p.ready then { s with log := s.log ++ [Cmd.ytStopVideo] } else s
            | none => s)) with isPlaying := false })
  simp only
  rw [f2, f3]
  constructor <;> (split <;> (try split) <;> (try split) <;> rfl)

/-! ## Index arithmetic -/

theorem findIndex_of_first {α : Type} (p : α → Bool) (xs : List α) (i : Nat) (x : α)
    (hx : xs[i]? = some x) (hp : p x = true)
    (hfirst : ∀ j y, j < i → xs[j]? = some y → p y = false) :
    findIndex p xs = (i : Int) := by
  obtain ⟨hi, hxi⟩ := List.getElem?_eq_some.mp hx
  have hidx : List.findIdx p xs = i := by
    rw [List.findIdx_eq hi]
    refine ⟨by rw [hxi]; exact hp, ?_⟩
    intro j hji
    exact hfirst j _ hji (List.getElem?_eq_getElem (Nat.lt_trans hji hi))
  unfold findIndex
  rw [hidx, if_pos hi]

theorem findIndex_of_absent {α : Type} (p : α → Bool) (xs : List α)
    (h : ∀ x ∈ xs, p x = false) : findIndex p xs = -1 := by
  unfold findIndex
  rw [List.findIdx_eq_length_of_false h, if_neg (Nat.lt_irrefl _)]

theorem elemAt_natCast {α : Type} (xs : List α) (n : Nat) :
    elemAt xs (n : Int) = xs[n]? := by
  unfold elemAt
  rw [if_neg (by omega)]
  rfl

theorem jsRem_natCast (a b : Nat) : jsRem (a : Int) (b : Int) = ((a % b : Nat) : Int) := by
  unfold jsRem
  exact (Int.ofNat_tmod a b).symm

theorem findIndex_title (album : Album) (cur x : Song) (i : Nat)
    (hx : album.songs[i]? = some x) (hxt : x.title = cur.title)
    (hfirst : ∀ j y, j < i → album.songs[j]? = some y → y.title ≠ cur.title) :
    findIndex (fun z => z.title == cur.title) album.songs = (i : Int) := by
  apply findIndex_of_first _ _ i x hx
  · simpa using hxt
  · intro j y hj hy
    simpa using hfirst j y hj hy

theorem next_index (n i : Nat) :
    jsRem ((i : Int) + 1) (n : Int) = (((i + 1) % n : Nat) : Int) := by
  rw [← jsRem_natCast]
  congr 1

theorem tracks_stopPlayback (s : State) : (stopPlayback s).tracks = s.tracks := by
  unfold stopPlayback
  rw [tracks_stopProtection]
  split <;> split <;> (try split) <;> rfl

theorem isPlaying_stopPlayback (s : State) : (stopPlayback s).isPlaying = false := by
  unfold stopPlayback
  rw [isPlaying_stopProtection]

theorem handleSongEnd_of_one (music : List Artist) (o : Outcome) (r : ℚ) (s : State)
    (h : s.repeatMode = RepeatMode.one) :
    handleSongEnd music o r s = some (restart true s) := by
  unfold handleSongEnd
  rw [if_pos h]

theorem handleSongEnd_stop (music : List Artist) (o : Outcome) (r : ℚ) (s : State)
    (hq : s.queue = []) (hone : s.repeatMode ≠ RepeatMode.one)
    (hstop : (s.shuffleMode = false ∧ s.repeatMode = RepeatMode.off) ∨
      findAlbum music s = none ∨
      ∃ artist album, findAlbum music s = some (artist, album) ∧ album.songs = []) :
    handleSongEnd music o r s = some (stopPlayback s) := by
  unfold handleSongEnd
  rw [if_neg hone]
  have hq0 : ¬ s.queue.length > 0 := by rw [hq]; simp
  rw [if_neg hq0]
  rcases hstop with ⟨hsh, hoff⟩ | hnone | ⟨artist, album, hfa, hempty⟩
  · cases hfa : findAlbum music s with
    | none => rfl
    | some pr =>
      obtain ⟨artist, album⟩ := pr
      simp only
      split
      · rfl
      · simp [hsh, hoff]
  · rw [hnone]
  · rw [hfa]
    simp [hempty]

theorem first_of_nodup (album : Album) (x : Song) (i : Nat)
    (hnodup : (album.songs.map fun z => z.title).Nodup)
    (hx : album.songs[i]? = some x) :
    ∀ j y, j < i → album.songs[j]? = some y → y.title ≠ x.title := by
  intro j y hj hy he
  obtain ⟨hi, _⟩ := List.getElem?_eq_some.mp hx
  have hne := List.nodup_iff_getElem?_ne_getElem?.mp hnodup j i hj
    (by rw [List.length_map]; exact hi)
  apply hne
  rw [List.getElem?_map, List.getElem?_map, hx, hy]
  simp only [Option.map_some']
  rw [he]

theorem title_catalogSong (artist : Artist) (album : Album) (i : Nat) (x : Song)
    (hx : album.songs[i]? = some x) :
    (catalogSong artist album (i : Int)).title = x.title ∧
    catalogSong artist album (i : Int) =
      { x with artist := some artist.artist, album := some album.album,
               cover := some (getAlbumImageUrl album.album) } := by
  unfold catalogSong
  rw [elemAt_natCast, hx]
  exact ⟨rfl, rfl⟩

/-- One `nextTrack` call with an empty queue on an album without repeated
titles: from a current song titled like the song at index `i`, the song at
index (i + 1) mod K becomes current and the lookup still resolves. -/
theorem nextTrack_step (music : List Artist) (o : Outcome) (s : State)
    (artist : Artist) (album : Album) (cur x : Song) (i : Nat)
    (hnodup : (album.songs.map fun z => z.title).Nodup)
    (hq : s.queue = []) (hfa : findAlbum music s = some (artist, album))
    (hcur : s.currentSong = some cur) (hx : album.songs[i]? = some x)
    (hxt : cur.title = x.title) :
    ∃ t, nextTrack music o s = some t ∧ t.queue = [] ∧
      findAlbum music t = some (artist, album) ∧
      t.currentSong = some (catalogSong artist album
        (((i + 1) % album.songs.length : Nat) : Int)) := by
  have hst := tracks_stopProtection s
  obtain ⟨hi, _⟩ := List.getElem?_eq_some.mp hx
  have hK : 0 < album.songs.length := Nat.lt_of_le_of_lt (Nat.zero_le _) hi
  have hidx := findIndex_title album cur x i hx hxt.symm
    (by
      intro j y hj hy
      rw [hxt]
      exact first_of_nodup album x i hnodup hx j y hj hy)
  have hq1 : (stopProtection s).queue = [] := by
    rw [← hq]; exact congrArg Tracks.queue hst
  have hfa1 : findAlbum music (stopProtection s) = some (artist, album) := by
    rw [findAlbum_congr music _ _ hst]; exact hfa
  have hcur1 : (stopProtection s).currentSong = some cur := by
    rw [← hcur]; exact congrArg Tracks.currentSong hst
  have hp : nextTrack music o s = some (playSong o
      (catalogSong artist album (((i + 1) % album.songs.length : Nat) : Int))
      (stopProtection s)) := by
    unfold nextTrack
    simp only [hq1, hfa1, hcur1, hidx, next_index, if_pos hK]
  obtain ⟨hna, hnb⟩ := findAlbum_names music s artist album hfa
  refine ⟨_, hp, ?_, ?_, currentSong_playSong _ _ _⟩
  · rw [queue_playSong]; exact hq1
  · rw [← hfa]
    apply findAlbum_eq_of
    · rw [hna]
      exact congrArg Tracks.currentArtist (tracks_playSong _ _ _)
    · rw [hnb]
      exact congrArg Tracks.currentAlbum (tracks_playSong _ _ _)

/-- After `n` calls of `nextTrack` the index has advanced by `n` modulo K. -/
theorem nextTracks_index (music : List Artist) (artist : Artist) (album : Album)
    (hnodup : (album.songs.map fun z => z.title).Nodup) (os : List Outcome) :
    ∀ (s : State) (cur x : Song) (i : Nat), s.queue = [] →
      findAlbum music s = some (artist, album) → s.currentSong = some cur →
      album.songs[i]? = some x → cur.title = x.title → 0 < os.length →
      ∃ t, nextTracks music os s = some t ∧
        t.currentSong = some (catalogSong artist album
          (((i + os.length) % album.songs.length : Nat) : Int)) := by
  induction os with
  | nil =>
    intro s cur x i _ _ _ _ _ hpos
    exact absurd hpos (Nat.lt_irrefl 0)
  | cons o rest ih =>
    intro s cur x i hq hfa hcur hx hxt _
    obtain ⟨hi, _⟩ := List.getElem?_eq_some.mp hx
    have hK : 0 < album.songs.length := Nat.lt_of_le_of_lt (Nat.zero_le _) hi
    obtain ⟨t, ht, htq, htfa, htcur⟩ :=
      nextTrack_step music o s artist album cur x i hnodup hq hfa hcur hx hxt
    have hj : (i + 1) % album.songs.length < album.songs.length := Nat.mod_lt _ hK
    have hy : album.songs[(i + 1) % album.songs.length]? =
        some (album.songs.get ⟨_, hj⟩) := List.getElem?_eq_getElem hj
    have hstep : nextTracks music (o :: rest) s = nextTracks music rest t := by
      unfold nextTracks
      rw [List.foldlM_cons, ht]
      rfl
    rw [hstep]
    cases rest with
    | nil =>
      refine ⟨t, rfl, ?_⟩
      rw [htcur]
      rfl
    | cons o2 rest2 =>
      obtain ⟨u, hu, hucur⟩ := ih t _ _ ((i + 1) % album.songs.length) htq htfa htcur hy
        (title_catalogSong artist album _ _ hy).1 (by simp)
      have e : ((i + 1) % album.songs.length + (o2 :: rest2).length) % album.songs.length
          = (i + (o :: o2 :: rest2).length) % album.songs.length := by
        rw [Nat.mod_add_mod]
        have e2 : i + 1 + (o2 :: rest2).length = i + (o :: o2 :: rest2).length := by
          simp only [List.length_cons]
          omega
        rw [e2]
      refine ⟨u, hu, ?_⟩
      rw [hucur, e]

theorem nextTrack_unresolved (music : List Artist) (o : Outcome) (s : State)
    (hq : s.queue = [])
    (hun : findAlbum music s = none ∨
      ∃ artist album, findAlbum music s = some (artist, album) ∧ album.songs = []) :
    nextTrack music o s = some (stopProtection s) := by
  have hst := tracks_stopProtection s
  have hq1 : (stopProtection s).queue = [] := by
    rw [← hq]; exact congrArg Tracks.queue hst
  have hfa1 : findAlbum music (stopProtection s) = findAlbum music s :=
    findAlbum_congr music _ _ hst
  unfold nextTrack
  simp only [hq1, hfa1]
  rcases hun with hnone | ⟨artist, album, hfa, hempty⟩
  · rw [hnone]
  · rw [hfa]
    simp [hempty]

theorem previousTrack_unresolved (music : List Artist) (o : Outcome) (s : State)
    (ht : readCurrentTime s ≤ 3) (hrp : s.recentlyPlayed = [])
    (hun : findAlbum music s = none ∨
      ∃ artist album, findAlbum music s = some (artist, album) ∧ album.songs = []) :
    previousTrack music o s = some (stopProtection s) := by
  have hnot : ¬ readCurrentTime s > 3 := not_lt.mpr ht
  have hst := tracks_stopProtection s
  have hrp1 : (stopProtection s).recentlyPlayed = [] := by
    rw [← hrp]; exact congrArg Tracks.recentlyPlayed hst
  have hfa1 : findAlbum music (stopProtection s) = findAlbum music s :=
    findAlbum_congr music _ _ hst
  unfold previousTrack
  rw [if_neg hnot]
  simp only [hrp1, hfa1]
  rcases hun with hnone | ⟨artist, album, hfa, hempty⟩
  · rw [hnone]
  · rw [hfa]
    simp [hempty]

/-- In every reachable state with a current song the audio element exists. -/
theorem reachable_audio (music : List Artist) (s : State) (h : Reachable music s) :
    s.currentSong ≠ none → s.audioElement.isSome = true := by
  refine reachable_induction music
    (fun st => st.currentSong ≠ none → st.audioElement.isSome = true)
    ?_ ?_ ?_ ?_ ?_ ?_ s h
  · intro b hc
    exact absurd rfl hc
  · intro o x st _
    exact audio_playSong o x st
  · intro st ih hc
    obtain ⟨_, f2, _, _⟩ := playback_fields _ _ (playback_stopProtection st)
    have hcur : (stopProtection st).currentSong = st.currentSong :=
      congrArg Tracks.currentSong (tracks_stopProtection st)
    rw [hcur] at hc
    rw [f2]
    exact ih hc
  · intro b st ih hc
    have hcur : (restart b st).currentSong = st.currentSong :=
      congrArg Tracks.currentSong (tracks_restart b st)
    rw [hcur] at hc
    have ha := ih hc
    rcases restart_cases b st with ⟨p, _, _, he⟩ | ⟨_, a, _, he⟩ | ⟨_, _, he⟩
    · rw [he]; exact ha
    · rw [he]; rfl
    · rw [he]; exact ha
  · intro st ih hc
    have hcur : (stopPlayback st).currentSong = st.currentSong :=
      congrArg Tracks.currentSong (tracks_stopPlayback st)
    rw [hcur] at hc
    rw [(playback_stopPlayback st).1]
    exact ih hc
  · intro c st ih hc
    exact ih hc

/-! ## The metadata manager: what each method leaves behind -/

theorem stopProtection_fields (s : State) :
    (stopProtection s).metadataProtectionActive = false ∧
    (stopProtection s).currentMetadata = s.currentMetadata ∧
    (stopProtection s).sessionMetadata = s.sessionMetadata ∧
    (stopProtection s).hasMediaSession = s.hasMediaSession ∧
    (stopProtection s).hijackAttempts = s.hijackAttempts := by
  unfold stopProtection
  simp only
  split
  · split <;> exact ⟨rfl, rfl, rfl, rfl, rfl⟩
  · exact ⟨rfl, rfl, rfl, rfl, rfl⟩

theorem startProtection_fields (s : State) :
    (startProtection s).metadataProtectionActive = true ∧
    (startProtection s).currentMetadata = s.currentMetadata ∧
    (startProtection s).sessionMetadata = s.sessionMetadata ∧
    (startProtection s).hasMediaSession = s.hasMediaSession ∧
    (startProtection s).hijackAttempts = s.hijackAttempts ∧
    (startProtection s).protectionInterval = some s.nextTimerId := by
  obtain ⟨_, h2, h3, h4, h5⟩ := stopProtection_fields s
  have hn : (stopProtection s).nextTimerId = s.nextTimerId := by
    unfold stopProtection
    simp only
    split
    · split <;> rfl
    · rfl
  unfold startProtection
  simp only
  split
  · exact ⟨rfl, h2, h3, h4, h5, by rw [hn]⟩
  · exact ⟨rfl, h2, h3, h4, h5, by rw [hn]⟩

theorem newMediaMetadata_intended (s : State) (m : Metadata)
    (hm : s.currentMetadata = some m) : newMediaMetadata m s = m := by
  unfold newMediaMetadata
  split
  · rw [hm]
  · rfl

theorem setSessionMetadata_none (s : State) :
    setSessionMetadata none s = { s with sessionMetadata := none } := by
  cases h1 : s.setterIntercepted <;> cases h2 : s.metadataProtectionActive <;>
    cases h3 : s.currentMetadata <;> simp [setSessionMetadata, h1, h2, h3]

theorem setSessionMetadata_intended (s : State) (m : Metadata)
    (hm : s.currentMetadata = some m) :
    setSessionMetadata (some m) s = { s with sessionMetadata := some m } := by
  have hn := newMediaMetadata_intended s m hm
  cases h1 : s.setterIntercepted <;> cases h2 : s.metadataProtectionActive <;>
    simp [setSessionMetadata, h1, h2, hm, hn]

/-- With a media session, `applyMetadata` leaves the intended descriptor on
the session and changes nothing else. -/
theorem applyMetadata_eq (s : State) (m : Metadata) (hm : s.currentMetadata = some m)
    (hms : s.hasMediaSession = true) :
    applyMetadata s = { s with sessionMetadata := some m } := by
  have hm1 : ({ s with sessionMetadata := none } : State).currentMetadata = some m := hm
  have key : applyMetadata s =
      setSessionMetadata (some (newMediaMetadata m (setSessionMetadata none s)))
        (setSessionMetadata none s) := by
    unfold applyMetadata
    rw [hm]
    simp only [hms, Bool.not_true, Bool.false_eq_true, if_false]
  rw [key, setSessionMetadata_none, newMediaMetadata_intended _ m hm1,
    setSessionMetadata_intended _ m hm1]

/-- What a successful `setMetadata` call does on a page with a media session:
the descriptor built from the song alone is stored and written to the
session, and protection is active with a registered interval. -/
theorem setMetadata_fields (songData : Song) (s : State) (m : Metadata)
    (hms : s.hasMediaSession = true) (hb : buildMetadata songData = some m) :
    ∃ t, setMetadata songData s = some t ∧ t.currentMetadata = some m ∧
      t.sessionMetadata = some m ∧ t.metadataProtectionActive = true ∧
      t.hasMediaSession = true ∧ t.hijackAttempts = s.hijackAttempts ∧
      t.protectionInterval = some s.nextTimerId := by
  have ha := applyMetadata_eq { s with currentMetadata := some m } m rfl hms
  obtain ⟨f1, f2, f3, f4, f5, f6⟩ :=
    startProtection_fields (applyMetadata { s with currentMetadata := some m })
  refine ⟨startProtection (applyMetadata { s with currentMetadata := some m }), ?_,
    ?_, ?_, f1, ?_, ?_, ?_⟩
  · unfold setMetadata
    simp only [hms, hb, Bool.not_true, Bool.false_eq_true, if_false]
  · rw [f2, ha]
  · rw [f3, ha]
  · rw [f4, ha]; exact hms
  · rw [f5, ha]
  · rw [f6, ha]

theorem setMetadata_no_session (songData : Song) (s : State)
    (hms : s.hasMediaSession = false) : setMetadata songData s = some s := by
  unfold setMetadata
  simp [hms]

theorem descriptorOf_setMetadata (x : Song) (s t : State)
    (h : setMetadata x s = some t) (hs : DescriptorOf x s) : DescriptorOf x t := by
  cases hms : s.hasMediaSession with
  | false =>
    rw [setMetadata_no_session x s hms] at h
    cases h
    exact hs
  | true =>
    cases hb : buildMetadata x with
    | none =>
      unfold setMetadata at h
      simp [hms, hb] at h
    | some m =>
      obtain ⟨t2, ht2, g1, _, _, _, _, _⟩ := setMetadata_fields x s m hms hb
      rw [ht2] at h
      cases h
      intro _
      exact ⟨g1.trans hb.symm, by rw [hb]; rfl⟩

theorem descriptorOf_tryFormat (o : Outcome) (x : Song) (format : String) (s : State)
    (hs : DescriptorOf x s) : DescriptorOf x (tryFormat o x format s).2 := by
  unfold tryFormat
  split
  · exact hs
  · exact hs
  · simp only
    split
    · exact hs
    · split
      · exact hs
      · split
        · exact hs
        · rename_i s3 h3
          exact descriptorOf_setMetadata x _ s3 h3 hs

theorem descriptorOf_playAudioFallbackLoop (o : Outcome) (x : Song) (formats : List String)
    (s : State) (hs : DescriptorOf x s) :
    DescriptorOf x (playAudioFallbackLoop o x formats s).2 := by
  induction formats generalizing s with
  | nil => exact hs
  | cons f fs ih =>
    have h1 := descriptorOf_tryFormat o x f s hs
    unfold playAudioFallbackLoop
    split
    · rename_i s1 he
      rw [he] at h1
      exact h1
    · rename_i s1 he
      rw [he] at h1
      exact ih s1 h1

theorem descriptorOf_playSongStart (o : Outcome) (x : Song) (s : State)
    (hs : DescriptorOf x s) : DescriptorOf x (playSongStart o x s) := by
  have fb : ∀ s0 : State, DescriptorOf x s0 → DescriptorOf x (playAudioFallback o x s0).2 :=
    fun s0 h0 => descriptorOf_playAudioFallbackLoop o x _ s0 h0
  unfold playSongStart
  split
  · exact fb s hs
  · split
    · exact fb s hs
    · have h7 : DescriptorOf x (match s.youtubePlayer with
          | none => { s with youtubePlayer := o.ytAfterWait }
          | some _ => s) := by
        split <;> exact hs
      simp only
      split
      · exact fb _ h7
      · rename_i s8 h8
        have h8d := descriptorOf_setMetadata x _ s8 h8 h7
        split
        · exact fb _ h8d
        · split
          · exact h8d
          · exact fb _ h8d

theorem inactive_playSongTeardown (x : Song) (s : State) :
    (playSongTeardown x s).metadataProtectionActive = false := by
  have hp : (playSongPrepare x s).metadataProtectionActive = false := by
    unfold playSongPrepare
    exact (stopProtection_fields _).1
  rw [playSongTeardown_eq]
  unfold pauseBackends
  simp only
  split <;> split <;> (try split) <;> exact hp

theorem descriptorInv_playSong (o : Outcome) (x : Song) (s : State) :
    DescriptorInv (playSong o x s) := by
  have hd : DescriptorOf x (playSong o x s) := by
    rw [playSong_eq]
    apply descriptorOf_playSongStart
    intro hact
    rw [inactive_playSongTeardown] at hact
    cases hact
  intro hact
  obtain ⟨h1, h2⟩ := hd hact
  exact ⟨x, currentSong_playSong o x s, h1, h2⟩

theorem inactive_stopPlayback (s : State) :
    (stopPlayback s).metadataProtectionActive = false ∧
    (stopPlayback s).currentMetadata = s.currentMetadata := by
  unfold stopPlayback
  simp only
  constructor
  · exact (stopProtection_fields _).1
  · rw [(stopProtection_fields _).2.1]
    split <;> split <;> (try split) <;> rfl

/-- In every reachable state, active protection means that the stored
descriptor is the one built from the current song. -/
theorem reachable_descriptorInv (music : List Artist) (s : State) (h : Reachable music s) :
    DescriptorInv s := by
  refine reachable_induction music DescriptorInv ?_ ?_ ?_ ?_ ?_ ?_ s h
  · intro b hact
    cases hact
  · exact descriptorInv_playSong
  · intro st _ hact
    rw [(stopProtection_fields st).1] at hact
    cases hact
  · intro b st ih
    rcases restart_cases b st with ⟨p, _, _, he⟩ | ⟨_, a, _, he⟩ | ⟨_, _, he⟩ <;>
      rw [he] <;> exact ih
  · intro st _ hact
    rw [(inactive_stopPlayback st).1] at hact
    cases hact
  · intro c st ih
    exact ih

theorem buildMetadata_names (x : Song) (m : Metadata) (h : buildMetadata x = some m) :
    m.title = orDefault x.title "Unknown Song" ∧
    m.artist = orDefault x.artist "Unknown Artist" ∧
    m.album = orDefault x.album "Unknown Album" := by
  unfold buildMetadata at h
  cases hs : artworkSrc x with
  | none => rw [hs] at h; cases h
  | some src =>
    rw [hs] at h
    simp only [Option.map_some'] at h
    cases h
    exact ⟨rfl, rfl, rfl⟩

/-- One check on a state whose session descriptor is missing or differs from
the intended one: the intended descriptor is written back, and the counter is
raised by one, or reset by the escalation when it would exceed 5. -/
theorem enforceMetadata_hijacked (s : State) (m : Metadata)
    (hms : s.hasMediaSession = true) (hm : s.currentMetadata = some m)
    (hh : isHijacked m s.sessionMetadata = true) :
    enforceMetadata s =
      (if s.hijackAttempts + 1 > 5 then
        useAggressiveMeasures
          { s with hijackAttempts := s.hijackAttempts + 1, sessionMetadata := some m }
      else { s with hijackAttempts := s.hijackAttempts + 1, sessionMetadata := some m }) := by
  have ha := applyMetadata_eq { s with hijackAttempts := s.hijackAttempts + 1 } m hm hms
  unfold enforceMetadata
  split
  · rename_i hnone
    rw [hm] at hnone
    cases hnone
  · rename_i m2 hm2
    have e : m2 = m := by
      rw [hm] at hm2
      exact (Option.some.inj hm2).symm
    subst e
    rw [if_neg (by rw [hms]; decide), if_pos hh]
    simp only
    rw [ha]

/-- One protection check on a protected state whose session holds `y`. -/
theorem protectionTick_write (s : State) (m : Metadata) (y : Option Metadata)
    (hms : s.hasMediaSession = true) (hm : s.currentMetadata = some m)
    (hact : s.metadataProtectionActive = true) :
    protectionTick { s with sessionMetadata := y } =
      (if isHijacked m y = true then
        (if s.hijackAttempts + 1 > 5 then
          useAggressiveMeasures
            { s with hijackAttempts := s.hijackAttempts + 1, sessionMetadata := some m }
        else { s with hijackAttempts := s.hijackAttempts + 1, sessionMetadata := some m })
      else { s with sessionMetadata := y, hijackAttempts := 0 }) := by
  have ht : protectionTick { s with sessionMetadata := y } =
      enforceMetadata { s with sessionMetadata := y } := by
    unfold protectionTick
    rw [if_pos ⟨by rw [hm]; rfl, hact⟩]
  rw [ht]
  by_cases hh : isHijacked m y = true
  · rw [if_pos hh]
    exact enforceMetadata_hijacked { s with sessionMetadata := y } m hms hm hh
  · rw [if_neg hh]
    unfold enforceMetadata
    simp only [hm, hms, Bool.not_true, Bool.false_eq_true, if_false, hh]

/-- The counter never leaves the range 0..5 through a check. -/
theorem enforceMetadata_bound (s : State) (h : s.hijackAttempts ≤ 5) :
    (enforceMetadata s).hijackAttempts ≤ 5 := by
  cases hm : s.currentMetadata with
  | none =>
    have e : enforceMetadata s = s := by
      unfold enforceMetadata
      simp only [hm]
    rw [e]; exact h
  | some m =>
    cases hms : s.hasMediaSession with
    | false =>
      have e : enforceMetadata s = s := by
        unfold enforceMetadata
        simp only [hm, hms, Bool.not_false, if_true]
      rw [e]; exact h
    | true =>
      by_cases hh : isHijacked m s.sessionMetadata = true
      · rw [enforceMetadata_hijacked s m hms hm hh]
        split
        · exact Nat.zero_le 5
        · show s.hijackAttempts + 1 ≤ 5
          omega
      · have e : enforceMetadata s = { s with hijackAttempts := 0 } := by
          unfold enforceMetadata
          simp only [hm, hms, Bool.not_true, Bool.false_eq_true, if_false, hh]
        rw [e]
        exact Nat.zero_le 5

theorem protectionTick_bound (s : State) (h : s.hijackAttempts ≤ 5) :
    (protectionTick s).hijackAttempts ≤ 5 := by
  unfold protectionTick
  split
  · exact enforceMetadata_bound s h
  · exact h

theorem checkRun_bound (ys : List (Option Metadata)) (s : State) (h : s.hijackAttempts ≤ 5) :
    (checkRun ys s).hijackAttempts ≤ 5 := by
  induction ys generalizing s with
  | nil => exact h
  | cons y rest ih =>
    exact ih _ (protectionTick_bound { s with sessionMetadata := y } h)

/-- A run of mismatching checks that keeps the counter at 5 or below: every
check writes the intended descriptor back and adds one to the counter; no
interval is registered. -/
theorem checkRun_mismatch (ys : List (Option Metadata)) (s : State) (m : Metadata)
    (hms : s.hasMediaSession = true) (hm : s.currentMetadata = some m)
    (hact : s.metadataProtectionActive = true)
    (hmis : ∀ y ∈ ys, isHijacked m y = true) (hlen : s.hijackAttempts + ys.length ≤ 5) :
    checkRun ys s =
      { s with hijackAttempts := s.hijackAttempts + ys.length,
               sessionMetadata := if ys = [] then s.sessionMetadata else some m } := by
  induction ys generalizing s with
  | nil => rfl
  | cons y rest ih =>
    have hy : isHijacked m y = true := hmis y (List.mem_cons_self y rest)
    have hl : s.hijackAttempts + (rest.length + 1) ≤ 5 := hlen
    have h1 := protectionTick_write s m y hms hm hact
    rw [if_pos hy, if_neg (by omega)] at h1
    have hstep : checkRun (y :: rest) s =
        checkRun rest { s with hijackAttempts := s.hijackAttempts + 1,
                               sessionMetadata := some m } := by
      show checkRun rest (protectionTick { s with sessionMetadata := y }) = _
      rw [h1]
    have ih1 := ih { s with hijackAttempts := s.hijackAttempts + 1, sessionMetadata := some m }
      hms hm hact (fun z hz => hmis z (List.mem_cons_of_mem y hz))
      (by show s.hijackAttempts + 1 + rest.length ≤ 5; omega)
    rw [hstep, ih1]
    cases rest with
    | nil => rfl
    | cons z zs =>
      simp only [List.length_cons, if_false, reduceCtorEq]
      congr 1
      omega

theorem nextTrack_of_queue (music : List Artist) (o : Outcome) (s : State)
    (q : Song) (rest : List Song) (h : s.queue = q :: rest) :
    nextTrack music o s = some (playSong o q { stopProtection s with queue := rest }) := by
  have hq : (stopProtection s).queue = q :: rest := by
    rw [← h]; exact congrArg Tracks.queue (tracks_stopProtection s)
  unfold nextTrack
  simp only [hq]

/-- As many `nextTrack` calls as there are outcomes in `os`, on a queue at
least that long: the calls take the entries from the front, one each. -/
theorem nextTracks_queue (music : List Artist) (os : List Outcome) (s : State)
    (hk : os.length ≤ s.queue.length) :
    ∃ t, nextTracks music os s = some t ∧ t.queue = s.queue.drop os.length ∧
      (os ≠ [] → t.currentSong = s.queue[os.length - 1]?) := by
  induction os generalizing s with
  | nil => exact ⟨s, rfl, rfl, fun h => absurd rfl h⟩
  | cons o rest ih =>
    cases hq : s.queue with
    | nil =>
      rw [hq] at hk
      simp only [List.length_cons, List.length_nil] at hk
      omega
    | cons q qs =>
      have h1 := nextTrack_of_queue music o s q qs hq
      have hq1 : (playSong o q { stopProtection s with queue := qs }).queue = qs :=
        queue_playSong _ _ _
      have hc1 : (playSong o q { stopProtection s with queue := qs }).currentSong = some q :=
        currentSong_playSong _ _ _
      have hk1 : rest.length ≤
          (playSong o q { stopProtection s with queue := qs }).queue.length := by
        rw [hq1]
        rw [hq] at hk
        simp only [List.length_cons] at hk
        omega
      obtain ⟨t, ht, htq, htc⟩ := ih _ hk1
      refine ⟨t, ?_, ?_, ?_⟩
      · show (nextTrack music o s).bind (fun st => nextTracks music rest st) = some t
        rw [h1]
        exact ht
      · rw [htq, hq1]
        rfl
      · intro _
        cases rest with
        | nil =>
          have e : t = playSong o q { stopProtection s with queue := qs } := by
            have : nextTracks music [] (playSong o q { stopProtection s with queue := qs }) =
                some (playSong o q { stopProtection s with queue := qs }) := rfl
            rw [this] at ht
            exact (Option.some.inj ht).symm
          rw [e, hc1]
          simp
        | cons o2 rest2 =>
          rw [htc (by simp), hq1]
          simp

theorem findIndex_range {α : Type} (p : α → Bool) (xs : List α) :
    -1 ≤ findIndex p xs ∧ findIndex p xs < (xs.length : Int) := by
  unfold findIndex
  split
  · rename_i h
    exact ⟨by omega, Int.ofNat_lt.mpr h⟩
  · exact ⟨Int.le_refl _, by omega⟩

theorem jsRem_next_range (idx K : Int) (h1 : -1 ≤ idx) (hK : 0 < K) :
    0 ≤ jsRem (idx + 1) K ∧ jsRem (idx + 1) K < K :=
  ⟨Int.tmod_nonneg K (by omega), Int.tmod_lt_of_pos (idx + 1) hK⟩

theorem jsRem_prev_range (idx K : Int) (h1 : -1 ≤ idx) (hK : 0 < K) :
    0 ≤ jsRem (idx - 1 + K) K ∧ jsRem (idx - 1 + K) K < K := by
  by_cases ha : 0 ≤ idx - 1 + K
  · exact ⟨Int.tmod_nonneg K ha, Int.tmod_lt_of_pos (idx - 1 + K) hK⟩
  · have e1 : idx = -1 := by omega
    have e2 : K = 1 := by omega
    subst e1 e2
    decide

theorem jsRem_prev_absent (K : Nat) (hK : 0 < K) :
    jsRem (-1 - 1 + (K : Int)) (K : Int) = if K = 1 then 0 else (K : Int) - 2 := by
  by_cases h1 : K = 1
  · subst h1
    decide
  · rw [if_neg h1]
    have e : (-1 - 1 + (K : Int)) = ((K - 2 : Nat) : Int) := by omega
    rw [e, jsRem_natCast, Nat.mod_eq_of_lt (by omega)]
    omega

theorem elemAt_of_range {α : Type} (xs : List α) (i : Int) (h0 : 0 ≤ i)
    (h1 : i < (xs.length : Int)) : ∃ y, elemAt xs i = some y := by
  obtain ⟨n, rfl⟩ := Int.eq_ofNat_of_zero_le h0
  have hn : n < xs.length := Int.ofNat_lt.mp h1
  exact ⟨xs.get ⟨n, hn⟩, by rw [elemAt_natCast]; exact List.getElem?_eq_getElem hn⟩

/-- The call `nextTrack` with an empty queue and a resolved, non-empty album. -/
theorem nextTrack_album (music : List Artist) (o : Outcome) (s : State)
    (artist : Artist) (album : Album) (cur : Song)
    (hq : s.queue = []) (hfa : findAlbum music s = some (artist, album))
    (hK : 0 < album.songs.length) (hcur : s.currentSong = some cur) :
    nextTrack music o s = some (playSong o (catalogSong artist album
      (jsRem (findIndex (fun x => x.title == cur.title) album.songs + 1) album.songs.length))
      (stopProtection s)) := by
  have hst := tracks_stopProtection s
  have hq1 : (stopProtection s).queue = [] := by
    rw [← hq]; exact congrArg Tracks.queue hst
  have hfa1 : findAlbum music (stopProtection s) = some (artist, album) := by
    rw [findAlbum_congr music _ _ hst]; exact hfa
  have hcur1 : (stopProtection s).currentSong = some cur := by
    rw [← hcur]; exact congrArg Tracks.currentSong hst
  unfold nextTrack
  simp only [hq1, hfa1, hcur1, if_pos hK]

/-- The call `previousTrack` with at most 3 s elapsed, an empty history and a
resolved, non-empty album. -/
theorem previousTrack_album (music : List Artist) (o : Outcome) (s : State)
    (artist : Artist) (album : Album) (cur : Song)
    (ht : readCurrentTime s ≤ 3) (hh : s.recentlyPlayed = [])
    (hfa : findAlbum music s = some (artist, album))
    (hK : 0 < album.songs.length) (hcur : s.currentSong = some cur) :
    previousTrack music o s = some (playSong o (catalogSong artist album
      (jsRem (findIndex (fun x => x.title == cur.title) album.songs - 1 + album.songs.length)
        album.songs.length))
      (stopProtection s)) := by
  have hst := tracks_stopProtection s
  have hh1 : (stopProtection s).recentlyPlayed = [] := by
    rw [← hh]; exact congrArg Tracks.recentlyPlayed hst
  have hfa1 : findAlbum music (stopProtection s) = some (artist, album) := by
    rw [findAlbum_congr music _ _ hst]; exact hfa
  have hcur1 : (stopProtection s).currentSong = some cur := by
    rw [← hcur]; exact congrArg Tracks.currentSong hst
  unfold previousTrack
  rw [if_neg (not_lt.mpr ht)]
  simp only [hh1, hfa1, hcur1, if_pos hK]

/-- The call `handleSongEnd` with repeat `all`, shuffle off, an empty queue and
a resolved, non-empty album. -/
theorem handleSongEnd_album (music : List Artist) (o : Outcome) (r : ℚ) (s : State)
    (artist : Artist) (album : Album) (cur : Song)
    (hq : s.queue = []) (hr : s.repeatMode = RepeatMode.all) (hs : s.shuffleMode = false)
    (hfa : findAlbum music s = some (artist, album))
    (hK : 0 < album.songs.length) (hcur : s.currentSong = some cur) :
    handleSongEnd music o r s = some (playSong o (catalogSong artist album
      (jsRem (findIndex (fun x => x.title == cur.title) album.songs + 1) album.songs.length))
      s) := by
  obtain ⟨h1, h2⟩ := findIndex_range (fun x => x.title == cur.title) album.songs
  obtain ⟨g1, g2⟩ := jsRem_next_range _ (album.songs.length : Int) h1
    (Int.ofNat_lt.mpr hK)
  obtain ⟨y, hy⟩ := elemAt_of_range album.songs _ g1 g2
  have hc : catalogSong artist album
      (jsRem (findIndex (fun x => x.title == cur.title) album.songs + 1) album.songs.length) =
      { y with artist := some artist.artist, album := some album.album,
               cover := some (getAlbumImageUrl album.album) } := by
    unfold catalogSong
    rw [hy]
    rfl
  rw [hc]
  unfold handleSongEnd
  rw [if_neg (by rw [hr]; decide), if_neg (by rw [hq]; decide)]
  simp only [hfa, if_neg (Nat.pos_iff_ne_zero.mp hK), hs, Bool.false_eq_true, if_false, hr,
    if_true, hcur, hy]

/-- The call `previousTrack` with at most 3 s elapsed and a non-empty history. -/
theorem previousTrack_of_history (music : List Artist) (o : Outcome) (s : State)
    (h0 : Song) (rest : List Song)
    (ht : readCurrentTime s ≤ 3) (hh : s.recentlyPlayed = h0 :: rest) :
    previousTrack music o s =
      some (playSong o h0 { stopProtection s with recentlyPlayed := rest }) := by
  have hh1 : (stopProtection s).recentlyPlayed = h0 :: rest := by
    rw [← hh]; exact congrArg Tracks.recentlyPlayed (tracks_stopProtection s)
  unfold previousTrack
  rw [if_neg (not_lt.mpr ht)]
  simp only [hh1]

/-- What `previousTrack` leaves in the track variables when it goes back to
the front entry of a history of at most 50 entries. -/
theorem previousTrack_swap (music : List Artist) (o : Outcome) (s : State)
    (c h0 : Song) (rest : List Song)
    (hc : s.currentSong = some c) (hh : s.recentlyPlayed = h0 :: rest)
    (hlen : (h0 :: rest).length ≤ 50) (ht : readCurrentTime s ≤ 3) :
    ∃ t, previousTrack music o s = some t ∧ t.currentSong = some h0 ∧
      t.recentlyPlayed = c :: rest ∧ t.queue = s.queue := by
  have hst := tracks_stopProtection s
  have hc1 : (stopProtection s).currentSong = some c := by
    rw [← hc]; exact congrArg Tracks.currentSong hst
  refine ⟨_, previousTrack_of_history music o s h0 rest ht hh, currentSong_playSong _ _ _,
    ?_, ?_⟩
  · have hr := congrArg Tracks.recentlyPlayed
      (tracks_playSong o h0 { stopProtection s with recentlyPlayed := rest })
    have hr2 : (playSong o h0 { stopProtection s with recentlyPlayed := rest }).recentlyPlayed =
        historyAfterPlay { stopProtection s with recentlyPlayed := rest } := hr
    rw [hr2]
    unfold historyAfterPlay
    simp only [hc1]
    apply List.take_of_length_le
    simp only [List.length_cons] at hlen ⊢
    exact hlen
  · rw [queue_playSong]
    exact congrArg Tracks.queue hst

theorem namesFollowSong_congr (s t : State) (h : s.tracks = t.tracks)
    (hs : NamesFollowSong s) : NamesFollowSong t := by
  have h1 : t.currentSong = s.currentSong := (congrArg Tracks.currentSong h).symm
  have h2 : t.currentArtist = s.currentArtist := (congrArg Tracks.currentArtist h).symm
  have h3 : t.currentAlbum = s.currentAlbum := (congrArg Tracks.currentAlbum h).symm
  unfold NamesFollowSong at hs ⊢
  rw [h1, h2, h3]
  exact hs

theorem namesFollowSong_playSong (o : Outcome) (x : Song) (s : State) :
    NamesFollowSong (playSong o x s) := by
  have ht := tracks_playSong o x s
  have h1 : (playSong o x s).currentSong = some x := congrArg Tracks.currentSong ht
  have h2 : (playSong o x s).currentArtist = x.artist := congrArg Tracks.currentArtist ht
  have h3 : (playSong o x s).currentAlbum = x.album := congrArg Tracks.currentAlbum ht
  unfold NamesFollowSong
  rw [h1]
  exact ⟨h2, h3⟩

theorem reachable_namesFollowSong (music : List Artist) (s : State)
    (h : Reachable music s) : NamesFollowSong s := by
  refine reachable_induction music NamesFollowSong ?_ ?_ ?_ ?_ ?_ ?_ s h
  · intro b
    exact ⟨rfl, rfl⟩
  · exact namesFollowSong_playSong
  · intro st ih
    exact namesFollowSong_congr st _ (tracks_stopProtection st).symm ih
  · intro b st ih
    exact namesFollowSong_congr st _ (tracks_restart b st).symm ih
  · intro st ih
    exact namesFollowSong_congr st _ (tracks_stopPlayback st).symm ih
  · intro c st ih
    exact ih

/-- Under the invariant a resolved album comes with a current song that
carries the names by which the album was found. -/
theorem currentSong_of_findAlbum (music : List Artist) (s : State)
    (artist : Artist) (album : Album) (hinv : NamesFollowSong s)
    (hfa : findAlbum music s = some (artist, album)) :
    ∃ c, s.currentSong = some c ∧ c.artist = some artist.artist ∧
      c.album = some album.album := by
  obtain ⟨hna, hnb⟩ := findAlbum_names music s artist album hfa
  unfold NamesFollowSong at hinv
  cases hc : s.currentSong with
  | none =>
    rw [hc] at hinv
    rw [hinv.1] at hna
    cases hna
  | some c =>
    rw [hc] at hinv
    exact ⟨c, rfl, by rw [← hinv.1, hna], by rw [← hinv.2, hnb]⟩

theorem nextTrack_isSome (music : List Artist) (o : Outcome) (s : State)
    (hinv : NamesFollowSong s) : (nextTrack music o s).isSome = true := by
  have hst := tracks_stopProtection s
  have hinv1 := namesFollowSong_congr s _ hst.symm hinv
  unfold nextTrack
  simp only
  split
  · rfl
  · split
    · rfl
    · rename_i artist album hfa
      obtain ⟨c, hc, _⟩ := currentSong_of_findAlbum music _ artist album hinv1 hfa
      split
      · rw [hc]
        rfl
      · rfl

theorem previousTrack_isSome (music : List Artist) (o : Outcome) (s : State)
    (hinv : NamesFollowSong s) : (previousTrack music o s).isSome = true := by
  have hst := tracks_stopProtection s
  have hinv1 := namesFollowSong_congr s _ hst.symm hinv
  unfold previousTrack
  split
  · rfl
  · simp only
    split
    · rfl
    · split
      · rfl
      · rename_i artist album hfa
        obtain ⟨c, hc, _⟩ := currentSong_of_findAlbum music _ artist album hinv1 hfa
        split
        · rw [hc]
          rfl
        · rfl

theorem handleSongEnd_isSome (music : List Artist) (o : Outcome) (r : ℚ) (s : State)
    (hinv : NamesFollowSong s) : (handleSongEnd music o r s).isSome = true := by
  unfold handleSongEnd
  split
  · rfl
  · split
    · exact nextTrack_isSome music o s hinv
    · split
      · rfl
      · rename_i artist album hfa
        obtain ⟨c, hc, _⟩ := currentSong_of_findAlbum music s artist album hinv hfa
        split
        · rfl
        · split
          · split <;> rfl
          · split
            · rw [hc]
              simp only
              split <;> rfl
            · rfl

theorem deref_set (heap : List Song) (r r2 : Nat) (v : Song) (hr : r < heap.length) :
    deref (heap.set r v) r2 = if r2 = r then v else deref heap r2 := by
  unfold deref
  rw [List.getD_eq_getElem?_getD, List.getD_eq_getElem?_getD, List.getElem?_set]
  by_cases h : r2 = r
  · subst h
    simp [hr]
  · have h2 : ¬ r = r2 := fun e => h e.symm
    simp [h, h2]

theorem recentlyPlayed_playSongRef (r c : Nat) (h : RefState) (hc : h.currentSong = some c) :
    (playSongRef r h).recentlyPlayed = (c :: h.recentlyPlayed).take 50 := by
  unfold playSongRef addToRecentlyPlayedRef
  simp only [hc]
  split
  · rfl
  · rename_i hle
    exact (List.take_of_length_le (Nat.le_of_not_lt hle)).symm

theorem heap_playSongRef (r : Nat) (h : RefState) : (playSongRef r h).heap = h.heap := by
  unfold playSongRef addToRecentlyPlayedRef
  simp only
  split
  · split <;> rfl
  · rfl

/-- The reference-level `playSong` and the value-level one agree: read through
the references, the current song and the history after the call are those of
`playSong` on a state that held the same songs. -/
theorem playSongRef_refines (o : Outcome) (r : Nat) (h : RefState) (s : State)
    (hc : s.currentSong = h.current) (hh : s.recentlyPlayed = h.history) :
    (playSong o (deref h.heap r) s).currentSong = (playSongRef r h).current ∧
    (playSong o (deref h.heap r) s).recentlyPlayed = (playSongRef r h).history := by
  have hheap := heap_playSongRef r h
  constructor
  · rw [currentSong_playSong]
    unfold RefState.current
    rw [hheap]
    rfl
  · rw [recentlyPlayed_playSong]
    unfold historyAfterPlay RefState.history
    rw [hheap]
    cases hcur : h.currentSong with
    | none =>
      have e : (playSongRef r h).recentlyPlayed = h.recentlyPlayed := by
        unfold playSongRef
        simp only [hcur]
      have hc2 : s.currentSong = none := by
        rw [hc]; unfold RefState.current; rw [hcur]; rfl
      rw [e, hc2, hh]
      rfl
    | some c =>
      have hc2 : s.currentSong = some (deref h.heap c) := by
        rw [hc]; unfold RefState.current; rw [hcur]; rfl
      rw [recentlyPlayed_playSongRef r c h hcur, hc2, hh]
      simp only [RefState.history, List.map_take, List.map_cons]

theorem swapAt_perm {α : Type} [DecidableEq α] (xs : List α) (i j : Nat) :
    (swapAt xs i j).Perm xs := by
  unfold swapAt
  split
  · rename_i a b ha hb
    obtain ⟨hi, hai⟩ := List.getElem?_eq_some.mp ha
    obtain ⟨hj, hbj⟩ := List.getElem?_eq_some.mp hb
    have hj2 : j < (xs.set i b).length := by rw [List.length_set]; exact hj
    rw [List.perm_iff_count]
    intro c
    have hget : (xs.set i b)[j] = b := by
      rw [List.getElem_set]
      split
      · rfl
      · exact hbj
    rw [List.count_set a c (xs.set i b) j hj2, List.count_set b c xs i hi, hget, hai]
    have hle : (if a == c then 1 else 0) ≤ List.count c xs := by
      have := List.boole_getElem_le_count c xs i hi
      rw [hai] at this
      exact this
    generalize (if a == c then 1 else 0) = u at hle ⊢
    generalize (if b == c then 1 else 0) = v
    omega
  · exact List.Perm.refl xs

theorem shuffleLoop_perm (rs : Nat → ℚ) (k i : Nat) (xs : List Song) :
    (shuffleLoop rs k i xs).Perm xs := by
  induction i generalizing k xs with
  | zero => exact List.Perm.refl xs
  | succ i ih =>
    show (shuffleLoop rs (k + 1) i
      (swapAt xs (i + 1) (randomIndex (rs k) (i + 2)).toNat)).Perm xs
    exact (ih (k + 1) _).trans (swapAt_perm xs _ _)

theorem randomIndex_range (r : ℚ) (n : Nat) (h0 : 0 ≤ r) (h1 : r < 1) (hn : 0 < n) :
    0 ≤ randomIndex r n ∧ randomIndex r n < (n : Int) := by
  have hq : (0 : ℚ) < (n : ℚ) := by exact_mod_cast hn
  constructor
  · unfold randomIndex
    rw [Rat.le_floor]
    simpa using mul_nonneg h0 (le_of_lt hq)
  · unfold randomIndex
    show ⌊r * (n : ℚ)⌋ < (n : Int)
    rw [Int.floor_lt]
    have := mul_lt_mul_of_pos_right h1 hq
    simpa using this

theorem length_allSongs (music : List Artist) :
    (allSongs music).length = (music.map getTotalSongs).sum := by
  have hfold : ∀ (albums : List Album) (n : Nat),
      albums.foldl (fun total album => total + album.songs.length) n =
        n + (albums.map fun album => album.songs.length).sum := by
    intro albums
    induction albums with
    | nil => intro n; simp
    | cons a rest ih =>
      intro n
      simp only [List.foldl_cons, List.map_cons, List.sum_cons]
      rw [ih]
      omega
  unfold allSongs
  induction music with
  | nil => rfl
  | cons a rest ih =>
    simp only [List.flatMap_cons, List.length_append, List.map_cons, List.sum_cons]
    rw [ih]
    congr 1
    unfold getTotalSongs
    rw [hfold, Nat.zero_add]
    induction a.albums with
    | nil => rfl
    | cons al als ih2 =>
      simp only [List.flatMap_cons, List.length_append, List.length_map, List.map_cons,
        List.sum_cons]
      rw [ih2]

theorem shuffleAllSongs_eq (music : List Artist) (o : Outcome) (rs : Nat → ℚ) (s : State)
    (first : Song) (rest : List Song)
    (hne : allSongs music ≠ [])
    (hsh : shuffleLoop rs 0 ((allSongs music).length - 1) (allSongs music) = first :: rest) :
    shuffleAllSongs music o rs s =
      { playSong o first { s with queue := rest } with shuffleMode := true } := by
  have hlen : ¬ (allSongs music).length = 0 := by
    intro h
    exact hne (List.length_eq_zero.mp h)
  have hm : ¬ music.length = 0 := by
    intro h
    apply hne
    rw [List.length_eq_zero.mp h]
    rfl
  unfold shuffleAllSongs
  rw [if_neg hm, if_neg hlen]
  simp only [hsh, List.drop_succ_cons, List.drop_zero]

set_option maxRecDepth 100000 in
/-- The case conversion on an accented name, on a Greek word that ends in
sigma, and on the album name of the examples. -/
theorem toLowerCase_examples :
    toLowerCase "ÉTÉ" = "été" ∧ toLowerCase "ΟΔΟΣ" = "οδος" ∧
    toLowerCase "ΣΑΣ" = "σας" ∧ toLowerCase "Album" = "album" ∧
    getAlbumImageUrl "Été  Indien" = "/images/albums/été-indien.png" := by
  refine ⟨by decide, by decide, by decide, by decide, by decide⟩

theorem digitChar_toNat (d : Nat) (h : d < 10) : (digitChar d).toNat = 48 + d := by
  interval_cases d <;> rfl

theorem isDecDigit_digitChar (d : Nat) (h : d < 10) : isDecDigit (digitChar d) = true := by
  interval_cases d <;> rfl

theorem isDecDigit_bounds (c : Char) (h : isDecDigit c = true) :
    48 ≤ c.toNat ∧ c.toNat ≤ 57 := by
  unfold isDecDigit at h
  simpa using h

theorem not_space_of_digit (c : Char) (h : isDecDigit c = true) : isJsSpace c = false := by
  obtain ⟨h1, h2⟩ := isDecDigit_bounds c h
  unfold isJsSpace
  simp
  omega

theorem ne_of_digit (c x : Char) (h : isDecDigit c = true) (hx : isDecDigit x = false) :
    c ≠ x := by
  intro e
  rw [e, hx] at h
  cases h

theorem dropWhile_of_none {α : Type} (p : α → Bool) (xs : List α)
    (h : ∀ x ∈ xs, p x = false) : xs.dropWhile p = xs := by
  cases xs with
  | nil => rfl
  | cons a t =>
    rw [List.dropWhile_cons_of_neg]
    rw [h a (List.mem_cons_self a t)]
    decide

theorem takeWhile_of_all {α : Type} (p : α → Bool) (xs : List α)
    (h : ∀ x ∈ xs, p x = true) : xs.takeWhile p = xs ∧ xs.dropWhile p = [] := by
  induction xs with
  | nil => exact ⟨rfl, rfl⟩
  | cons a t ih =>
    have ha := h a (List.mem_cons_self a t)
    obtain ⟨i1, i2⟩ := ih (fun x hx => h x (List.mem_cons_of_mem a hx))
    constructor
    · rw [List.takeWhile_cons_of_pos ha, i1]
    · rw [List.dropWhile_cons_of_pos ha, i2]

theorem trimChars_digits (ds : List Char) (h : ∀ c ∈ ds, isDecDigit c = true) :
    trimChars ds = ds := by
  have h1 : ∀ c ∈ ds, isJsSpace c = false := fun c hc => not_space_of_digit c (h c hc)
  have h2 : ∀ c ∈ ds.reverse, isJsSpace c = false :=
    fun c hc => h1 c (List.mem_reverse.mp hc)
  unfold trimChars
  rw [dropWhile_of_none isJsSpace ds h1, dropWhile_of_none isJsSpace ds.reverse h2,
    List.reverse_reverse]

theorem parseNonDecimal_digits (ds : List Char) (h : ∀ c ∈ ds, isDecDigit c = true) :
    parseNonDecimal ds = none := by
  unfold parseNonDecimal
  split
  · rename_i c x rest
    have hx : isDecDigit x = true :=
      h x (List.mem_cons_of_mem c (List.mem_cons_self x rest))
    have n1 := ne_of_digit x 'x' hx (by decide)
    have n2 := ne_of_digit x 'X' hx (by decide)
    have n3 := ne_of_digit x 'o' hx (by decide)
    have n4 := ne_of_digit x 'O' hx (by decide)
    have n5 := ne_of_digit x 'b' hx (by decide)
    have n6 := ne_of_digit x 'B' hx (by decide)
    simp [n1, n2, n3, n4, n5, n6]
  · rfl

theorem stripSign_digits (ds : List Char) (h : ∀ c ∈ ds, isDecDigit c = true) :
    stripSign ds = (false, ds) := by
  unfold stripSign
  split
  · rfl
  · rename_i c t
    have hc : isDecDigit c = true := h c (List.mem_cons_self c t)
    rw [if_neg (ne_of_digit c '+' hc (by decide)), if_neg (ne_of_digit c '-' hc (by decide))]

theorem parseUnsignedDecimal_digits (ds : List Char) (hne : ds ≠ [])
    (h : ∀ c ∈ ds, isDecDigit c = true) :
    parseUnsignedDecimal ds = some (decimalValue ds : ℚ) := by
  obtain ⟨h1, h2⟩ := takeWhile_of_all isDecDigit ds h
  unfold parseUnsignedDecimal
  simp only [h1, h2]
  rw [if_neg (fun hc => hne hc.1)]
  have hz : decimalValue [] = 0 := rfl
  simp [parseExponent, hz]

theorem isSafeInteger_natCast (n : Nat) (hn : n < 9007199254740992) :
    isSafeInteger (n : ℚ) = true := by
  unfold isSafeInteger
  rw [Rat.den_natCast, Rat.num_natCast, Int.natAbs_ofNat]
  simp [hn]

theorem exactNumber_natCast (n : Nat) (hn : n < 9007199254740992) :
    exactNumber (n : ℚ) = some (JsNum.fin (n : ℚ)) := by
  unfold exactNumber
  rw [isSafeInteger_natCast n hn, if_pos rfl]

theorem jsNumber_digits (ds : List Char) (hne : ds ≠ [])
    (h : ∀ c ∈ ds, isDecDigit c = true) (hv : decimalValue ds < 9007199254740992) :
    jsNumber ds = some (JsNum.fin (decimalValue ds : ℚ)) := by
  have hinf : ds ≠ "Infinity".data := by
    intro e
    have := h 'I' (by rw [e]; decide)
    revert this
    decide
  unfold jsNumber
  simp only [trimChars_digits ds h, if_neg hne, parseNonDecimal_digits ds h,
    stripSign_digits ds h, if_neg hinf, parseUnsignedDecimal_digits ds hne h]
  exact exactNumber_natCast _ hv

theorem decimalValue_append (xs : List Char) (c : Char) :
    decimalValue (xs ++ [c]) = decimalValue xs * 10 + (c.toNat - 48) := by
  unfold decimalValue
  rw [List.foldl_append]
  rfl

theorem decimalValue_digits (ds : List Nat) (h : ∀ d ∈ ds, d < 10) :
    decimalValue (ds.reverse.map digitChar) = Nat.ofDigits 10 ds := by
  induction ds with
  | nil => rfl
  | cons d rest ih =>
    have hd : d < 10 := h d (List.mem_cons_self d rest)
    rw [List.reverse_cons, List.map_append, List.map_singleton, decimalValue_append,
      ih (fun x hx => h x (List.mem_cons_of_mem d hx)), digitChar_toNat d hd,
      Nat.ofDigits_cons]
    omega

theorem natToChars_ne_nil (n : Nat) : natToChars n ≠ [] := by
  unfold natToChars
  split
  · exact List.cons_ne_nil _ _
  · rename_i hn
    intro e
    have e2 : Nat.digits 10 n = [] := by
      have := congrArg List.length e
      simp only [List.length_map, List.length_reverse, List.length_nil] at this
      exact List.length_eq_zero.mp this
    exact (Nat.digits_ne_nil_iff_ne_zero.mpr hn) e2

theorem natToChars_digits (n : Nat) : ∀ c ∈ natToChars n, isDecDigit c = true := by
  intro c hc
  unfold natToChars at hc
  split at hc
  · rw [List.mem_singleton.mp hc]
    rfl
  · obtain ⟨d, hd, rfl⟩ := List.mem_map.mp hc
    exact isDecDigit_digitChar d (Nat.digits_lt_base (by decide) (List.mem_reverse.mp hd))

theorem decimalValue_natToChars (n : Nat) : decimalValue (natToChars n) = n := by
  unfold natToChars
  split
  · rename_i hn
    rw [hn]
    rfl
  · rw [decimalValue_digits _ (fun d hd => Nat.digits_lt_base (by decide) hd),
      Nat.ofDigits_digits]

theorem jsNumber_natToChars (n : Nat) (hn : n < 9007199254740992) :
    jsNumber (natToChars n) = some (JsNum.fin (n : ℚ)) := by
  rw [jsNumber_digits _ (natToChars_ne_nil n) (natToChars_digits n)
    (by rw [decimalValue_natToChars]; exact hn), decimalValue_natToChars]

/-- The characters of a number below 100, padded to two. -/
theorem padStart2_natToChars (k : Nat) (hk : k < 100) :
    padStart2 (natToChars k) = [digitChar (k / 10), digitChar (k % 10)] := by
  interval_cases k <;> simp [padStart2, natToChars, Nat.digits_add_two_add_one] <;> rfl

theorem jsNumber_two_digits (k : Nat) (hk : k < 100) :
    jsNumber [digitChar (k / 10), digitChar (k % 10)] = some (JsNum.fin (k : ℚ)) := by
  have h1 : k / 10 < 10 := by omega
  have h2 : k % 10 < 10 := by omega
  have hd : ∀ c ∈ [digitChar (k / 10), digitChar (k % 10)], isDecDigit c = true := by
    intro c hc
    rcases List.mem_cons.mp hc with e | hc2
    · rw [e]; exact isDecDigit_digitChar _ h1
    · rw [List.mem_singleton.mp hc2]; exact isDecDigit_digitChar _ h2
  have hv : decimalValue [digitChar (k / 10), digitChar (k % 10)] = k := by
    show (0 * 10 + ((digitChar (k / 10)).toNat - 48)) * 10 +
      ((digitChar (k % 10)).toNat - 48) = k
    rw [digitChar_toNat _ h1, digitChar_toNat _ h2]
    omega
  rw [jsNumber_digits _ (List.cons_ne_nil _ _) hd (by rw [hv]; omega), hv]

theorem splitChars_of_none (sep : Char) (xs : List Char) (h : ∀ c ∈ xs, c ≠ sep) :
    splitChars sep xs = [xs] := by
  induction xs with
  | nil => rfl
  | cons c t ih =>
    unfold splitChars
    rw [if_neg (h c (List.mem_cons_self c t)),
      ih (fun x hx => h x (List.mem_cons_of_mem c hx))]

theorem splitChars_two (sep : Char) (xs ys : List Char) (hx : ∀ c ∈ xs, c ≠ sep)
    (hy : ∀ c ∈ ys, c ≠ sep) : splitChars sep (xs ++ sep :: ys) = [xs, ys] := by
  induction xs with
  | nil =>
    show splitChars sep (sep :: ys) = [[], ys]
    unfold splitChars
    rw [if_pos rfl, splitChars_of_none sep ys hy]
  | cons c t ih =>
    show splitChars sep (c :: (t ++ sep :: ys)) = [c :: t, ys]
    unfold splitChars
    rw [if_neg (hx c (List.mem_cons_self c t)),
      ih (fun x hx2 => hx x (List.mem_cons_of_mem c hx2))]

/-- The number of parts is one more than the number of separators. -/
theorem length_splitChars (sep : Char) (xs : List Char) :
    (splitChars sep xs).length = xs.count sep + 1 := by
  induction xs with
  | nil => rfl
  | cons c t ih =>
    unfold splitChars
    by_cases hc : c = sep
    · rw [if_pos hc, List.length_cons, ih, hc, List.count_cons_self]
    · rw [if_neg hc]
      have hcnt : List.count sep (c :: t) = List.count sep t :=
        List.count_cons_of_ne (fun e => hc e.symm) t
      rw [hcnt, ← ih]
      cases hsp : splitChars sep t with
      | nil => rw [hsp] at ih; simp at ih
      | cons p ps => rfl

theorem formatTime_nat (n : Nat) (hn : n < 9007199254740992) :
    formatTime (JsNum.fin (n : ℚ)) =
      some (String.mk (natToChars (n / 60) ++ ':' :: padStart2 (natToChars (n % 60)))) := by
  have h0 : ¬ ((n : ℚ) < 0) := not_lt.mpr (Nat.cast_nonneg n)
  have hfl : Rat.floor ((n : ℚ) / 60) = ((n / 60 : Nat) : Int) := by
    have := Rat.floor_natCast_div_natCast n 60
    simpa using this
  have hsec : Rat.floor ((n : ℚ) - 60 * (((n / 60 : Nat) : Int) : ℚ)) =
      ((n % 60 : Nat) : Int) := by
    have e : (n : ℚ) - 60 * (((n / 60 : Nat) : Int) : ℚ) = ((n % 60 : Nat) : ℚ) := by
      have hdm : (n : ℚ) = ((60 * (n / 60) + n % 60 : Nat) : ℚ) := by
        rw [Nat.div_add_mod]
      rw [Int.cast_natCast]
      conv_lhs => rw [hdm]
      push_cast
      ring
    rw [e]
    show ⌊((n % 60 : Nat) : ℚ)⌋ = ((n % 60 : Nat) : Int)
    exact Int.floor_natCast _
  unfold formatTime
  simp only [h0, if_false, isSafeInteger_natCast n hn, if_true, hfl, hsec, Int.toNat_ofNat]

theorem parseDuration_two (str : String) (a b : List Char) (x y : ℚ)
    (hs : splitChars ':' str.data = [a, b]) (ha : jsNumber a = some (JsNum.fin x))
    (hb : jsNumber b = some (JsNum.fin y)) (h1 : isSafeInteger (x * 60) = true)
    (h2 : isSafeInteger (x * 60 + y) = true) :
    parseDuration (some str) = some (JsNum.fin (x * 60 + y)) := by
  unfold parseDuration
  simp only [hs, List.map_cons, List.map_nil, ha, hb]
  rw [if_neg (by
    intro h
    rcases h with h | h
    · exact JsNum.noConfusion (Option.some.inj h)
    · exact JsNum.noConfusion (Option.some.inj h))]
  simp only [minutesPlusSeconds, h1, h2, Bool.and_self, if_true]

/-- The text that `formatTime` writes for a safe integer parses back to it. -/
theorem parseDuration_formatTime (n : Nat) (hn : n < 9007199254740992) :
    parseDuration (some (String.mk
      (natToChars (n / 60) ++ ':' :: padStart2 (natToChars (n % 60))))) =
      some (JsNum.fin (n : ℚ)) := by
  have hcolon : ∀ cs : List Char, (∀ c ∈ cs, isDecDigit c = true) → ∀ c ∈ cs, c ≠ ':' :=
    fun cs h c hc => ne_of_digit c ':' (h c hc) (by decide)
  have h60 : n % 60 < 100 := by omega
  have hpad := padStart2_natToChars (n % 60) h60
  have hpd : ∀ c ∈ padStart2 (natToChars (n % 60)), isDecDigit c = true := by
    rw [hpad]
    intro c hc
    rcases List.mem_cons.mp hc with e | hc2
    · rw [e]; exact isDecDigit_digitChar _ (by omega)
    · rw [List.mem_singleton.mp hc2]; exact isDecDigit_digitChar _ (by omega)
  have hsplit : splitChars ':' (String.mk
      (natToChars (n / 60) ++ ':' :: padStart2 (natToChars (n % 60)))).data =
      [natToChars (n / 60), padStart2 (natToChars (n % 60))] :=
    splitChars_two ':' _ _ (hcolon _ (natToChars_digits (n / 60))) (hcolon _ hpd)
  have hb : jsNumber (padStart2 (natToChars (n % 60))) =
      some (JsNum.fin ((n % 60 : Nat) : ℚ)) := by
    rw [hpad]
    exact jsNumber_two_digits (n % 60) h60
  have hq : n / 60 < 9007199254740992 := by omega
  have e1 : ((n / 60 : Nat) : ℚ) * 60 = ((n / 60 * 60 : Nat) : ℚ) := by push_cast; ring
  have e2 : ((n / 60 : Nat) : ℚ) * 60 + ((n % 60 : Nat) : ℚ) = (n : ℚ) := by
    have hdm : (n : ℚ) = ((n / 60 * 60 + n % 60 : Nat) : ℚ) := by
      rw [Nat.div_add_mod']
    conv_rhs => rw [hdm]
    push_cast
    ring
  have s1 : isSafeInteger (((n / 60 : Nat) : ℚ) * 60) = true := by
    rw [e1]
    exact isSafeInteger_natCast _ (by omega)
  have s2 : isSafeInteger (((n / 60 : Nat) : ℚ) * 60 + ((n % 60 : Nat) : ℚ)) = true := by
    rw [e2]
    exact isSafeInteger_natCast _ hn
  rw [parseDuration_two _ _ _ _ _ hsplit (jsNumber_natToChars (n / 60) hq) hb s1 s2, e2]

/-! ## Claims -/

/-- C1: for every state whose queue is non-empty (`q :: rest`), whatever the
shuffle flag and the repeat mode, `nextTrack` returns normally, makes `q`
the current song and leaves exactly `rest` as the queue, in its order; the
catalog is not consulted (the result is the same for every catalog) and the
shuffle flag and repeat mode are left as they were. -/
theorem nextTrack_queue_priority (music : List Artist) (o : Outcome) (s : State)
    (q : Song) (rest : List Song) (h : s.queue = q :: rest) :
    ∃ t, nextTrack music o s = some t ∧ t.currentSong = some q ∧ t.queue = rest ∧
      t.shuffleMode = s.shuffleMode ∧ t.repeatMode = s.repeatMode ∧
      ∀ music2 : List Artist, nextTrack music2 o s = some t := by
  have hq : (stopProtection s).queue = q :: rest := by
    rw [← h]; exact congrArg Tracks.queue (tracks_stopProtection s)
  have hs : (stopProtection s).shuffleMode = s.shuffleMode :=
    congrArg Tracks.shuffleMode (tracks_stopProtection s)
  have hr : (stopProtection s).repeatMode = s.repeatMode :=
    congrArg Tracks.repeatMode (tracks_stopProtection s)
  have hn : ∀ m : List Artist, nextTrack m o s =
      some (playSong o q { stopProtection s with queue := rest }) := by
    intro m
    unfold nextTrack
    simp only [hq]
  refine ⟨_, hn music, ?_, ?_, ?_, ?_, hn⟩
  · exact currentSong_playSong _ _ _
  · rw [queue_playSong]
  · rw [← hs]
    exact congrArg Tracks.shuffleMode (tracks_playSong o q _)
  · rw [← hr]
    exact congrArg Tracks.repeatMode (tracks_playSong o q _)

/-- Witness of C1: a queue `[B, C]` with shuffle on and repeat `all`. -/
theorem nextTrack_queue_priority_witness :
    ∃ t, nextTrack demoMusic Outcome.allGood
        { State.init with queue := [songB, songC], shuffleMode := true,
                          repeatMode := RepeatMode.all } = some t ∧
      t.currentSong = some songB ∧ t.queue = [songC] ∧
      t.shuffleMode = true ∧ t.repeatMode = RepeatMode.all ∧
      ∀ music2 : List Artist, nextTrack music2 Outcome.allGood
        { State.init with queue := [songB, songC], shuffleMode := true,
                          repeatMode := RepeatMode.all } = some t :=
  nextTrack_queue_priority demoMusic Outcome.allGood
    { State.init with queue := [songB, songC], shuffleMode := true,
                      repeatMode := RepeatMode.all } songB [songC] rfl

/-- C2: starting from an empty history, after a run of N > 50 `playSong`
calls the history has exactly 50 entries, entry k (k < 50) is the song played
k + 1 plays before the current one (so entry 0 is the song just replaced and
entry 49 the 50th-most-recently replaced one); every insertion yields the
first 50 entries of the new song followed by the old history, so neither an
insertion nor a `playSong` call leaves more than 50 songs in a history that
had at most 50. -/
theorem history_bound (plays : List (Outcome × Song)) (s : State)
    (hempty : s.recentlyPlayed = []) (hN : plays.length > 50) :
    (playAll plays s).recentlyPlayed.length = 50 ∧
    (∀ k, k < 50 → (playAll plays s).recentlyPlayed[k]? =
        (plays.map Prod.snd)[plays.length - 2 - k]?) ∧
    (∀ (song : Song) (st : State),
        (addToRecentlyPlayed song st).recentlyPlayed = (song :: st.recentlyPlayed).take 50 ∧
        (addToRecentlyPlayed song st).recentlyPlayed.length ≤ 50) ∧
    (∀ (o : Outcome) (song : Song) (st : State), st.recentlyPlayed.length ≤ 50 →
        (playSong o song st).recentlyPlayed.length ≤ 50) := by
  obtain ⟨ps, p, rfl⟩ : ∃ ps p, plays = ps ++ [p] := by
    cases h : plays.reverse with
    | nil =>
      have : plays = [] := List.reverse_eq_nil_iff.mp h
      subst this
      simp at hN
    | cons p qs =>
      refine ⟨qs.reverse, p, ?_⟩
      have := congrArg List.reverse h
      simpa using this
  have hlen : 50 ≤ ps.length := by
    simp only [List.length_append, List.length_singleton] at hN
    omega
  obtain ⟨_, hh⟩ := playAll_history ps p s hempty
  have hadd : ∀ (song : Song) (st : State),
      (addToRecentlyPlayed song st).recentlyPlayed = (song :: st.recentlyPlayed).take 50 ∧
      (addToRecentlyPlayed song st).recentlyPlayed.length ≤ 50 := by
    intro song st
    refine ⟨recentlyPlayed_addToRecentlyPlayed song st, ?_⟩
    rw [recentlyPlayed_addToRecentlyPlayed, List.length_take]
    exact Nat.min_le_left _ _
  refine ⟨?_, ?_, hadd, ?_⟩
  · rw [hh, List.length_take, List.length_append, List.length_reverse, List.length_map]
    omega
  · intro k hk
    rw [hh, List.getElem?_take_of_lt hk]
    have hk2 : k < ((ps.map Prod.snd).reverse).length := by
      rw [List.length_reverse, List.length_map]; omega
    rw [List.getElem?_append_left hk2, List.getElem?_reverse (by simpa using hk2)]
    simp only [List.length_map, List.length_append, List.length_singleton, List.map_append,
      List.map_cons, List.map_nil]
    have hi : ps.length - 1 - k < (ps.map Prod.snd).length := by
      rw [List.length_map]; omega
    have e : ps.length + 1 - 2 - k = ps.length - 1 - k := by omega
    rw [e, List.getElem?_append_left hi]
  · intro o song st hst
    rw [recentlyPlayed_playSong]
    unfold historyAfterPlay
    split
    · rw [List.length_take]; exact Nat.min_le_left _ _
    · exact hst

/-- Witness of C2: 51 songs played from the initial state. -/
theorem history_bound_witness :
    (playAll demoPlays State.init).recentlyPlayed.length = 50 ∧
    (∀ k, k < 50 → (playAll demoPlays State.init).recentlyPlayed[k]? =
        (demoPlays.map Prod.snd)[demoPlays.length - 2 - k]?) :=
  ⟨(history_bound demoPlays State.init rfl (by decide)).1,
   (history_bound demoPlays State.init rfl (by decide)).2.1⟩

/-- C3 as stated fails when the song plays on the audio element of a page whose
video player exposes its API. Song B (no video identifier) is current and
playing, its source is loaded in the audio element, which is 10 s in; the
video player is ready, idle, and reports position 0. `previousTrack` reads the
video player's position, 0, so it does not restart: it takes song A from the
history and makes it the current song, B goes to the history, and no seek
command is issued to either backend. -/
theorem previousTrack_restart_counterexample :
    demoAudioOnVideoPage.currentSong = some demoSongB ∧
    demoSongB.youtube = none ∧
    demoAudioOnVideoPage.isPlaying = true ∧
    demoAudioOnVideoPage.audioElement =
      some { src := audioUrl "B" "mp3", currentTime := 10 } ∧
    demoAudioOnVideoPage.youtubePlayer =
      some { ready := true, currentTime := 0, playerState := -1 } ∧
    demoAudioOnVideoPage.recentlyPlayed = [demoSongA] ∧
    readCurrentTime demoAudioOnVideoPage = 0 ∧
    (∃ t, previousTrack demoMusic Outcome.allGood demoAudioOnVideoPage = some t ∧
      t.currentSong = some demoSongA ∧
      t.recentlyPlayed = [demoSongB] ∧
      (t.log.drop demoAudioOnVideoPage.log.length).any isSeekCmd = false) ∧
    previousTrack demoMusic Outcome.allGood demoAudioOnVideoPage ≠
      some (restart false demoAudioOnVideoPage) := by
  refine ⟨rfl, rfl, rfl, rfl, rfl, rfl, rfl, ⟨_, rfl, rfl, rfl, rfl⟩, ?_⟩
  intro h
  have hc := congrArg (fun r => r.map State.currentSong) h
  revert hc
  decide

/-- C3 (amended): in every state in which the time that `previousTrack` reads
(from the video player whenever it exposes its API, whichever backend plays
the song, else from the audio element) is greater than 3, `previousTrack` only
seeks that same backend to position 0:
the result is the old state with one seek command logged (and, for the audio
element, its `currentTime` set to 0); the current song, the queue and the
history are as before; and the call does not read the queue, the history or
the catalog, since with any other queue, history and catalog it has the same
effect. -/
theorem previousTrack_restart (music : List Artist) (o : Outcome) (s : State)
    (h : readCurrentTime s > 3) :
    previousTrack music o s = some (restart false s) ∧
    (restart false s).currentSong = s.currentSong ∧
    (restart false s).queue = s.queue ∧
    (restart false s).recentlyPlayed = s.recentlyPlayed ∧
    ((∃ p, s.youtubePlayer = some p ∧ p.ready = true ∧
        restart false s = { s with log := s.log ++ [Cmd.ytSeekTo 0] }) ∨
     (∃ a, s.audioElement = some a ∧
        restart false s = { s with audioElement := some { a with currentTime := 0 },
                                   log := s.log ++ [Cmd.audioSetCurrentTime 0] })) ∧
    (∀ (q hist : List Song) (music2 : List Artist) (o2 : Outcome),
        previousTrack music2 o2 { s with queue := q, recentlyPlayed := hist } =
          some { restart false s with queue := q, recentlyPlayed := hist }) := by
  have hframe : ∀ (q hist : List Song),
      restart false { s with queue := q, recentlyPlayed := hist } =
        { restart false s with queue := q, recentlyPlayed := hist } := by
    intro q hist
    rcases restart_cases false s with ⟨p, hy, hr, he⟩ | ⟨hn, a, ha, he⟩ | ⟨hn, ha, he⟩
    · rw [he]; simp [restart, hy, hr]
    · rw [he]
      cases hy : s.youtubePlayer with
      | none => simp [restart, hy, ha]
      | some p =>
        have hr : p.ready = false := by
          cases hp : p.ready
          · rfl
          · exact absurd hp (hn p hy)
        simp [restart, hy, ha, hr]
    · rw [he]
      cases hy : s.youtubePlayer with
      | none => simp [restart, hy, ha]
      | some p =>
        have hr : p.ready = false := by
          cases hp : p.ready
          · rfl
          · exact absurd hp (hn p hy)
        simp [restart, hy, ha, hr]
  have ht := tracks_restart false s
  refine ⟨?_, congrArg Tracks.currentSong ht, congrArg Tracks.queue ht,
    congrArg Tracks.recentlyPlayed ht, ?_, ?_⟩
  · unfold previousTrack
    rw [if_pos h]
  · rcases restart_cases false s with ⟨p, hy, hr, he⟩ | ⟨hn, a, ha, he⟩ | ⟨hn, ha, he⟩
    · exact Or.inl ⟨p, hy, hr, by rw [he]; simp⟩
    · exact Or.inr ⟨a, ha, by rw [he]; simp⟩
    · exfalso
      unfold readCurrentTime at h
      cases hy : s.youtubePlayer with
      | none =>
        rw [hy, ha] at h
        simp only at h
        exact absurd h (by norm_num)
      | some p =>
        have hr : p.ready = false := by
          cases hp : p.ready
          · rfl
          · exact absurd hp (hn p hy)
        rw [hy, ha] at h
        simp only [hr] at h
        exact absurd h (by norm_num)
  · intro q hist music2 o2
    unfold previousTrack
    have ht : readCurrentTime { s with queue := q, recentlyPlayed := hist } > 3 := h
    rw [if_pos ht, hframe]

/-- Witness of C3: song B, 10 s into playback on the audio element of a page
without a video player; and the video song A, 10 s into playback on the video
player, where the seek goes to the video player. -/
theorem previousTrack_restart_witness :
    previousTrack demoMusic Outcome.allGood demoAudioState =
      some (restart false demoAudioState) ∧
    (restart false demoAudioState).currentSong = demoAudioState.currentSong ∧
    (restart false demoAudioState).queue = [songC] ∧
    (restart false demoAudioState).recentlyPlayed = [songA] ∧
    previousTrack demoMusic Outcome.allGood demoVideoPlayingState =
      some (restart false demoVideoPlayingState) ∧
    restart false demoVideoPlayingState =
      { demoVideoPlayingState with log := demoVideoPlayingState.log ++ [Cmd.ytSeekTo 0] } :=
  have h := previousTrack_restart demoMusic Outcome.allGood demoAudioState (by decide)
  have h2 := previousTrack_restart demoMusic Outcome.allGood demoVideoPlayingState (by decide)
  ⟨h.1, h.2.1, h.2.2.1, h.2.2.2.1, h2.1, rfl⟩

/-- C4: in every state in which the elapsed time that `previousTrack` reads
is at most 3 (3 included): (a) with a non-empty history `h0 :: rest`,
`previousTrack` takes `h0` off the history and makes it the current song
(the outgoing song, if any, is then put in front of `rest` by `playSong`);
(b) with an empty history, a current song whose title first occurs at index
`i` of the album resolved from `currentArtist`/`currentAlbum`, of K songs,
`previousTrack` makes the album's song at index (i + K - 1) mod K, with artist,
album and cover set from the catalog, the current song; that index is K - 1
for i = 0 and i - 1 otherwise. -/
theorem previousTrack_resolution (music : List Artist) (o : Outcome) (s : State)
    (h : readCurrentTime s ≤ 3) :
    (∀ (h0 : Song) (rest : List Song), s.recentlyPlayed = h0 :: rest →
      ∃ t, previousTrack music o s = some t ∧ t.currentSong = some h0 ∧
        t.recentlyPlayed = (match s.currentSong with
          | some c => (c :: rest).take 50
          | none => rest) ∧
        t.queue = s.queue) ∧
    (∀ (artist : Artist) (album : Album) (cur x : Song) (i : Nat),
      s.recentlyPlayed = [] → findAlbum music s = some (artist, album) →
      s.currentSong = some cur → album.songs[i]? = some x → x.title = cur.title →
      (∀ j y, j < i → album.songs[j]? = some y → y.title ≠ cur.title) →
      ∃ t y, previousTrack music o s = some t ∧
        album.songs[(i + album.songs.length - 1) % album.songs.length]? = some y ∧
        t.currentSong = some { y with artist := some artist.artist,
                                      album := some album.album,
                                      cover := some (getAlbumImageUrl album.album) } ∧
        (i = 0 → (i + album.songs.length - 1) % album.songs.length = album.songs.length - 1) ∧
        (0 < i → (i + album.songs.length - 1) % album.songs.length = i - 1)) := by
  have hnot : ¬ readCurrentTime s > 3 := not_lt.mpr h
  have hst := tracks_stopProtection s
  constructor
  · intro h0 rest hrp
    have hrp1 : (stopProtection s).recentlyPlayed = h0 :: rest := by
      rw [← hrp]; exact congrArg Tracks.recentlyPlayed hst
    have hp : previousTrack music o s =
        some (playSong o h0 { stopProtection s with recentlyPlayed := rest }) := by
      unfold previousTrack
      rw [if_neg hnot]
      simp only [hrp1]
    refine ⟨_, hp, currentSong_playSong _ _ _, ?_, ?_⟩
    · rw [recentlyPlayed_playSong]
      unfold historyAfterPlay
      have hc : (stopProtection s).currentSong = s.currentSong :=
        congrArg Tracks.currentSong hst
      simp only [hc]
    · rw [queue_playSong]
      exact congrArg Tracks.queue hst
  · intro artist album cur x i hrp hfa hcur hx hxt hfirst
    have hrp1 : (stopProtection s).recentlyPlayed = [] := by
      rw [← hrp]; exact congrArg Tracks.recentlyPlayed hst
    have hfa1 : findAlbum music (stopProtection s) = some (artist, album) := by
      rw [findAlbum_congr music _ _ hst]; exact hfa
    have hcur1 : (stopProtection s).currentSong = some cur := by
      rw [← hcur]; exact congrArg Tracks.currentSong hst
    obtain ⟨hi, _⟩ := List.getElem?_eq_some.mp hx
    have hK : 0 < album.songs.length := Nat.lt_of_le_of_lt (Nat.zero_le _) hi
    have hidx : findIndex (fun z => z.title == cur.title) album.songs = (i : Int) := by
      apply findIndex_of_first _ _ i x hx
      · simpa using hxt
      · intro j y hj hy
        simpa using hfirst j y hj hy
    have hrem : jsRem ((i : Int) - 1 + (album.songs.length : Int)) (album.songs.length : Int)
        = (((i + album.songs.length - 1) % album.songs.length : Nat) : Int) := by
      rw [← jsRem_natCast]
      congr 1
      omega
    have hj : (i + album.songs.length - 1) % album.songs.length < album.songs.length :=
      Nat.mod_lt _ hK
    have hy : album.songs[(i + album.songs.length - 1) % album.songs.length]? =
        some (album.songs.get ⟨_, hj⟩) := List.getElem?_eq_getElem hj
    have hp : previousTrack music o s = some (playSong o
        (catalogSong artist album
          (((i + album.songs.length - 1) % album.songs.length : Nat) : Int))
        (stopProtection s)) := by
      unfold previousTrack
      rw [if_neg hnot]
      simp only [hrp1, hfa1, hcur1, hidx, hrem, if_pos hK]
    refine ⟨_, _, hp, hy, ?_, ?_, ?_⟩
    · rw [currentSong_playSong]
      unfold catalogSong
      rw [elemAt_natCast, hy]
      rfl
    · intro hi0
      subst hi0
      rw [Nat.zero_add]
      exact Nat.mod_eq_of_lt (by omega)
    · intro hpos
      have e : i + album.songs.length - 1 = (i - 1) + album.songs.length := by omega
      rw [e, Nat.add_mod_right]
      exact Nat.mod_eq_of_lt (by omega)

/-- Witness of C4: with song A of the example album current at exactly 3 s,
an empty history wraps to song C (index 2); with B in the history, B is next. -/
theorem previousTrack_resolution_witness :
    (∃ t, previousTrack demoMusic Outcome.allGood
        { demoStartState with recentlyPlayed := [songB] } = some t ∧
      t.currentSong = some songB ∧ t.recentlyPlayed = [demoSongA] ∧ t.queue = []) ∧
    (∃ t y, previousTrack demoMusic Outcome.allGood demoStartState = some t ∧
      [songA, songB, songC][(0 + 3 - 1) % 3]? = some y ∧
      t.currentSong = some { y with artist := some "Artist", album := some "Album",
                                    cover := some (getAlbumImageUrl "Album") } ∧
      (0 = 0 → (0 + 3 - 1) % 3 = 3 - 1) ∧ (0 < 0 → (0 + 3 - 1) % 3 = 0 - 1)) :=
  ⟨(previousTrack_resolution demoMusic Outcome.allGood
      { demoStartState with recentlyPlayed := [songB] } (by decide)).1 songB [] rfl,
   (previousTrack_resolution demoMusic Outcome.allGood demoStartState (by decide)).2
      { artist := "Artist", albums := [{ album := "Album", songs := [songA, songB, songC] }] }
      { album := "Album", songs := [songA, songB, songC] } demoSongA songA 0
      rfl (by decide) rfl rfl rfl (by intro j y hj; exact absurd hj (Nat.not_lt_zero j))⟩

/-- C5: with repeat mode `one`, whatever the queue, the history and the
shuffle flag, `handleSongEnd` only restarts the current song: it seeks to 0
and issues a play command on the backend it picks (the video player when it
exposes its API, else the audio element; nothing when neither exists), and
the current song, the queue, the history, the modes and the playing flag are
unchanged; the same holds after any number of `handleSongEnd` calls in a row. -/
theorem handleSongEnd_repeat_one (music : List Artist) (o : Outcome) (r : ℚ) (s : State)
    (calls : List (Outcome × ℚ)) (h : s.repeatMode = RepeatMode.one) :
    (∃ t, handleSongEnd music o r s = some t ∧ t.tracks = s.tracks ∧
      t.isPlaying = s.isPlaying ∧
      ((∃ p, s.youtubePlayer = some p ∧ p.ready = true ∧
          t = { s with log := s.log ++ [Cmd.ytSeekTo 0, Cmd.ytPlayVideo] }) ∨
       ((∀ p, s.youtubePlayer = some p → ¬ p.ready = true) ∧
          ∃ a, s.audioElement = some a ∧
            t = { s with audioElement := some { a with currentTime := 0 },
                         log := s.log ++ [Cmd.audioSetCurrentTime 0, Cmd.audioPlay] }) ∨
       ((∀ p, s.youtubePlayer = some p → ¬ p.ready = true) ∧ s.audioElement = none ∧
          t = s))) ∧
    (∃ t, handleSongEnds music calls s = some t ∧ t.tracks = s.tracks ∧
      t.isPlaying = s.isPlaying) := by
  constructor
  · refine ⟨_, handleSongEnd_of_one music o r s h, tracks_restart true s,
      isPlaying_restart true s, ?_⟩
    rcases restart_cases true s with ⟨p, hy, hr, he⟩ | ⟨hn, a, ha, he⟩ | ⟨hn, ha, he⟩
    · exact Or.inl ⟨p, hy, hr, by rw [he]; simp⟩
    · exact Or.inr (Or.inl ⟨hn, a, ha, by rw [he]; simp⟩)
    · exact Or.inr (Or.inr ⟨hn, ha, he⟩)
  · induction calls generalizing s with
    | nil => exact ⟨s, rfl, rfl, rfl⟩
    | cons c cs ih =>
      have hm : (restart true s).repeatMode = RepeatMode.one := by
        rw [← h]; exact congrArg Tracks.repeatMode (tracks_restart true s)
      obtain ⟨t, ht, htr, hpl⟩ := ih (restart true s) hm
      refine ⟨t, ?_, ?_, ?_⟩
      · unfold handleSongEnds
        rw [List.foldlM_cons, handleSongEnd_of_one music c.1 c.2 s h]
        exact ht
      · rw [htr, tracks_restart]
      · rw [hpl, isPlaying_restart]

/-- Witness of C5: song B on the audio element with repeat `one`, a song
queued and one in the history; three `handleSongEnd` calls in a row. -/
theorem handleSongEnd_repeat_one_witness :
    (∃ t, handleSongEnd demoMusic Outcome.allGood 0
        { demoAudioState with repeatMode := RepeatMode.one } = some t ∧
      t.tracks = { demoAudioState with repeatMode := RepeatMode.one }.tracks) ∧
    (∃ t, handleSongEnds demoMusic
        [(Outcome.allGood, 0), (Outcome.allGood, 1 / 2), (Outcome.allGood, 0)]
        { demoAudioState with repeatMode := RepeatMode.one } = some t ∧
      t.tracks = { demoAudioState with repeatMode := RepeatMode.one }.tracks ∧
      t.isPlaying = true) :=
  have h := handleSongEnd_repeat_one demoMusic Outcome.allGood 0
    { demoAudioState with repeatMode := RepeatMode.one }
    [(Outcome.allGood, 0), (Outcome.allGood, 1 / 2), (Outcome.allGood, 0)] rfl
  ⟨h.1.elim fun t ht => ⟨t, ht.1, ht.2.1⟩, h.2⟩

/-- C6 (the code at the claim's scenario): with the album [A, B, C] in the
catalog, shuffle off, repeat `off` and an empty queue, the first
`handleSongEnd` after `playSong(A)` already takes the stop branch: the
current song stays A (it does not become B) and the playing flag is false. -/
theorem handleSongEnd_after_first_song (o o2 : Outcome) (r : ℚ) :
    ∃ t, handleSongEnd demoMusic o2 r (playSong o demoSongA State.init) = some t ∧
      t.currentSong = some demoSongA ∧ t.isPlaying = false ∧
      t.currentSong ≠ some { songB with artist := some "Artist", album := some "Album",
                                        cover := some (getAlbumImageUrl "Album") } := by
  have htr := tracks_playSong o demoSongA State.init
  have hq : (playSong o demoSongA State.init).queue = [] := congrArg Tracks.queue htr
  have hs : (playSong o demoSongA State.init).shuffleMode = false :=
    congrArg Tracks.shuffleMode htr
  have hr : (playSong o demoSongA State.init).repeatMode = RepeatMode.off :=
    congrArg Tracks.repeatMode htr
  have hc : (playSong o demoSongA State.init).currentSong = some demoSongA :=
    congrArg Tracks.currentSong htr
  have hstop := handleSongEnd_stop demoMusic o2 r (playSong o demoSongA State.init) hq
    (by rw [hr]; decide) (Or.inl ⟨hs, hr⟩)
  have hcur : (stopPlayback (playSong o demoSongA State.init)).currentSong = some demoSongA := by
    rw [← hc]; exact congrArg Tracks.currentSong (tracks_stopPlayback _)
  refine ⟨_, hstop, hcur, isPlaying_stopPlayback _, ?_⟩
  rw [hcur]
  decide

/-- C7: whenever `handleSongEnd` takes the stop branch (repeat mode not
`one`, queue empty, and either shuffle off with repeat `off`, or no album
resolved from the catalog, or a resolved album without songs), the result is
`stopPlayback`: the playing flag is false, the current song is still the song
that ended, and the queue and the history are unchanged. -/
theorem handleSongEnd_stop_branch (music : List Artist) (o : Outcome) (r : ℚ) (s : State)
    (hq : s.queue = []) (hone : s.repeatMode ≠ RepeatMode.one)
    (hstop : (s.shuffleMode = false ∧ s.repeatMode = RepeatMode.off) ∨
      findAlbum music s = none ∨
      ∃ artist album, findAlbum music s = some (artist, album) ∧ album.songs = []) :
    ∃ t, handleSongEnd music o r s = some t ∧ t = stopPlayback s ∧ t.isPlaying = false ∧
      t.currentSong = s.currentSong ∧ t.queue = s.queue ∧
      t.recentlyPlayed = s.recentlyPlayed :=
  ⟨_, handleSongEnd_stop music o r s hq hone hstop, rfl, isPlaying_stopPlayback s,
    congrArg Tracks.currentSong (tracks_stopPlayback s),
    congrArg Tracks.queue (tracks_stopPlayback s),
    congrArg Tracks.recentlyPlayed (tracks_stopPlayback s)⟩

/-- Witness of C7: song A of the example album ends with shuffle off, repeat
`off` and nothing queued. -/
theorem handleSongEnd_stop_branch_witness :
    ∃ t, handleSongEnd demoMusic Outcome.allGood 0 demoStartState = some t ∧
      t = stopPlayback demoStartState ∧ t.isPlaying = false ∧
      t.currentSong = some demoSongA ∧ t.queue = [] ∧ t.recentlyPlayed = [] :=
  handleSongEnd_stop_branch demoMusic Outcome.allGood 0 demoStartState rfl (by decide)
    (Or.inl ⟨rfl, rfl⟩)

/-- C8: with an empty queue, shuffle off and repeat mode `all`, when the
title of the current song first occurs at index `i` of the album resolved
from the catalog (K songs, K >= 1), `handleSongEnd` makes the album's song at
index (i + 1) mod K the current song, its artist and album fields (and cover)
taken from the catalog entry; from the last index the next index is 0. -/
theorem handleSongEnd_repeat_all (music : List Artist) (o : Outcome) (r : ℚ) (s : State)
    (artist : Artist) (album : Album) (cur x : Song) (i : Nat)
    (hq : s.queue = []) (hsh : s.shuffleMode = false) (hrep : s.repeatMode = RepeatMode.all)
    (hfa : findAlbum music s = some (artist, album)) (hcur : s.currentSong = some cur)
    (hx : album.songs[i]? = some x) (hxt : x.title = cur.title)
    (hfirst : ∀ j y, j < i → album.songs[j]? = some y → y.title ≠ cur.title) :
    ∃ t y, handleSongEnd music o r s = some t ∧
      album.songs[(i + 1) % album.songs.length]? = some y ∧
      t.currentSong = some { y with artist := some artist.artist,
                                    album := some album.album,
                                    cover := some (getAlbumImageUrl album.album) } ∧
      t.currentArtist = some artist.artist ∧ t.currentAlbum = some album.album ∧
      (i + 1 = album.songs.length → (i + 1) % album.songs.length = 0) := by
  obtain ⟨hi, _⟩ := List.getElem?_eq_some.mp hx
  have hK : 0 < album.songs.length := Nat.lt_of_le_of_lt (Nat.zero_le _) hi
  have hidx := findIndex_title album cur x i hx hxt hfirst
  have hj : (i + 1) % album.songs.length < album.songs.length := Nat.mod_lt _ hK
  have hy : album.songs[(i + 1) % album.songs.length]? =
      some (album.songs.get ⟨_, hj⟩) := List.getElem?_eq_getElem hj
  have hq0 : ¬ s.queue.length > 0 := by rw [hq]; simp
  have hK0 : ¬ album.songs.length = 0 := Nat.pos_iff_ne_zero.mp hK
  have hp : handleSongEnd music o r s = some (playSong o
      { album.songs.get ⟨_, hj⟩ with artist := some artist.artist,
                                     album := some album.album,
                                     cover := some (getAlbumImageUrl album.album) } s) := by
    unfold handleSongEnd
    rw [if_neg (by rw [hrep]; decide), if_neg hq0, hfa]
    simp only [if_neg hK0, hsh, hrep, hcur, hidx, next_index, elemAt_natCast, hy]
    simp
  refine ⟨_, _, hp, hy, currentSong_playSong _ _ _, ?_, ?_, ?_⟩
  · exact congrArg Tracks.currentArtist (tracks_playSong _ _ _)
  · exact congrArg Tracks.currentAlbum (tracks_playSong _ _ _)
  · intro e
    rw [e, Nat.mod_self]

/-- Witness of C8: song C, the last of the example album, ends with repeat
`all`; song A (index 0) is next. -/
theorem handleSongEnd_repeat_all_witness :
    ∃ t y, handleSongEnd demoMusic Outcome.allGood 0
        { demoStartState with currentSong := some demoSongC,
                              repeatMode := RepeatMode.all } = some t ∧
      [songA, songB, songC][(2 + 1) % 3]? = some y ∧
      t.currentSong = some { y with artist := some "Artist", album := some "Album",
                                    cover := some (getAlbumImageUrl "Album") } ∧
      t.currentArtist = some "Artist" ∧ t.currentAlbum = some "Album" ∧
      (2 + 1 = 3 → (2 + 1) % 3 = 0) :=
  handleSongEnd_repeat_all demoMusic Outcome.allGood 0
    { demoStartState with currentSong := some demoSongC, repeatMode := RepeatMode.all }
    { artist := "Artist", albums := [{ album := "Album", songs := [songA, songB, songC] }] }
    { album := "Album", songs := [songA, songB, songC] } demoSongC songC 2
    rfl rfl rfl (by decide) rfl rfl rfl
    (by
      intro j y hj hy
      have hcases : j = 0 ∨ j = 1 := by omega
      rcases hcases with rfl | rfl
      · obtain rfl : songA = y := by simpa using hy
        decide
      · obtain rfl : songB = y := by simpa using hy
        decide)

/-- C9: with an empty queue, shuffle on and repeat mode `off` or `all`, for
every album of K >= 1 songs resolved from the catalog and every draw `r` with
0 <= r < 1, the index floor(r * K) is a natural number below K and
`handleSongEnd` makes the album's song at that index (with artist, album and
cover set from the catalog) the current song; that song is a member of the
album, and the outcome is the same under repeat `all` as under repeat `off`
(shuffle is tested first). -/
theorem handleSongEnd_shuffle (music : List Artist) (o : Outcome) (r : ℚ) (s : State)
    (artist : Artist) (album : Album)
    (hq : s.queue = []) (hsh : s.shuffleMode = true) (hrep : s.repeatMode ≠ RepeatMode.one)
    (hfa : findAlbum music s = some (artist, album)) (hK : 0 < album.songs.length)
    (hr0 : 0 ≤ r) (hr1 : r < 1) :
    ∃ (t : State) (j : Nat) (y : Song),
      randomIndex r album.songs.length = (j : Int) ∧ j < album.songs.length ∧
      album.songs[j]? = some y ∧ y ∈ album.songs ∧
      handleSongEnd music o r s = some t ∧
      t.currentSong = some { y with artist := some artist.artist,
                                    album := some album.album,
                                    cover := some (getAlbumImageUrl album.album) } ∧
      ∀ m : RepeatMode, m ≠ RepeatMode.one →
        ∃ t2, handleSongEnd music o r { s with repeatMode := m } = some t2 ∧
          t2.currentSong = t.currentSong := by
  have hKq : (0 : ℚ) < (album.songs.length : ℚ) := by exact_mod_cast hK
  have hlo : (0 : Int) ≤ randomIndex r album.songs.length := by
    unfold randomIndex
    rw [Rat.le_floor]
    simpa using mul_nonneg hr0 (le_of_lt hKq)
  have hhi : randomIndex r album.songs.length < (album.songs.length : Int) := by
    unfold randomIndex
    show ⌊r * (album.songs.length : ℚ)⌋ < (album.songs.length : Int)
    rw [Int.floor_lt]
    have := mul_lt_mul_of_pos_right hr1 hKq
    simpa using this
  obtain ⟨j, hj⟩ := Int.eq_ofNat_of_zero_le hlo
  have hjK : j < album.songs.length := by
    rw [hj] at hhi
    exact_mod_cast hhi
  have hy : album.songs[j]? = some (album.songs.get ⟨j, hjK⟩) := List.getElem?_eq_getElem hjK
  have hq0 : ¬ s.queue.length > 0 := by rw [hq]; simp
  have hK0 : ¬ album.songs.length = 0 := Nat.pos_iff_ne_zero.mp hK
  have hgen : ∀ m : RepeatMode, m ≠ RepeatMode.one →
      handleSongEnd music o r { s with repeatMode := m } = some (playSong o
        { album.songs.get ⟨j, hjK⟩ with artist := some artist.artist,
                                        album := some album.album,
                                        cover := some (getAlbumImageUrl album.album) }
        { s with repeatMode := m }) := by
    intro m hm
    have hfa2 : findAlbum music { s with repeatMode := m } = some (artist, album) := hfa
    unfold handleSongEnd
    rw [if_neg hm, if_neg hq0, hfa2]
    simp only [if_neg hK0, hsh, hj, elemAt_natCast, hy]
    simp
  have hself : { s with repeatMode := s.repeatMode } = s := rfl
  have hp := hgen s.repeatMode hrep
  rw [hself] at hp
  refine ⟨_, j, _, hj, hjK, hy, List.get_mem _ _ _, hp, currentSong_playSong _ _ _, ?_⟩
  intro m hm
  refine ⟨_, hgen m hm, ?_⟩
  rw [currentSong_playSong, currentSong_playSong]

/-- Witness of C9: song A of the example album ends with shuffle on and the
draw 1/2; the index is floor(3/2) = 1, below 3. -/
theorem handleSongEnd_shuffle_witness :
    ∃ (t : State) (j : Nat) (y : Song),
      randomIndex (1 / 2) 3 = (j : Int) ∧ j < 3 ∧
      [songA, songB, songC][j]? = some y ∧ y ∈ [songA, songB, songC] ∧
      handleSongEnd demoMusic Outcome.allGood (1 / 2)
        { demoStartState with shuffleMode := true, repeatMode := RepeatMode.all } = some t ∧
      t.currentSong = some { y with artist := some "Artist", album := some "Album",
                                    cover := some (getAlbumImageUrl "Album") } :=
  have h := handleSongEnd_shuffle demoMusic Outcome.allGood (1 / 2)
    { demoStartState with shuffleMode := true, repeatMode := RepeatMode.all }
    { artist := "Artist", albums := [{ album := "Album", songs := [songA, songB, songC] }] }
    { album := "Album", songs := [songA, songB, songC] }
    rfl rfl (by decide) rfl (by decide) (by norm_num) (by norm_num)
  h.elim fun t ht => ht.elim fun j hj => hj.elim fun y hy =>
    ⟨t, j, y, hy.1, hy.2.1, hy.2.2.1, hy.2.2.2.1, hy.2.2.2.2.1, hy.2.2.2.2.2.1⟩

/-- C10: with an empty queue, when `currentArtist` and `currentAlbum` resolve
(by exact match) to a catalog album of K >= 1 songs and the title of the
current song first occurs at index `i` of that album, `nextTrack` makes the
album's song at index (i + 1) mod K the current song, with artist and album
(and cover) set from the catalog; from index K - 1 the next index is 0. -/
theorem nextTrack_album_next (music : List Artist) (o : Outcome) (s : State)
    (artist : Artist) (album : Album) (cur x : Song) (i : Nat)
    (hq : s.queue = [])
    (hfa : findAlbum music s = some (artist, album)) (hcur : s.currentSong = some cur)
    (hx : album.songs[i]? = some x) (hxt : x.title = cur.title)
    (hfirst : ∀ j y, j < i → album.songs[j]? = some y → y.title ≠ cur.title) :
    ∃ t y, nextTrack music o s = some t ∧
      album.songs[(i + 1) % album.songs.length]? = some y ∧
      t.currentSong = some { y with artist := some artist.artist,
                                    album := some album.album,
                                    cover := some (getAlbumImageUrl album.album) } ∧
      t.currentArtist = some artist.artist ∧ t.currentAlbum = some album.album ∧
      (i = album.songs.length - 1 → (i + 1) % album.songs.length = 0) := by
  have hst := tracks_stopProtection s
  obtain ⟨hi, _⟩ := List.getElem?_eq_some.mp hx
  have hK : 0 < album.songs.length := Nat.lt_of_le_of_lt (Nat.zero_le _) hi
  have hidx := findIndex_title album cur x i hx hxt hfirst
  have hj : (i + 1) % album.songs.length < album.songs.length := Nat.mod_lt _ hK
  have hy : album.songs[(i + 1) % album.songs.length]? =
      some (album.songs.get ⟨_, hj⟩) := List.getElem?_eq_getElem hj
  have hq1 : (stopProtection s).queue = [] := by
    rw [← hq]; exact congrArg Tracks.queue hst
  have hfa1 : findAlbum music (stopProtection s) = some (artist, album) := by
    rw [findAlbum_congr music _ _ hst]; exact hfa
  have hcur1 : (stopProtection s).currentSong = some cur := by
    rw [← hcur]; exact congrArg Tracks.currentSong hst
  have hp : nextTrack music o s = some (playSong o
      (catalogSong artist album (((i + 1) % album.songs.length : Nat) : Int))
      (stopProtection s)) := by
    unfold nextTrack
    simp only [hq1, hfa1, hcur1, hidx, next_index, if_pos hK]
  refine ⟨_, _, hp, hy, ?_, ?_, ?_, ?_⟩
  · rw [currentSong_playSong]
    unfold catalogSong
    rw [elemAt_natCast, hy]
    rfl
  · exact congrArg Tracks.currentArtist (tracks_playSong _ _ _)
  · exact congrArg Tracks.currentAlbum (tracks_playSong _ _ _)
  · intro e
    have e2 : i + 1 = album.songs.length := by omega
    rw [e2, Nat.mod_self]

/-- Witness of C10: song C (index 2 of 3) of the example album is current;
`nextTrack` wraps to song A at index 0. -/
theorem nextTrack_album_next_witness :
    ∃ t y, nextTrack demoMusic Outcome.allGood
        { demoStartState with currentSong := some demoSongC } = some t ∧
      [songA, songB, songC][(2 + 1) % 3]? = some y ∧
      t.currentSong = some { y with artist := some "Artist", album := some "Album",
                                    cover := some (getAlbumImageUrl "Album") } ∧
      t.currentArtist = some "Artist" ∧ t.currentAlbum = some "Album" ∧
      (2 = 3 - 1 → (2 + 1) % 3 = 0) :=
  nextTrack_album_next demoMusic Outcome.allGood
    { demoStartState with currentSong := some demoSongC }
    { artist := "Artist", albums := [{ album := "Album", songs := [songA, songB, songC] }] }
    { album := "Album", songs := [songA, songB, songC] } demoSongC songC 2
    rfl rfl rfl rfl rfl
    (by
      intro j y hj hy
      have hcases : j = 0 ∨ j = 1 := by omega
      rcases hcases with rfl | rfl
      · obtain rfl : songA = y := by simpa using hy
        decide
      · obtain rfl : songB = y := by simpa using hy
        decide)

/-- C11 as stated fails on an album that repeats a title: in the album
[A, B, A] with the song at index 2 current, an empty queue and repeat `all`,
three `nextTrack` calls end on the song at index 1, not on the song at
index 2 they started from. -/
theorem nextTrack_cycle_counterexample :
    dupAlbum.songs.length = 3 ∧
    dupStartState.queue = [] ∧ dupStartState.repeatMode = RepeatMode.all ∧
    findAlbum dupMusic dupStartState = some (dupArtist, dupAlbum) ∧
    dupStartState.currentSong = some (catalogSong dupArtist dupAlbum 2) ∧
    ∃ t, nextTracks dupMusic [Outcome.allGood, Outcome.allGood, Outcome.allGood]
        dupStartState = some t ∧
      t.currentSong = some (catalogSong dupArtist dupAlbum 1) ∧
      t.currentSong ≠ some (catalogSong dupArtist dupAlbum 2) := by
  refine ⟨rfl, rfl, rfl, rfl, rfl, ?_⟩
  refine ⟨_, rfl, rfl, ?_⟩
  decide

/-- C11 (amended): for every album that the catalog lookup resolves from
`currentArtist`/`currentAlbum`, whose K song titles are pairwise distinct,
and every index i < K: starting with a current song titled like the album's
song at index i and an empty queue (under any repeat mode), K calls of
`nextTrack` return normally and make the album's song at index i, with
artist, album and cover from the catalog, the current song; when the start
song was that catalog form, the current song is the same as at the start. -/
theorem nextTrack_cycle (music : List Artist) (os : List Outcome) (s : State)
    (artist : Artist) (album : Album) (cur x : Song) (i : Nat)
    (hnodup : (album.songs.map fun z => z.title).Nodup)
    (hq : s.queue = []) (hfa : findAlbum music s = some (artist, album))
    (hcur : s.currentSong = some cur) (hx : album.songs[i]? = some x)
    (hxt : cur.title = x.title) (hlen : os.length = album.songs.length) :
    ∃ t, nextTracks music os s = some t ∧
      t.currentSong = some { x with artist := some artist.artist,
                                    album := some album.album,
                                    cover := some (getAlbumImageUrl album.album) } ∧
      (cur = { x with artist := some artist.artist, album := some album.album,
                      cover := some (getAlbumImageUrl album.album) } →
        t.currentSong = s.currentSong) := by
  obtain ⟨hi, _⟩ := List.getElem?_eq_some.mp hx
  have hK : 0 < album.songs.length := Nat.lt_of_le_of_lt (Nat.zero_le _) hi
  obtain ⟨t, ht, htcur⟩ := nextTracks_index music artist album hnodup os s cur x i
    hq hfa hcur hx hxt (by rw [hlen]; exact hK)
  have hback : (i + os.length) % album.songs.length = i := by
    rw [hlen, Nat.add_mod_right]
    exact Nat.mod_eq_of_lt hi
  rw [hback, (title_catalogSong artist album i x hx).2] at htcur
  refine ⟨t, ht, htcur, ?_⟩
  intro he
  rw [htcur, hcur, he]

/-- Witness of C11: the example album [A, B, C], three calls from song C. -/
theorem nextTrack_cycle_witness :
    ∃ t, nextTracks demoMusic [Outcome.allGood, Outcome.allGood, Outcome.allGood]
        { demoStartState with currentSong := some demoSongC } = some t ∧
      t.currentSong = some { songC with artist := some "Artist", album := some "Album",
                                        cover := some (getAlbumImageUrl "Album") } ∧
      (demoSongC = { songC with artist := some "Artist", album := some "Album",
                                cover := some (getAlbumImageUrl "Album") } →
        t.currentSong = some demoSongC) :=
  nextTrack_cycle demoMusic [Outcome.allGood, Outcome.allGood, Outcome.allGood]
    { demoStartState with currentSong := some demoSongC }
    { artist := "Artist", albums := [{ album := "Album", songs := [songA, songB, songC] }] }
    { album := "Album", songs := [songA, songB, songC] } demoSongC songC 2
    (by decide) rfl rfl rfl rfl rfl rfl

/-- C12: when the catalog lookup by `currentArtist`/`currentAlbum` finds no
album, or finds an album without songs, then (a) with an empty queue
`nextTrack` returns normally and only switches metadata protection off: the
current song, the queue, the history, the playing flag, both backends and the
command log are unchanged, so no start, stop or seek command is issued; and
(b) with a read time of at most 3 and an empty history the same holds for
`previousTrack`. -/
theorem navigation_noop (music : List Artist) (o : Outcome) (s : State)
    (hun : findAlbum music s = none ∨
      ∃ artist album, findAlbum music s = some (artist, album) ∧ album.songs = []) :
    (s.queue = [] →
      ∃ t, nextTrack music o s = some t ∧ t = stopProtection s ∧
        t.currentSong = s.currentSong ∧ t.isPlaying = s.isPlaying ∧
        t.queue = s.queue ∧ t.recentlyPlayed = s.recentlyPlayed ∧
        t.log = s.log ∧ t.audioElement = s.audioElement ∧
        t.youtubePlayer = s.youtubePlayer) ∧
    (readCurrentTime s ≤ 3 → s.recentlyPlayed = [] →
      ∃ t, previousTrack music o s = some t ∧ t = stopProtection s ∧
        t.currentSong = s.currentSong ∧ t.isPlaying = s.isPlaying ∧
        t.queue = s.queue ∧ t.recentlyPlayed = s.recentlyPlayed ∧
        t.log = s.log ∧ t.audioElement = s.audioElement ∧
        t.youtubePlayer = s.youtubePlayer) := by
  have ht := tracks_stopProtection s
  have hp := playback_stopProtection s
  have frame : (stopProtection s).currentSong = s.currentSong ∧
      (stopProtection s).isPlaying = s.isPlaying ∧
      (stopProtection s).queue = s.queue ∧
      (stopProtection s).recentlyPlayed = s.recentlyPlayed ∧
      (stopProtection s).log = s.log ∧
      (stopProtection s).audioElement = s.audioElement ∧
      (stopProtection s).youtubePlayer = s.youtubePlayer :=
    ⟨congrArg Tracks.currentSong ht, congrArg Playback.isPlaying hp,
      congrArg Tracks.queue ht, congrArg Tracks.recentlyPlayed ht,
      congrArg Playback.log hp, congrArg Playback.audioElement hp,
      congrArg Playback.youtubePlayer hp⟩
  constructor
  · intro hq
    exact ⟨_, nextTrack_unresolved music o s hq hun, rfl, frame⟩
  · intro htime hrp
    exact ⟨_, previousTrack_unresolved music o s htime hrp hun, rfl, frame⟩

/-- Witness of C12: a song of an artist that the example catalog does not
list is current, 3 s in, with nothing queued and nothing in the history. -/
theorem navigation_noop_witness :
    (∃ t, nextTrack demoMusic Outcome.allGood
        { demoStartState with currentArtist := some "Nobody" } = some t ∧
      t.currentSong = some demoSongA ∧ t.isPlaying = true ∧ t.queue = [] ∧
      t.recentlyPlayed = [] ∧ t.log = []) ∧
    (∃ t, previousTrack demoMusic Outcome.allGood
        { demoStartState with currentArtist := some "Nobody" } = some t ∧
      t.currentSong = some demoSongA ∧ t.isPlaying = true ∧ t.queue = [] ∧
      t.recentlyPlayed = [] ∧ t.log = []) :=
  have h := navigation_noop demoMusic Outcome.allGood
    { demoStartState with currentArtist := some "Nobody" } (Or.inl rfl)
  ⟨(h.1 rfl).elim fun t ht =>
      ⟨t, ht.1, ht.2.2.1, ht.2.2.2.1, ht.2.2.2.2.1, ht.2.2.2.2.2.1, ht.2.2.2.2.2.2.1⟩,
   (h.2 (by decide) rfl).elim fun t ht =>
      ⟨t, ht.1, ht.2.2.1, ht.2.2.2.1, ht.2.2.2.2.1, ht.2.2.2.2.2.1, ht.2.2.2.2.2.2.1⟩⟩

/-- C13: (a) in every state, the backend commands of one `playSong` call are
a block of stop commands (the pause of the audio element, always; the stop of
the video player whenever it exposes its API) followed by a block of start
commands (video load-by-id, audio source set, audio play): no start command
comes before a stop command. (b) Over a run of `playSong` calls that starts
with an empty command log, the next call sends the audio pause, and the video
stop if any video was loaded before, ahead of all of its start commands. -/
theorem playSong_teardown_first (plays : List (Outcome × Song)) (s0 : State)
    (o : Outcome) (songData : Song) (h0 : s0.log = []) :
    (∀ s : State, ∃ stops starts,
      (playSong o songData s).log = s.log ++ stops ++ starts ∧
      (∀ c ∈ stops, isStopCmd c = true) ∧ (∀ c ∈ starts, isStartCmd c = true) ∧
      Cmd.audioPause ∈ stops ∧ (ytReady s → Cmd.ytStopVideo ∈ stops)) ∧
    (∃ stops starts,
      (playSong o songData (playAll plays s0)).log =
        (playAll plays s0).log ++ stops ++ starts ∧
      (∀ c ∈ stops, isStopCmd c = true) ∧ (∀ c ∈ starts, isStartCmd c = true) ∧
      Cmd.audioPause ∈ stops ∧
      ((∃ videoId, Cmd.ytLoadVideoById videoId ∈ (playAll plays s0).log) →
        Cmd.ytStopVideo ∈ stops)) := by
  constructor
  · intro s
    obtain ⟨stops, starts, h1, h2, h3, h4, h5, _, _⟩ := playSong_log o songData s
    exact ⟨stops, starts, h1, h2, h3, h4, h5⟩
  · obtain ⟨stops, starts, h1, h2, h3, h4, h5, _, _⟩ :=
      playSong_log o songData (playAll plays s0)
    refine ⟨stops, starts, h1, h2, h3, h4, ?_⟩
    intro hv
    apply h5
    apply playAll_ytReady plays s0 _ hv
    rintro ⟨videoId, hmem⟩
    rw [h0] at hmem
    cases hmem

/-- Witness of C13: song B is played after the video song on a page with a
ready video player. -/
theorem playSong_teardown_first_witness :
    ∃ stops starts,
      (playSong Outcome.allGood demoSongB
        (playAll [(Outcome.allGood, demoVideoSong)] demoReadyState)).log =
        (playAll [(Outcome.allGood, demoVideoSong)] demoReadyState).log ++ stops ++ starts ∧
      (∀ c ∈ stops, isStopCmd c = true) ∧ (∀ c ∈ starts, isStartCmd c = true) ∧
      Cmd.audioPause ∈ stops ∧
      ((∃ videoId, Cmd.ytLoadVideoById videoId ∈
          (playAll [(Outcome.allGood, demoVideoSong)] demoReadyState).log) →
        Cmd.ytStopVideo ∈ stops) :=
  (playSong_teardown_first [(Outcome.allGood, demoVideoSong)] demoReadyState
    Outcome.allGood demoSongB rfl).2

/-- C14 (the code at a failing input): the video song is playing on the ready
player (playing flag true); `playSong` of song B, which has no video
identifier and whose three audio formats all fail, returns with song B as
current song, the flag `false` from `playAudioFallback`, the three sources
tried, and the playing flag still true; the state-change events UNSTARTED and
CUED that may follow `stopVideo` leave it true. -/
theorem playSong_failed_load_keeps_flag :
    demoVideoState.isPlaying = true ∧
    (playAudioFallback Outcome.allFail demoSongB
      (playSongTeardown demoSongB demoVideoState)).1 = false ∧
    (playSong Outcome.allFail demoSongB demoVideoState).currentSong = some demoSongB ∧
    (playSong Outcome.allFail demoSongB demoVideoState).isPlaying = true ∧
    (playSong Outcome.allFail demoSongB demoVideoState).log =
      [Cmd.audioPause, Cmd.ytStopVideo, Cmd.ytLoadVideoById "vid",
       Cmd.audioPause, Cmd.ytStopVideo,
       Cmd.audioSetSrc (audioUrl "B" "mp3"), Cmd.audioSetSrc (audioUrl "B" "ogg"),
       Cmd.audioSetSrc (audioUrl "B" "m4a")] ∧
    (∀ (music : List Artist) (o : Outcome) (r : ℚ),
      onPlayerStateChange music o r (-1) (playSong Outcome.allFail demoSongB demoVideoState)
        = some (playSong Outcome.allFail demoSongB demoVideoState)) ∧
    (∀ (music : List Artist) (o : Outcome) (r : ℚ),
      onPlayerStateChange music o r 5 (playSong Outcome.allFail demoSongB demoVideoState)
        = some (playSong Outcome.allFail demoSongB demoVideoState)) := by
  refine ⟨rfl, rfl, rfl, rfl, rfl, ?_, ?_⟩
  · intro music o r
    rfl
  · intro music o r
    rfl

/-- C15 as stated fails in its third case: the video song is played on a
ready player, the load call returns normally and playback is never observed
before the playback wait ends; `playSong` then issues no audio command at all
(although every audio format would have loaded) and sets the playing flag. -/
theorem playSong_video_fallback_counterexample :
    demoVideoSong.youtube = some "vid" ∧
    Outcome.videoSilent.ytPlaybackStarted = false ∧
    (playSong Outcome.videoSilent demoVideoSong demoReadyState).log =
      [Cmd.audioPause, Cmd.ytStopVideo, Cmd.ytLoadVideoById "vid"] ∧
    (playSong Outcome.videoSilent demoVideoSong demoReadyState).log.any isAudioStartCmd
      = false ∧
    (playSong Outcome.videoSilent demoVideoSong demoReadyState).isPlaying = true :=
  ⟨rfl, rfl, rfl, rfl, rfl⟩

/-- C15 (amended): for every song with a non-empty video identifier,
`playSong` turns to the video player first, after the teardown and the
readiness wait: (a) when the player is missing or does not expose its API
once the readiness wait has ended, or when the load call raises, `playSong`
issues no load command and its result is that of `playAudioFallback`, run
from the state reached so far; (b) when the player exposes its API, the load
call returns normally and the descriptor can be built, `playSong` logs the
load command, sets the playing flag and runs no audio fallback, whether or
not playback is observed before the playback wait ends. -/
theorem playSong_video_fallback (o : Outcome) (songData : Song) (s : State)
    (videoId : String) (hv : songData.youtube = some videoId) (hne : videoId ≠ "") :
    ((¬ ytReady (awaitPlayer o (playSongTeardown songData s)) ∨ o.ytLoadThrows = true) →
      ∃ s7, (s7 = awaitPlayer o (playSongTeardown songData s) ∨
          setMetadata songData (awaitPlayer o (playSongTeardown songData s)) = some s7) ∧
        playSong o songData s = (playAudioFallback o songData s7).2) ∧
    (ytReady (awaitPlayer o (playSongTeardown songData s)) → o.ytLoadThrows = false →
      ∀ s8, setMetadata songData (awaitPlayer o (playSongTeardown songData s)) = some s8 →
        ∀ b : Bool, playSong { o with ytPlaybackStarted := b } songData s =
          { s8 with log := s8.log ++ [Cmd.ytLoadVideoById videoId], isPlaying := true }) := by
  constructor
  · intro hfail
    rw [playSong_eq, playSongStart_video o songData _ videoId hv hne]
    cases hm : setMetadata songData (awaitPlayer o (playSongTeardown songData s)) with
    | none => exact ⟨_, Or.inl rfl, rfl⟩
    | some s8 =>
      refine ⟨s8, Or.inr rfl, ?_⟩
      obtain ⟨_, _, f3, _⟩ := playback_fields _ _ (playback_setMetadata _ _ _ hm)
      simp only
      cases hy : s8.youtubePlayer with
      | none => rfl
      | some p =>
        simp only
        have hcond : (p.ready && !o.ytLoadThrows) = false := by
          rcases hfail with hnr | hthrow
          · have hpr : p.ready = false := by
              cases hr : p.ready
              · rfl
              · exact absurd ⟨p, by rw [← f3]; exact hy, hr⟩ hnr
            rw [hpr]; rfl
          · rw [hthrow]; simp
        rw [hcond]
        rfl
  · intro hready hthrow s8 hm b
    have hm2 : setMetadata songData
        (awaitPlayer { o with ytPlaybackStarted := b } (playSongTeardown songData s))
        = some s8 := hm
    rw [playSong_eq, playSongStart_video _ songData _ videoId hv hne, hm2]
    obtain ⟨_, _, f3, _⟩ := playback_fields _ _ (playback_setMetadata _ _ _ hm)
    obtain ⟨p, hp, hpr⟩ := hready
    have hy : s8.youtubePlayer = some p := by rw [f3]; exact hp
    simp only [hy, hpr, hthrow]
    rfl

/-- Witness of C15: the video song on a page without a video player (the
readiness wait ends with no player) falls back to audio; on the ready player
it is loaded without fallback. -/
theorem playSong_video_fallback_witness :
    (∃ s7, (s7 = awaitPlayer Outcome.allFail (playSongTeardown demoVideoSong State.init) ∨
        setMetadata demoVideoSong
          (awaitPlayer Outcome.allFail (playSongTeardown demoVideoSong State.init)) = some s7) ∧
      playSong Outcome.allFail demoVideoSong State.init =
        (playAudioFallback Outcome.allFail demoVideoSong s7).2) ∧
    (∃ s8, setMetadata demoVideoSong
        (awaitPlayer Outcome.videoSilent (playSongTeardown demoVideoSong demoReadyState))
        = some s8 ∧
      playSong { Outcome.videoSilent with ytPlaybackStarted := true } demoVideoSong
        demoReadyState =
        { s8 with log := s8.log ++ [Cmd.ytLoadVideoById "vid"], isPlaying := true }) :=
  ⟨(playSong_video_fallback Outcome.allFail demoVideoSong State.init "vid" rfl
      (by decide)).1
      (Or.inl fun ⟨p, hp, _⟩ =>
        Option.noConfusion (show (none : Option YTPlayer) = some p from hp)),
   ⟨_, rfl, (playSong_video_fallback Outcome.videoSilent demoVideoSong demoReadyState "vid"
      rfl (by decide)).2 ⟨_, rfl, rfl⟩ rfl _ rfl true⟩⟩

/-- C16 (the code at a failing input): for the song `{ title: "X" }`, on a
page with a media session and with every format loading and playing,
`playAudioFallback` sets the mp3 source and plays it, then `setMetadata`
raises inside the `try` block (`getAlbumImageUrl` of an absent album), the
`catch` treats the format as failed, and the loop goes on to ogg and m4a in
the same way: the call returns `false` with the source left at the m4a URL. -/
theorem playAudioFallback_after_metadata_error :
    setMetadata adHocSong (initPlayer State.init) = none ∧
    (playAudioFallback Outcome.allGood adHocSong (initPlayer State.init)).1 = false ∧
    (playAudioFallback Outcome.allGood adHocSong (initPlayer State.init)).2.log =
      [Cmd.audioSetSrc (audioUrl "X" "mp3"), Cmd.audioPlay,
       Cmd.audioSetSrc (audioUrl "X" "ogg"), Cmd.audioPlay,
       Cmd.audioSetSrc (audioUrl "X" "m4a"), Cmd.audioPlay] ∧
    (playAudioFallback Outcome.allGood adHocSong (initPlayer State.init)).2.audioElement =
      some { src := audioUrl "X" "m4a", currentTime := 0 } := by
  refine ⟨rfl, rfl, rfl, rfl⟩

/-- C17: `togglePlayPause` returns the state unchanged when there is no
current song; in every state it leaves the current song, the queue and the
history (and the playing flag) as they are; and when a current song and the
audio element exist, which is so in every reachable state with a current
song, the result is the old state with exactly one command logged: a pause
(of the video player or the audio element) if the playing flag is true, a
play if it is false. -/
theorem togglePlayPause_frame (music : List Artist) (s : State) :
    (s.currentSong = none → togglePlayPause s = s) ∧
    (togglePlayPause s).currentSong = s.currentSong ∧
    (togglePlayPause s).queue = s.queue ∧
    (togglePlayPause s).recentlyPlayed = s.recentlyPlayed ∧
    (togglePlayPause s).isPlaying = s.isPlaying ∧
    (s.currentSong ≠ none → s.audioElement.isSome = true →
      ∃ c, togglePlayPause s = { s with log := s.log ++ [c] } ∧
        (s.isPlaying = true → c = Cmd.ytPauseVideo ∨ c = Cmd.audioPause) ∧
        (s.isPlaying = false → c = Cmd.ytPlayVideo ∨ c = Cmd.audioPlay)) ∧
    (Reachable music s → s.currentSong ≠ none → s.audioElement.isSome = true) := by
  have hframe : (togglePlayPause s).currentSong = s.currentSong ∧
      (togglePlayPause s).queue = s.queue ∧
      (togglePlayPause s).recentlyPlayed = s.recentlyPlayed ∧
      (togglePlayPause s).isPlaying = s.isPlaying := by
    rcases togglePlayPause_cases s with h | ⟨c, h, _⟩ <;> rw [h] <;> exact ⟨rfl, rfl, rfl, rfl⟩
  refine ⟨?_, hframe.1, hframe.2.1, hframe.2.2.1, hframe.2.2.2, ?_, reachable_audio music s⟩
  · intro hc
    unfold togglePlayPause
    rw [hc]
  · intro hc ha
    obtain ⟨cur, hcs⟩ := Option.ne_none_iff_exists'.mp hc
    obtain ⟨a, has⟩ := Option.isSome_iff_exists.mp ha
    by_cases hp : s.isPlaying = true
    · have hnf : ¬ s.isPlaying = false := by rw [hp]; decide
      by_cases hy : ytPlayerState s = some 1
      · refine ⟨Cmd.ytPauseVideo, ?_, fun _ => Or.inl rfl, fun h => absurd h hnf⟩
        unfold togglePlayPause
        simp only [hcs, hp, hy, if_true]
      · refine ⟨Cmd.audioPause, ?_, fun _ => Or.inr rfl, fun h => absurd h hnf⟩
        unfold togglePlayPause
        simp only [hcs, hp, hy, has, if_true, if_false]
    · have hpf : s.isPlaying = false := by
        cases h : s.isPlaying
        · rfl
        · exact absurd h hp
      by_cases hy : (ytPlayerState s).isSome ∧ ytPlayerState s ≠ some 1
      · refine ⟨Cmd.ytPlayVideo, ?_, fun h => absurd h hp, fun _ => Or.inl rfl⟩
        unfold togglePlayPause
        simp only [hcs, hpf, if_pos hy]
        simp
      · refine ⟨Cmd.audioPlay, ?_, fun h => absurd h hp, fun _ => Or.inr rfl⟩
        unfold togglePlayPause
        simp only [hcs, hpf, if_neg hy, has]
        simp

/-- Witness of C17: song A was played from the initial variables and the
playing flag is false (audio path, no `play` event yet): one audio play. -/
theorem togglePlayPause_frame_witness :
    ∃ c, togglePlayPause (playSong Outcome.allGood demoSongA State.init) =
        { playSong Outcome.allGood demoSongA State.init with
          log := (playSong Outcome.allGood demoSongA State.init).log ++ [c] } ∧
      ((playSong Outcome.allGood demoSongA State.init).isPlaying = true →
        c = Cmd.ytPauseVideo ∨ c = Cmd.audioPause) ∧
      ((playSong Outcome.allGood demoSongA State.init).isPlaying = false →
        c = Cmd.ytPlayVideo ∨ c = Cmd.audioPlay) :=
  have h := togglePlayPause_frame demoMusic (playSong Outcome.allGood demoSongA State.init)
  h.2.2.2.2.2.1 (by decide)
    (h.2.2.2.2.2.2 (Reachable.playSong _ _ _ (Reachable.init true)) (by decide))

/-- C18 as stated fails twice: for the song `{ title: "X" }`, which has no
album, no artwork and no albumArt, `setMetadata` raises on a page with a
media session (no descriptor is built and protection is not started); and on
a page without a media session `setMetadata` returns at once for every song,
so that afterwards no descriptor is held and protection is not active. -/
theorem setMetadata_counterexample :
    State.init.hasMediaSession = true ∧
    setMetadata adHocSong State.init = none ∧
    (∃ t, setMetadata demoSongA { State.init with hasMediaSession := false } = some t ∧
      t.currentMetadata = none ∧ t.metadataProtectionActive = false) :=
  ⟨rfl, rfl, _, rfl, rfl, rfl⟩

/-- C18 (amended): for every song that has a non-empty artwork, or a
non-empty albumArt, or an album field (possibly empty): on a page without a
media session `setMetadata` returns without any effect; on a page with one
it succeeds, and the descriptor it stores (and writes to the session at once)
is a function of the song alone: title, artist and album are the song's
fields when present and non-empty and else 'Unknown Song', 'Unknown Artist',
'Unknown Album'; the artwork has exactly the six entries 96, 128, 192, 256,
384 and 512 square, all of type image/jpeg and all with one source, which is
the artwork if non-empty, else the albumArt if non-empty, else the album
image URL; and after the call protection is active with its interval
registered. -/
theorem setMetadata_descriptor (songData : Song) (s : State)
    (hsrc : truthy songData.artwork = true ∨ truthy songData.albumArt = true ∨
      songData.album ≠ none) :
    (s.hasMediaSession = false → setMetadata songData s = some s) ∧
    (s.hasMediaSession = true →
      ∃ (t : State) (m : Metadata) (src : String),
        setMetadata songData s = some t ∧ buildMetadata songData = some m ∧
        t.currentMetadata = some m ∧ t.sessionMetadata = some m ∧
        m.title = orDefault songData.title "Unknown Song" ∧
        m.artist = orDefault songData.artist "Unknown Artist" ∧
        m.album = orDefault songData.album "Unknown Album" ∧
        m.artwork =
          [{ src := src, sizes := "96x96", type := "image/jpeg" },
           { src := src, sizes := "128x128", type := "image/jpeg" },
           { src := src, sizes := "192x192", type := "image/jpeg" },
           { src := src, sizes := "256x256", type := "image/jpeg" },
           { src := src, sizes := "384x384", type := "image/jpeg" },
           { src := src, sizes := "512x512", type := "image/jpeg" }] ∧
        (truthy songData.artwork = true → songData.artwork = some src) ∧
        (truthy songData.artwork = false → truthy songData.albumArt = true →
          songData.albumArt = some src) ∧
        (truthy songData.artwork = false → truthy songData.albumArt = false →
          ∃ al, songData.album = some al ∧ src = getAlbumImageUrl al) ∧
        t.metadataProtectionActive = true ∧
        t.protectionInterval = some s.nextTimerId) ∧
    (∀ v d : String, v ≠ "" → orDefault (some v) d = v) ∧
    (∀ d : String, orDefault none d = d ∧ orDefault (some "") d = d) := by
  refine ⟨setMetadata_no_session songData s, ?_, ?_, ?_⟩
  · intro hms
    have hex : ∃ src, artworkSrc songData = some src ∧
        (truthy songData.artwork = true → songData.artwork = some src) ∧
        (truthy songData.artwork = false → truthy songData.albumArt = true →
          songData.albumArt = some src) ∧
        (truthy songData.artwork = false → truthy songData.albumArt = false →
          ∃ al, songData.album = some al ∧ src = getAlbumImageUrl al) := by
      unfold artworkSrc
      by_cases h1 : truthy songData.artwork = true
      · obtain ⟨v, ha⟩ : ∃ v, songData.artwork = some v := by
          cases ha : songData.artwork with
          | none => rw [ha] at h1; cases h1
          | some v => exact ⟨v, rfl⟩
        refine ⟨v, by rw [if_pos h1]; exact ha, fun _ => ha, ?_, ?_⟩
        · intro hf
          rw [h1] at hf
          cases hf
        · intro hf
          rw [h1] at hf
          cases hf
      · have h1f : truthy songData.artwork = false := by
          cases h : truthy songData.artwork
          · rfl
          · exact absurd h h1
        by_cases h2 : truthy songData.albumArt = true
        · obtain ⟨v, ha⟩ : ∃ v, songData.albumArt = some v := by
            cases ha : songData.albumArt with
            | none => rw [ha] at h2; cases h2
            | some v => exact ⟨v, rfl⟩
          refine ⟨v, by rw [if_neg h1, if_pos h2]; exact ha, ?_, fun _ _ => ha, ?_⟩
          · intro ht
            exact absurd ht h1
          · intro _ hf
            rw [h2] at hf
            cases hf
        · obtain ⟨al, ha⟩ : ∃ al, songData.album = some al := by
            rcases hsrc with h | h | h
            · exact absurd h h1
            · exact absurd h h2
            · exact Option.ne_none_iff_exists'.mp h
          refine ⟨getAlbumImageUrl al, by rw [if_neg h1, if_neg h2, ha]; rfl, ?_, ?_,
            fun _ _ => ⟨al, ha, rfl⟩⟩
          · intro ht
            exact absurd ht h1
          · intro _ ht
            exact absurd ht h2
    obtain ⟨src, hs, c1, c2, c3⟩ := hex
    have hb : buildMetadata songData = some
        { title := orDefault songData.title "Unknown Song"
          artist := orDefault songData.artist "Unknown Artist"
          album := orDefault songData.album "Unknown Album"
          artwork := ["96x96", "128x128", "192x192", "256x256", "384x384", "512x512"].map
            fun sz => { src := src, sizes := sz, type := "image/jpeg" } } := by
      unfold buildMetadata
      rw [hs]
      rfl
    obtain ⟨t, ht, g1, g2, g3, _, _, g6⟩ := setMetadata_fields songData s _ hms hb
    exact ⟨t, _, src, ht, hb, g1, g2, rfl, rfl, rfl, rfl, c1, c2, c3, g3, g6⟩
  · intro v d hv
    unfold orDefault
    simp [hv]
  · intro d
    exact ⟨rfl, rfl⟩

/-- Witness of C18: song A of the example album (album "Album", no artwork)
on the initial page, with and without a media session. -/
theorem setMetadata_descriptor_witness :
    setMetadata demoSongA { State.init with hasMediaSession := false } =
      some { State.init with hasMediaSession := false } ∧
    (∃ (t : State) (m : Metadata),
      setMetadata demoSongA State.init = some t ∧ buildMetadata demoSongA = some m ∧
      t.currentMetadata = some m ∧ m.title = "A" ∧ m.artist = "Artist" ∧
      m.album = "Album" ∧ m.artwork.length = 6 ∧ t.metadataProtectionActive = true) := by
  have h0 := (setMetadata_descriptor demoSongA { State.init with hasMediaSession := false }
    (Or.inr (Or.inr (by decide)))).1 rfl
  obtain ⟨t, m, src, h1, h2, h3, _, h5, h6, h7, h8, _, _, _, h12, _⟩ :=
    (setMetadata_descriptor demoSongA State.init (Or.inr (Or.inr (by decide)))).2.1 rfl
  refine ⟨h0, t, m, h1, h2, h3, ?_, ?_, ?_, ?_, h12⟩
  · rw [h5]; rfl
  · rw [h6]; rfl
  · rw [h7]; rfl
  · rw [h8]; rfl

/-- C19 as stated fails after a failed load: song A of the example album is
played from the initial page (its descriptor is stored), then `playSong` of
song B fails on every audio format; the state is reachable, the current song
is B, and the stored descriptor is still the one of A. -/
theorem descriptor_counterexample :
    Reachable demoMusic demoStaleState ∧
    demoStaleState.currentSong = some demoSongB ∧
    demoSongB.title = some "B" ∧
    (∃ m, demoStaleState.currentMetadata = some m ∧ m.title = "A" ∧
      buildMetadata demoSongA = some m) ∧
    demoStaleState.metadataProtectionActive = false :=
  ⟨Reachable.playSong _ _ _ (Reachable.playSong _ _ _ (Reachable.init true)),
    rfl, rfl, ⟨_, rfl, rfl, rfl⟩, rfl⟩

/-- C19 (amended): in every state reachable through `playSong` (successful
or failed), `nextTrack`, `previousTrack`, `handleSongEnd`, `stopPlayback`
(and `togglePlayPause`), if metadata protection is active then a current song
exists and the stored descriptor is the one built from it: its title, artist
and album are the fields of the current song, or the 'Unknown ...' defaults
for missing or empty fields. `stopPlayback` switches protection off and
leaves the stored descriptor as it is. -/
theorem descriptor_matches_current_song (music : List Artist) (s : State)
    (h : Reachable music s) :
    (s.metadataProtectionActive = true →
      ∃ c m, s.currentSong = some c ∧ s.currentMetadata = some m ∧
        buildMetadata c = some m ∧
        m.title = orDefault c.title "Unknown Song" ∧
        m.artist = orDefault c.artist "Unknown Artist" ∧
        m.album = orDefault c.album "Unknown Album") ∧
    (stopPlayback s).metadataProtectionActive = false ∧
    (stopPlayback s).currentMetadata = s.currentMetadata := by
  refine ⟨?_, (inactive_stopPlayback s).1, (inactive_stopPlayback s).2⟩
  intro hact
  obtain ⟨c, hc, hm, hsome⟩ := reachable_descriptorInv music s h hact
  obtain ⟨m, hb⟩ := Option.isSome_iff_exists.mp hsome
  obtain ⟨n1, n2, n3⟩ := buildMetadata_names c m hb
  exact ⟨c, m, hc, by rw [hm, hb], hb, n1, n2, n3⟩

/-- Witness of C19: the state after `playSong` of the example song A. -/
theorem descriptor_matches_current_song_witness :
    ∃ c m, (playSong Outcome.allGood demoSongA State.init).currentSong = some c ∧
      (playSong Outcome.allGood demoSongA State.init).currentMetadata = some m ∧
      buildMetadata c = some m ∧
      m.title = orDefault c.title "Unknown Song" ∧
      m.artist = orDefault c.artist "Unknown Artist" ∧
      m.album = orDefault c.album "Unknown Album" :=
  (descriptor_matches_current_song demoMusic (playSong Outcome.allGood demoSongA State.init)
    (Reachable.playSong _ _ _ (Reachable.init true))).1 rfl

/-- C20 as stated fails when the counter stands at 5: after `setMetadata` of
the example song A, five overwrites each followed by a check, and a sixth
overwrite, protection is active, the session holds the foreign descriptor and
the counter is 5; the check restores the descriptor of A, but the counter
afterwards is 0, not 6. -/
theorem enforceMetadata_counterexample :
    setMetadata demoSongA State.init = some demoProtectedState ∧
    demoHijackedState.metadataProtectionActive = true ∧
    demoHijackedState.currentMetadata = buildMetadata demoSongA ∧
    demoHijackedState.sessionMetadata = some foreignMetadata ∧
    (∃ m, buildMetadata demoSongA = some m ∧ foreignMetadata.title ≠ m.title) ∧
    demoHijackedState.hijackAttempts = 5 ∧
    (enforceMetadata demoHijackedState).sessionMetadata = buildMetadata demoSongA ∧
    (enforceMetadata demoHijackedState).hijackAttempts = 0 ∧
    (enforceMetadata demoHijackedState).hijackAttempts ≠
      demoHijackedState.hijackAttempts + 1 := by
  refine ⟨rfl, rfl, rfl, rfl, ⟨_, rfl, by decide⟩, rfl, rfl, rfl, by decide⟩

/-- C20 (amended): for every song X whose descriptor `m` can be built and
every state with a media session in which `m` is the intended descriptor and
protection is active (as `setMetadata(X)` leaves it): if the session holds a
descriptor `y` that differs from `m` in title, artist or album, then one
protection check writes `m` back, so that title, artist and album are X's
values (or the 'Unknown ...' defaults) again; the hijack counter afterwards is
exactly one more than before when it was below 5, and it is 0, with the
escalation interval registered, when it was 5 or more. -/
theorem enforceMetadata_restores (x : Song) (s : State) (m y : Metadata)
    (hms : s.hasMediaSession = true) (hx : buildMetadata x = some m)
    (hm : s.currentMetadata = some m) (hact : s.metadataProtectionActive = true)
    (hy : s.sessionMetadata = some y)
    (hdiff : y.title ≠ m.title ∨ y.artist ≠ m.artist ∨ y.album ≠ m.album) :
    protectionTick s = enforceMetadata s ∧
    (enforceMetadata s).sessionMetadata = some m ∧
    m.title = orDefault x.title "Unknown Song" ∧
    m.artist = orDefault x.artist "Unknown Artist" ∧
    m.album = orDefault x.album "Unknown Album" ∧
    (s.hijackAttempts < 5 → (enforceMetadata s).hijackAttempts = s.hijackAttempts + 1) ∧
    (5 ≤ s.hijackAttempts → (enforceMetadata s).hijackAttempts = 0 ∧
      (enforceMetadata s).intervals = s.intervals ++ [s.nextTimerId]) ∧
    (∀ s0 : State, s0.hasMediaSession = true →
      ∃ t, setMetadata x s0 = some t ∧ t.currentMetadata = some m ∧
        t.metadataProtectionActive = true ∧ t.hasMediaSession = true) := by
  have hh : isHijacked m s.sessionMetadata = true := by
    rw [hy]
    unfold isHijacked
    simp only [Bool.or_eq_true, bne_iff_ne, ne_eq]
    rcases hdiff with h | h | h
    · exact Or.inl (Or.inl h)
    · exact Or.inl (Or.inr h)
    · exact Or.inr h
  have he := enforceMetadata_hijacked s m hms hm hh
  obtain ⟨n1, n2, n3⟩ := buildMetadata_names x m hx
  refine ⟨?_, ?_, n1, n2, n3, ?_, ?_, ?_⟩
  · unfold protectionTick
    rw [if_pos ⟨by rw [hm]; rfl, hact⟩]
  · rw [he]
    split <;> rfl
  · intro hlt
    rw [he, if_neg (by omega)]
  · intro hge
    rw [he, if_pos (by omega)]
    exact ⟨rfl, rfl⟩
  · intro s0 h0
    obtain ⟨t, ht, g1, _, g3, g4, _, _⟩ := setMetadata_fields x s0 m h0 hx
    exact ⟨t, ht, g1, g3, g4⟩

/-- Witness of C20: the first overwrite after `setMetadata` of the example
song A; the counter goes from 0 to 1. -/
theorem enforceMetadata_restores_witness :
    (enforceMetadata (hijack foreignMetadata demoProtectedState)).sessionMetadata =
      demoProtectedState.currentMetadata ∧
    (enforceMetadata (hijack foreignMetadata demoProtectedState)).hijackAttempts = 0 + 1 := by
  obtain ⟨m, hb⟩ : ∃ m, buildMetadata demoSongA = some m := ⟨_, rfl⟩
  have h := enforceMetadata_restores demoSongA (hijack foreignMetadata demoProtectedState)
    m foreignMetadata rfl hb (by rw [← hb]; rfl) rfl rfl
    (Or.inl (by
      have e : m.title = "A" := by
        have := (buildMetadata_names demoSongA m hb).1
        rw [this]; rfl
      rw [e]; decide))
  refine ⟨?_, h.2.2.2.2.2.1 (by decide)⟩
  rw [h.2.1, ← hb]
  rfl

/-- C21: on a protected state (media session, intended descriptor `m`,
protection active) whose hijack counter is 0, take five checks that each find
a missing or foreign descriptor on the session, then a sixth such check. After
the first `k` of them (1 ≤ k ≤ 5) the intended descriptor is back on the
session, the counter is `k` and nothing else has changed (no interval is
registered); the sixth check registers the escalation interval and leaves the
counter at 0. A check that finds the intended title, artist and album sets the
counter to 0 and changes nothing else. Whatever the checks find, the counter
after any run of checks is at most 5. -/
theorem hijack_counter_cycle (s : State) (m : Metadata) (ys : List (Option Metadata))
    (y6 : Option Metadata)
    (hms : s.hasMediaSession = true) (hm : s.currentMetadata = some m)
    (hact : s.metadataProtectionActive = true) (h0 : s.hijackAttempts = 0)
    (hlen : ys.length = 5) (hmis : ∀ y ∈ ys, isHijacked m y = true)
    (h6 : isHijacked m y6 = true) :
    (∀ k, 1 ≤ k → k ≤ 5 →
      checkRun (ys.take k) s = { s with hijackAttempts := k, sessionMetadata := some m }) ∧
    checkRun (ys ++ [y6]) s =
      { s with hijackAttempts := 0, sessionMetadata := some m,
               intervals := s.intervals ++ [s.nextTimerId],
               nextTimerId := s.nextTimerId + 1 } ∧
    (∀ c v, isHijacked m v = false →
      protectionTick { s with sessionMetadata := v, hijackAttempts := c } =
        { s with sessionMetadata := v, hijackAttempts := 0 }) ∧
    (∀ zs, (checkRun zs s).hijackAttempts ≤ 5) := by
  have hrun : ∀ k, 1 ≤ k → k ≤ 5 →
      checkRun (ys.take k) s = { s with hijackAttempts := k, sessionMetadata := some m } := by
    intro k h1 h5
    have hl : (ys.take k).length = k := by
      rw [List.length_take, hlen]; omega
    have hne : ys.take k ≠ [] := by
      intro he
      rw [he] at hl
      simp only [List.length_nil] at hl
      omega
    rw [checkRun_mismatch (ys.take k) s m hms hm hact
      (fun y hy => hmis y (List.mem_of_mem_take hy)) (by rw [hl, h0]; omega)]
    rw [hl, h0, if_neg hne, Nat.zero_add]
  refine ⟨hrun, ?_, ?_, ?_⟩
  · have h5 := hrun 5 (by omega) (by omega)
    rw [List.take_of_length_le (by omega)] at h5
    have happ : checkRun (ys ++ [y6]) s =
        protectionTick { checkRun ys s with sessionMetadata := y6 } := by
      unfold checkRun
      rw [List.foldl_append]
      rfl
    rw [happ, h5]
    have ht := protectionTick_write
      { s with hijackAttempts := 5, sessionMetadata := some m } m y6 hms hm hact
    rw [if_pos h6, if_pos (by show 5 + 1 > 5; omega)] at ht
    exact ht
  · intro c v hv
    have ht := protectionTick_write { s with hijackAttempts := c } m v hms hm hact
    rw [if_neg (by rw [hv]; decide)] at ht
    exact ht
  · intro zs
    exact checkRun_bound zs s (by rw [h0]; omega)

/-- Witness of C21: after `setMetadata` of the example song A, five foreign
descriptors and then a cleared session. -/
theorem hijack_counter_cycle_witness :
    (checkRun (List.replicate 5 (some foreignMetadata)) demoProtectedState).hijackAttempts = 5 ∧
    (checkRun (List.replicate 5 (some foreignMetadata) ++ [none])
      demoProtectedState).hijackAttempts = 0 := by
  have h := hijack_counter_cycle demoProtectedState demoDescriptorA
    (List.replicate 5 (some foreignMetadata)) none rfl rfl rfl rfl rfl
    (fun y hy => by rw [List.eq_of_mem_replicate hy]; decide) rfl
  constructor
  · have h5 := h.1 5 (by decide) (by decide)
    rw [List.take_of_length_le (by decide)] at h5
    rw [h5]
  · rw [h.2.1]

/-- C22: once the setter of `navigator.mediaSession.metadata` is intercepted,
a write while protection is active and an intended descriptor `m` exists
stores `m` for every non-null value written and stores null for null; a write
while protection is inactive or no intended descriptor exists stores the value
written; in each case nothing but the stored value changes, and the getter
returns the value stored last. -/
theorem intercepted_setter (s : State) (hi : s.setterIntercepted = true) :
    (∀ m w, s.metadataProtectionActive = true → s.currentMetadata = some m →
      setSessionMetadata (some w) s = { s with sessionMetadata := some m } ∧
      getSessionMetadata (setSessionMetadata (some w) s) = some m) ∧
    (∀ m, s.metadataProtectionActive = true → s.currentMetadata = some m →
      setSessionMetadata none s = { s with sessionMetadata := none } ∧
      getSessionMetadata (setSessionMetadata none s) = none) ∧
    (∀ v, s.metadataProtectionActive = false ∨ s.currentMetadata = none →
      setSessionMetadata v s = { s with sessionMetadata := v } ∧
      getSessionMetadata (setSessionMetadata v s) = v) := by
  refine ⟨?_, ?_, ?_⟩
  · intro m w hact hm
    have hn := newMediaMetadata_intended s m hm
    have e : setSessionMetadata (some w) s = { s with sessionMetadata := some m } := by
      simp [setSessionMetadata, hi, hact, hm, hn]
    exact ⟨e, by rw [e]; rfl⟩
  · intro m _ _
    exact ⟨setSessionMetadata_none s, by rw [setSessionMetadata_none]; rfl⟩
  · intro v h
    have e : setSessionMetadata v s = { s with sessionMetadata := v } := by
      rcases h with h | h
      · simp [setSessionMetadata, hi, h]
      · cases hact : s.metadataProtectionActive <;> simp [setSessionMetadata, hi, hact, h]
    exact ⟨e, by rw [e]; rfl⟩

/-- Witness of C22: a foreign descriptor written through the intercepted
setter after `setMetadata` of the example song A. -/
theorem intercepted_setter_witness :
    demoProtectedState.setterIntercepted = true ∧
    getSessionMetadata (setSessionMetadata (some foreignMetadata) demoProtectedState) =
      some demoDescriptorA :=
  ⟨rfl, ((intercepted_setter demoProtectedState rfl).1 demoDescriptorA foreignMetadata
    rfl rfl).2⟩

/-- C23 fails where the claim says "also when protection for a new song is
started before the burst's one-second limit has passed". The video song A
plays under protection (interval 1); six checks find the session metadata
cleared, and the sixth registers the burst interval 2. `stopProtection` clears
interval 1 and switches protection off but leaves interval 2 registered; a
burst callback that ran now would clear it without writing. `playSong` of the
video song B instead switches protection on again in the same task
(`stopProtection`, then `setMetadata` with no `await` between them, the player
being there): the burst of song A is still registered next to the new
protection interval 3, and after the session is cleared once more its next
callback writes the descriptor of B. -/
theorem burst_survives_restart :
    demoBurstState.protectionInterval = some 1 ∧
    demoBurstState.intervals = [1, 2] ∧
    demoBurstState.metadataProtectionActive = true ∧
    (stopProtection demoBurstState).metadataProtectionActive = false ∧
    (stopProtection demoBurstState).protectionInterval = none ∧
    (stopProtection demoBurstState).intervals = [2] ∧
    (burstTick 2 (setSessionMetadata none (stopProtection demoBurstState))).sessionMetadata =
      none ∧
    (burstTick 2 (setSessionMetadata none (stopProtection demoBurstState))).intervals = [] ∧
    demoRestartState.metadataProtectionActive = true ∧
    demoRestartState.protectionInterval = some 3 ∧
    demoRestartState.intervals = [2, 3] ∧
    demoRestartState.currentMetadata = buildMetadata demoVideoSongB ∧
    (buildMetadata demoVideoSongB).isSome = true ∧
    (setSessionMetadata none demoRestartState).sessionMetadata = none ∧
    (burstTick 2 (setSessionMetadata none demoRestartState)).sessionMetadata =
      buildMetadata demoVideoSongB := by
  refine ⟨rfl, rfl, rfl, rfl, rfl, rfl, rfl, rfl, rfl, rfl, rfl, rfl, rfl, rfl, rfl⟩

/-- C24: `addToQueue(s)` puts the song last and `addToQueue(s, 0)` puts it
first, the other entries staying as they are and in their order (nothing but
the queue changes); `playFromQueue(i)` with `0 ≤ i < length` takes exactly
entry `i` out of the queue and makes it the current song, and for any other
integer `i` it changes nothing; and on a queue of `n` entries, `n` successive
`nextTrack` calls all return normally, call `k + 1` makes entry `k` the current
song and leaves the entries after it queued, so that the queue is empty after
the last call. -/
theorem queue_order (music : List Artist) (o : Outcome) (s : State) (song : Song) :
    addToQueue song none s = { s with queue := s.queue ++ [song] } ∧
    addToQueue song (some 0) s = { s with queue := song :: s.queue } ∧
    (∀ i : Nat, i < s.queue.length →
      (playFromQueue o (i : Int) s).queue = s.queue.take i ++ s.queue.drop (i + 1) ∧
      (playFromQueue o (i : Int) s).currentSong = s.queue[i]?) ∧
    (∀ i : Int, ¬ (0 ≤ i ∧ i < s.queue.length) → playFromQueue o i s = s) ∧
    (∀ os : List Outcome, os.length = s.queue.length →
      (∀ k, k < s.queue.length →
        ∃ t, nextTracks music (os.take (k + 1)) s = some t ∧
          t.currentSong = s.queue[k]? ∧ t.queue = s.queue.drop (k + 1)) ∧
      ∃ t, nextTracks music os s = some t ∧ t.queue = []) := by
  refine ⟨rfl, ?_, ?_, ?_, ?_⟩
  · show { s with queue := spliceInsert s.queue 0 song } = _
    have e : spliceInsert s.queue 0 song = song :: s.queue := by
      unfold spliceInsert
      simp
    rw [e]
  · intro i hi
    have hg : (0 : Int) ≤ (i : Int) ∧ (i : Int) < (s.queue.length : Int) :=
      ⟨Int.ofNat_nonneg i, Int.ofNat_lt.mpr hi⟩
    have he : elemAt s.queue (i : Int) = some (s.queue.get ⟨i, hi⟩) := by
      rw [elemAt_natCast]
      exact List.getElem?_eq_getElem hi
    have hp : playFromQueue o (i : Int) s =
        playSong o (s.queue.get ⟨i, hi⟩)
          { s with queue := s.queue.take i ++ s.queue.drop (i + 1) } := by
      unfold playFromQueue
      rw [if_pos hg]
      simp only [he, Int.toNat_ofNat]
    rw [hp, queue_playSong, currentSong_playSong]
    exact ⟨rfl, (List.getElem?_eq_getElem hi).symm⟩
  · intro i hi
    unfold playFromQueue
    rw [if_neg hi]
  · intro os hlen
    constructor
    · intro k hk
      have hl : (os.take (k + 1)).length = k + 1 := by
        rw [List.length_take, hlen]; omega
      obtain ⟨t, ht, htq, htc⟩ := nextTracks_queue music (os.take (k + 1)) s (by rw [hl]; omega)
      have hne : os.take (k + 1) ≠ [] := by
        intro he
        rw [he] at hl
        simp only [List.length_nil] at hl
        omega
      refine ⟨t, ht, ?_, ?_⟩
      · rw [htc hne, hl, Nat.add_sub_cancel]
      · rw [htq, hl]
    · obtain ⟨t, ht, htq, _⟩ := nextTracks_queue music os s (by rw [hlen])
      refine ⟨t, ht, ?_⟩
      rw [htq, hlen]
      exact List.drop_length s.queue

/-- Witness of C24: the queue `[B, C]` on the initial page; the second entry
is played from the queue, and two `nextTrack` calls play B, then C. -/
theorem queue_order_witness :
    (playFromQueue Outcome.allGood 1 demoQueueState).queue = [songB] ∧
    (playFromQueue Outcome.allGood 1 demoQueueState).currentSong = some songC ∧
    playFromQueue Outcome.allGood 2 demoQueueState = demoQueueState ∧
    (∃ t, nextTracks demoMusic [Outcome.allGood] demoQueueState = some t ∧
      t.currentSong = some songB ∧ t.queue = [songC]) ∧
    (∃ t, nextTracks demoMusic [Outcome.allGood, Outcome.allGood] demoQueueState = some t ∧
      t.currentSong = some songC ∧ t.queue = []) := by
  have h := queue_order demoMusic Outcome.allGood demoQueueState songA
  have h1 := h.2.2.1 1 (by decide)
  have h3 := h.2.2.2.2 [Outcome.allGood, Outcome.allGood] rfl
  exact ⟨h1.1, h1.2, h.2.2.2.1 2 (by decide), h3.1 0 (by decide), h3.1 1 (by decide)⟩

/-- C27: for every state whose `currentArtist`/`currentAlbum` resolve to an
album of K ≥ 1 songs and every current song, whether or not its title occurs
in the album: the index computed by `nextTrack` and `handleSongEnd` (repeat
`all`) and the index computed by `previousTrack` lie in [0, K), so each names a
song `yn`, `yp` of the album; `nextTrack` (empty queue), `handleSongEnd` (empty
queue, repeat `all`, shuffle off) and `previousTrack` (empty history, at most
3 s elapsed) return normally and make that song, with artist, album and cover
from the catalog, the current song. When no song of the album has the current
title, the lookup gives -1, `nextTrack` and `handleSongEnd` use index 0 and
`previousTrack` uses index K - 2, or index 0 when K = 1. -/
theorem album_index_valid (music : List Artist) (o : Outcome) (r : ℚ) (s : State)
    (artist : Artist) (album : Album) (cur : Song)
    (hfa : findAlbum music s = some (artist, album)) (hK : 1 ≤ album.songs.length)
    (hcur : s.currentSong = some cur) :
    ∃ yn yp,
      elemAt album.songs (nextIndexOf album cur) = some yn ∧
      elemAt album.songs (prevIndexOf album cur) = some yp ∧
      0 ≤ nextIndexOf album cur ∧ nextIndexOf album cur < album.songs.length ∧
      0 ≤ prevIndexOf album cur ∧ prevIndexOf album cur < album.songs.length ∧
      (s.queue = [] → ∃ t, nextTrack music o s = some t ∧
        t.currentSong = some { yn with artist := some artist.artist,
                                       album := some album.album,
                                       cover := some (getAlbumImageUrl album.album) }) ∧
      (s.queue = [] → s.repeatMode = RepeatMode.all → s.shuffleMode = false →
        ∃ t, handleSongEnd music o r s = some t ∧
          t.currentSong = some { yn with artist := some artist.artist,
                                         album := some album.album,
                                         cover := some (getAlbumImageUrl album.album) }) ∧
      (s.recentlyPlayed = [] → readCurrentTime s ≤ 3 →
        ∃ t, previousTrack music o s = some t ∧
          t.currentSong = some { yp with artist := some artist.artist,
                                         album := some album.album,
                                         cover := some (getAlbumImageUrl album.album) }) ∧
      ((∀ x ∈ album.songs, x.title ≠ cur.title) →
        titleIndex album cur = -1 ∧ nextIndexOf album cur = 0 ∧
        prevIndexOf album cur = (if album.songs.length = 1 then 0
          else (album.songs.length : Int) - 2)) := by
  have hpos : 0 < album.songs.length := hK
  have hposZ : (0 : Int) < (album.songs.length : Int) := Int.ofNat_lt.mpr hpos
  obtain ⟨h1, h2⟩ := findIndex_range (fun x => x.title == cur.title) album.songs
  obtain ⟨n1, n2⟩ := jsRem_next_range _ (album.songs.length : Int) h1 hposZ
  obtain ⟨p1, p2⟩ := jsRem_prev_range _ (album.songs.length : Int) h1 hposZ
  obtain ⟨yn, hyn⟩ := elemAt_of_range album.songs _ n1 n2
  obtain ⟨yp, hyp⟩ := elemAt_of_range album.songs _ p1 p2
  have hcn : catalogSong artist album (nextIndexOf album cur) =
      { yn with artist := some artist.artist, album := some album.album,
                cover := some (getAlbumImageUrl album.album) } := by
    unfold catalogSong nextIndexOf titleIndex
    rw [hyn]
    rfl
  have hcp : catalogSong artist album (prevIndexOf album cur) =
      { yp with artist := some artist.artist, album := some album.album,
                cover := some (getAlbumImageUrl album.album) } := by
    unfold catalogSong prevIndexOf titleIndex
    rw [hyp]
    rfl
  refine ⟨yn, yp, hyn, hyp, n1, n2, p1, p2, ?_, ?_, ?_, ?_⟩
  · intro hq
    refine ⟨_, nextTrack_album music o s artist album cur hq hfa hpos hcur, ?_⟩
    rw [currentSong_playSong]
    exact congrArg some hcn
  · intro hq hr hs
    refine ⟨_, handleSongEnd_album music o r s artist album cur hq hr hs hfa hpos hcur, ?_⟩
    rw [currentSong_playSong]
    exact congrArg some hcn
  · intro hh ht
    refine ⟨_, previousTrack_album music o s artist album cur ht hh hfa hpos hcur, ?_⟩
    rw [currentSong_playSong]
    exact congrArg some hcp
  · intro habs
    have hidx : titleIndex album cur = -1 := by
      unfold titleIndex
      apply findIndex_of_absent
      intro x hx
      exact beq_eq_false_iff_ne.mpr (habs x hx)
    refine ⟨hidx, ?_, ?_⟩
    · unfold nextIndexOf
      rw [hidx]
      show jsRem 0 _ = 0
      unfold jsRem
      exact Int.zero_tmod _
    · unfold prevIndexOf
      rw [hidx]
      exact jsRem_prev_absent album.songs.length hpos

/-- Witness of C27: the title "Z" is not in the example album [A, B, C];
`nextTrack` and `handleSongEnd` play A (index 0) and `previousTrack` plays B
(index K - 2 = 1). -/
theorem album_index_valid_witness :
    (∃ t, nextTrack demoMusic Outcome.allGood demoAbsentState = some t ∧
      t.currentSong = some demoSongA) ∧
    (∃ t, handleSongEnd demoMusic Outcome.allGood 0 demoAbsentState = some t ∧
      t.currentSong = some demoSongA) ∧
    (∃ t, previousTrack demoMusic Outcome.allGood demoAbsentState = some t ∧
      t.currentSong = some demoSongB) := by
  obtain ⟨yn, yp, hyn, hyp, _, _, _, _, hn, he, hp, _⟩ :=
    album_index_valid demoMusic Outcome.allGood 0 demoAbsentState
      { artist := "Artist", albums := [{ album := "Album", songs := [songA, songB, songC] }] }
      { album := "Album", songs := [songA, songB, songC] } (mkSong "Z") rfl (by decide) rfl
  have e1 : yn = songA := by
    have : elemAt [songA, songB, songC] 0 = some yn := hyn
    exact (Option.some.inj this).symm
  have e2 : yp = songB := by
    have : elemAt [songA, songB, songC] 1 = some yp := hyp
    exact (Option.some.inj this).symm
  subst e1 e2
  exact ⟨hn rfl, he rfl rfl rfl, hp rfl (by decide)⟩

/-- C26: for every state with a current song `c`, a history `h0 :: rest` of at
most 50 entries and at most 3 s elapsed, `previousTrack` returns normally,
makes `h0` the current song and leaves `c :: rest` as the history (same
length). From any state with those track variables in which the elapsed time
is again at most 3 s, a second `previousTrack` makes `c` the current song and
leaves `h0 :: rest` as the history, so the current song and the history are
those of the start; the queue is untouched, and the entries of `rest` are
never reached by repeating the call. -/
theorem previousTrack_alternates (music : List Artist) (o o2 : Outcome) (s : State)
    (c h0 : Song) (rest : List Song)
    (hc : s.currentSong = some c) (hh : s.recentlyPlayed = h0 :: rest)
    (hlen : s.recentlyPlayed.length ≤ 50) (ht : readCurrentTime s ≤ 3) :
    ∃ t, previousTrack music o s = some t ∧ t.currentSong = some h0 ∧
      t.recentlyPlayed = c :: rest ∧
      t.recentlyPlayed.length = s.recentlyPlayed.length ∧
      ∀ u : State, u.tracks = t.tracks → readCurrentTime u ≤ 3 →
        ∃ t2, previousTrack music o2 u = some t2 ∧
          t2.currentSong = s.currentSong ∧ t2.recentlyPlayed = s.recentlyPlayed ∧
          t2.queue = s.queue := by
  have hl : (h0 :: rest).length ≤ 50 := by rw [← hh]; exact hlen
  obtain ⟨t, ht1, htc, hth, htq⟩ := previousTrack_swap music o s c h0 rest hc hh hl ht
  refine ⟨t, ht1, htc, hth, ?_, ?_⟩
  · rw [hth, hh]
    rfl
  · intro u hu htu
    have huc : u.currentSong = some h0 := by
      rw [← htc]; exact congrArg Tracks.currentSong hu
    have huh : u.recentlyPlayed = c :: rest := by
      rw [← hth]; exact congrArg Tracks.recentlyPlayed hu
    have huq : u.queue = t.queue := congrArg Tracks.queue hu
    obtain ⟨t2, h2, h2c, h2h, h2q⟩ :=
      previousTrack_swap music o2 u h0 c rest huc huh (by simpa using hl) htu
    exact ⟨t2, h2, by rw [h2c, hc], by rw [h2h, hh], by rw [h2q, huq, htq]⟩

/-- Witness of C26: song B current, history [A, C]; `previousTrack` gives A
with history [B, C], and a second call gives B with history [A, C] again. -/
theorem previousTrack_alternates_witness :
    ∃ t, previousTrack demoMusic Outcome.allGood demoBackState = some t ∧
      t.currentSong = some demoSongA ∧ t.recentlyPlayed = [demoSongB, demoSongC] ∧
      ∃ t2, previousTrack demoMusic Outcome.allGood t = some t2 ∧
        t2.currentSong = some demoSongB ∧ t2.recentlyPlayed = [demoSongA, demoSongC] := by
  obtain ⟨t, h1, h2, h3, _, h5⟩ :=
    previousTrack_alternates demoMusic Outcome.allGood Outcome.allGood demoBackState
      demoSongB demoSongA [demoSongC] rfl rfl (by decide) (by decide)
  have ht : readCurrentTime t ≤ 3 := by
    have e : t = playSong Outcome.allGood demoSongA
        { stopProtection demoBackState with recentlyPlayed := [demoSongC] } := by
      have := previousTrack_of_history demoMusic Outcome.allGood demoBackState demoSongA
        [demoSongC] (by decide) rfl
      rw [this] at h1
      exact (Option.some.inj h1).symm
    rw [e]
    decide
  obtain ⟨t2, g1, g2, g3, _⟩ := h5 t rfl ht
  exact ⟨t, h1, h2, h3, t2, g1, g2, g3⟩

/-- C28: in every state reachable from the initial variables (all three null)
through `playSong`, `nextTrack`, `previousTrack`, `handleSongEnd`,
`togglePlayPause` and `stopPlayback`, `currentArtist` and `currentAlbum` are
the `artist` and `album` properties of the current song, and are null while
there is no current song. Hence, the names of the catalog being strings, an
album is resolved only when a current song exists (and that song carries the
names of the resolved artist and album), and `nextTrack`, `previousTrack` and
`handleSongEnd` return normally: none of them reads the title of a null
current song. -/
theorem names_follow_current_song (music : List Artist) (s : State)
    (h : Reachable music s) :
    State.init.currentSong = none ∧ State.init.currentArtist = none ∧
    State.init.currentAlbum = none ∧
    (match s.currentSong with
      | some c => s.currentArtist = c.artist ∧ s.currentAlbum = c.album
      | none => s.currentArtist = none ∧ s.currentAlbum = none) ∧
    (∀ artist album, findAlbum music s = some (artist, album) →
      ∃ c, s.currentSong = some c ∧ c.artist = some artist.artist ∧
        c.album = some album.album) ∧
    (∀ o, (nextTrack music o s).isSome = true) ∧
    (∀ o, (previousTrack music o s).isSome = true) ∧
    (∀ o r, (handleSongEnd music o r s).isSome = true) := by
  have hinv := reachable_namesFollowSong music s h
  exact ⟨rfl, rfl, rfl, hinv,
    fun artist album hfa => currentSong_of_findAlbum music s artist album hinv hfa,
    fun o => nextTrack_isSome music o s hinv,
    fun o => previousTrack_isSome music o s hinv,
    fun o r => handleSongEnd_isSome music o r s hinv⟩

/-- Witness of C28: the state after `playSong` of the example song A, then
`handleSongEnd` with repeat off (which stops playback). -/
theorem names_follow_current_song_witness :
    (stopPlayback (playSong Outcome.allGood demoSongA State.init)).currentArtist =
      demoSongA.artist ∧
    (∃ c, (stopPlayback (playSong Outcome.allGood demoSongA State.init)).currentSong =
      some c ∧ c.artist = some "Artist" ∧ c.album = some "Album") ∧
    (nextTrack demoMusic Outcome.allGood
      (stopPlayback (playSong Outcome.allGood demoSongA State.init))).isSome = true := by
  have h := names_follow_current_song demoMusic
    (stopPlayback (playSong Outcome.allGood demoSongA State.init))
    (Reachable.handleSongEnd Outcome.allGood 0 _ _
      (Reachable.playSong Outcome.allGood demoSongA _ (Reachable.init true)) rfl)
  exact ⟨h.2.2.2.1.1,
    h.2.2.2.2.1
      { artist := "Artist", albums := [{ album := "Album", songs := [songA, songB, songC] }] }
      { album := "Album", songs := [songA, songB, songC] } rfl,
    h.2.2.2.2.2.1 Outcome.allGood⟩

/-- C25 as stated fails: the code stores references. Object 0 (song B) is
current and object 1 (song A) is the only history entry. After
`playFromRecent(0)` the current song is object 1 and the history is
[object 0, object 1]: entry 1 of the history is the current song itself, and
the assignment of `duration` on the current song changes what that entry
reads. Likewise after `addToQueue(currentSong)` the queue entry is the current
song itself. -/
theorem song_identity_counterexample :
    (playFromRecentRef 0 demoRefState).currentSong = some 1 ∧
    (playFromRecentRef 0 demoRefState).recentlyPlayed = [0, 1] ∧
    (playFromRecentRef 0 demoRefState).history = [demoSongB, demoSongA] ∧
    (assignFields 1 setDuration (playFromRecentRef 0 demoRefState)).current =
      some (setDuration demoSongA) ∧
    (assignFields 1 setDuration (playFromRecentRef 0 demoRefState)).history =
      [demoSongB, setDuration demoSongA] ∧
    (assignFields 1 setDuration (playFromRecentRef 0 demoRefState)).history ≠
      (playFromRecentRef 0 demoRefState).history ∧
    (addToQueueRef 0 none demoRefState).queue = [0] ∧
    (addToQueueRef 0 none demoRefState).currentSong = some 0 ∧
    (assignFields 0 setDuration (addToQueueRef 0 none demoRefState)).queued ≠
      (addToQueueRef 0 none demoRefState).queued := by
  refine ⟨rfl, rfl, rfl, rfl, rfl, by decide, rfl, rfl, by decide⟩

/-- C25 (amended): the queue and the history hold the song objects they are
given, by reference, and no operation makes a copy (the set of objects is the
same after the call). After `addToQueue(song)` the last queue entry is the
object passed; after `playSong(song)` the current song is the object passed
and the history is the outgoing object followed by the old entries, cut to 50;
after `playFromRecent(i)` the current song is the object that was history
entry `i`, and with a current song before the call and `i < 49` that object is
history entry `i + 1` afterwards. An assignment to a property of an object is
seen through every variable and entry that holds this object, and through no
other. -/
theorem songs_stored_by_reference (h : RefState) (r : Nat) :
    ((addToQueueRef r none h).heap = h.heap ∧
      (addToQueueRef r none h).queue = h.queue ++ [r]) ∧
    ((playSongRef r h).heap = h.heap ∧ (playSongRef r h).currentSong = some r ∧
      (∀ c, h.currentSong = some c →
        (playSongRef r h).recentlyPlayed = (c :: h.recentlyPlayed).take 50)) ∧
    (∀ (i : Nat) (x : Nat), h.recentlyPlayed[i]? = some x →
      (playFromRecentRef i h).heap = h.heap ∧
      (playFromRecentRef i h).currentSong = some x ∧
      (∀ c, h.currentSong = some c → i < 49 →
        (playFromRecentRef i h).recentlyPlayed[i + 1]? = some x)) ∧
    (∀ (f : Song → Song) (r2 : Nat), r < h.heap.length →
      deref (assignFields r f h).heap r2 =
        if r2 = r then f (deref h.heap r) else deref h.heap r2) := by
  refine ⟨⟨rfl, rfl⟩, ⟨heap_playSongRef r h, rfl, ?_⟩, ?_, ?_⟩
  · intro c hc
    exact recentlyPlayed_playSongRef r c h hc
  · intro i x hx
    obtain ⟨hi, _⟩ := List.getElem?_eq_some.mp hx
    have hp : playFromRecentRef (i : Int) h = playSongRef x h := by
      unfold playFromRecentRef
      rw [if_pos ⟨Int.ofNat_nonneg i, Int.ofNat_lt.mpr hi⟩, elemAt_natCast, hx]
    rw [hp]
    refine ⟨heap_playSongRef x h, rfl, ?_⟩
    intro c hc hi49
    rw [recentlyPlayed_playSongRef x c h hc, List.getElem?_take_of_lt (by omega),
      List.getElem?_cons_succ]
    exact hx
  · intro f r2 hr
    exact deref_set h.heap r r2 _ hr

/-- Witness of C25 (amended): `playFromRecent(0)` on the two example objects,
then an assignment on object 1. -/
theorem songs_stored_by_reference_witness :
    (playFromRecentRef 0 demoRefState).currentSong = some 1 ∧
    (playFromRecentRef 0 demoRefState).recentlyPlayed[1]? = some 1 ∧
    deref (assignFields 1 setDuration demoRefState).heap 1 = setDuration demoSongA ∧
    deref (assignFields 1 setDuration demoRefState).heap 0 = demoSongB := by
  have h0 := songs_stored_by_reference demoRefState 0
  have h1 := songs_stored_by_reference demoRefState 1
  have h2 := h0.2.2.1 0 1 rfl
  exact ⟨h2.2.1, h2.2.2 0 rfl (by decide), h1.2.2.2 setDuration 1 (by decide),
    h1.2.2.2 setDuration 0 (by decide)⟩

/-- C29: for every sequence of draws in [0, 1): when the catalog has at least
one song, after `shuffleAllSongs` a current song exists, the current song
followed by the queue is a permutation of the list of all catalog songs (each
with artist, album and cover from the catalog), the queue has (total songs - 1)
entries and shuffle mode is on; every swap index `j` drawn for the loop value
`i` satisfies `0 ≤ j ≤ i`; the number of collected songs is the sum of
`getTotalSongs` over the artists. When the catalog has no song, the call
changes nothing. -/
theorem shuffleAllSongs_permutation (music : List Artist) (o : Outcome) (rs : Nat → ℚ)
    (s : State) (hr : ∀ k, 0 ≤ rs k ∧ rs k < 1) :
    (allSongs music ≠ [] →
      ∃ first rest,
        (shuffleAllSongs music o rs s).currentSong = some first ∧
        (shuffleAllSongs music o rs s).queue = rest ∧
        (first :: rest).Perm (allSongs music) ∧
        rest.length = (music.map getTotalSongs).sum - 1 ∧
        (shuffleAllSongs music o rs s).shuffleMode = true) ∧
    (allSongs music = [] → shuffleAllSongs music o rs s = s) ∧
    (∀ k i, 0 ≤ randomIndex (rs k) (i + 1) ∧ randomIndex (rs k) (i + 1) ≤ (i : Int)) ∧
    (allSongs music).length = (music.map getTotalSongs).sum := by
  refine ⟨?_, ?_, ?_, length_allSongs music⟩
  · intro hne
    have hperm := shuffleLoop_perm rs 0 ((allSongs music).length - 1) (allSongs music)
    cases hsh : shuffleLoop rs 0 ((allSongs music).length - 1) (allSongs music) with
    | nil =>
      rw [hsh] at hperm
      exact absurd (List.Perm.nil_eq hperm).symm hne
    | cons first rest =>
      rw [hsh] at hperm
      have he := shuffleAllSongs_eq music o rs s first rest hne hsh
      refine ⟨first, rest, ?_, ?_, hperm, ?_, ?_⟩
      · rw [he]
        exact currentSong_playSong o first _
      · rw [he]
        exact queue_playSong o first _
      · have hl := hperm.length_eq
        rw [length_allSongs] at hl
        rw [← hl]
        simp only [List.length_cons, Nat.add_sub_cancel]
      · rw [he]
  · intro hnil
    unfold shuffleAllSongs
    split
    · rfl
    · rw [if_pos (by rw [hnil]; rfl)]
  · intro k i
    obtain ⟨h1, h2⟩ := randomIndex_range (rs k) (i + 1) (hr k).1 (hr k).2 (Nat.succ_pos i)
    refine ⟨h1, ?_⟩
    have : ((i + 1 : Nat) : Int) = (i : Int) + 1 := by push_cast; rfl
    rw [this] at h2
    omega

/-- Witness of C29: the example catalog of three songs with every draw equal
to 1/2. -/
theorem shuffleAllSongs_permutation_witness :
    ∃ first rest,
      (shuffleAllSongs demoMusic Outcome.allGood (fun _ => 1 / 2) State.init).currentSong =
        some first ∧
      (shuffleAllSongs demoMusic Outcome.allGood (fun _ => 1 / 2) State.init).queue = rest ∧
      (first :: rest).Perm (allSongs demoMusic) ∧
      rest.length = (demoMusic.map getTotalSongs).sum - 1 ∧
      (shuffleAllSongs demoMusic Outcome.allGood (fun _ => 1 / 2) State.init).shuffleMode =
        true :=
  (shuffleAllSongs_permutation demoMusic Outcome.allGood (fun _ => 1 / 2) State.init
    (fun _ => by norm_num)).1 (by decide)

/-- C30 fails in its last part when "number" is read as text that is not
blank: `":30"` splits into an empty part and `"30"`, so it is not a string of
two colon-separated numbers, yet `parseDuration(":30")` is 30 and not 0,
because `Number("")` is 0. -/
theorem parseDuration_counterexample :
    ¬ TwoColonSeparatedNumbers (some ":30") ∧
    splitChars ':' ":30".data = [[], ['3', '0']] ∧
    jsNumber [] = some (JsNum.fin 0) ∧
    parseDuration (some ":30") = some (JsNum.fin 30) ∧
    parseDuration (some ":30") ≠ some (JsNum.fin 0) := by
  have hsplit : splitChars ':' ":30".data = [[], ['3', '0']] := by decide
  have h30 : jsNumber ['3', '0'] = some (JsNum.fin 30) := by
    have := jsNumber_two_digits 30 (by decide)
    have e : [digitChar (30 / 10), digitChar (30 % 10)] = ['3', '0'] := by decide
    rw [e] at this
    rw [this]
    norm_num
  have hp : parseDuration (some ":30") = some (JsNum.fin 30) := by
    have s1 : isSafeInteger ((0 : ℚ) * 60) = true := by
      have := isSafeInteger_natCast 0 (by decide)
      simpa using this
    have s2 : isSafeInteger ((0 : ℚ) * 60 + 30) = true := by
      have := isSafeInteger_natCast 30 (by decide)
      simpa using this
    rw [parseDuration_two ":30" [] ['3', '0'] 0 30 hsplit rfl h30 s1 s2]
    norm_num
  refine ⟨?_, hsplit, rfl, hp, ?_⟩
  · rintro ⟨str, a, b, h1, h2, h3, _⟩
    cases h1
    rw [hsplit] at h2
    have ea : a = [] := by
      have := (List.cons.inj h2).1
      exact this.symm
    rw [ea] at h3
    revert h3
    decide
  · rw [hp]
    intro h
    have := JsNum.fin.inj (Option.some.inj h)
    norm_num at this

/-- C30 (amended): for every integer `n` with `0 ≤ n < 2^53` (the safe
integers, on which the double arithmetic of the two functions is exact),
`formatTime(n)` is the decimal text of `floor(n / 60)`, a colon, and the two
digits of `n mod 60`, and `parseDuration` of that text is `n`. `formatTime`
returns `'0:00'` for NaN and for every negative input. `parseDuration` returns
0 for an argument that is not a string, for a string that does not hold
exactly one colon (so it does not split into exactly two parts), and for a
string with a part that `Number` converts to NaN; for two parts that convert
to safe integers `x` and `y`, with `x * 60` and `x * 60 + y` safe as well, it
returns `x * 60 + y`, where a part that is empty or blank converts to 0. -/
theorem formatTime_parseDuration (n : Nat) (hn : n < 9007199254740992) :
    formatTime (JsNum.fin (n : ℚ)) =
      some (String.mk (natToChars (n / 60) ++
        [':', digitChar (n % 60 / 10), digitChar (n % 60 % 10)])) ∧
    n % 60 / 10 < 6 ∧ n % 60 % 10 < 10 ∧
    parseDuration (some (String.mk (natToChars (n / 60) ++
      [':', digitChar (n % 60 / 10), digitChar (n % 60 % 10)]))) =
      some (JsNum.fin (n : ℚ)) ∧
    formatTime JsNum.nan = some "0:00" ∧
    formatTime (JsNum.inf true) = some "0:00" ∧
    (∀ q : ℚ, q < 0 → formatTime (JsNum.fin q) = some "0:00") ∧
    parseDuration none = some (JsNum.fin 0) ∧
    (∀ str : String, str.data.count ':' ≠ 1 →
      parseDuration (some str) = some (JsNum.fin 0)) ∧
    (∀ (str : String) (a b : List Char), splitChars ':' str.data = [a, b] →
      jsNumber a = some JsNum.nan ∨ jsNumber b = some JsNum.nan →
      parseDuration (some str) = some (JsNum.fin 0)) ∧
    (∀ (str : String) (a b : List Char) (x y : ℚ), splitChars ':' str.data = [a, b] →
      jsNumber a = some (JsNum.fin x) → jsNumber b = some (JsNum.fin y) →
      isSafeInteger (x * 60) = true → isSafeInteger (x * 60 + y) = true →
      parseDuration (some str) = some (JsNum.fin (x * 60 + y))) ∧
    (∀ cs : List Char, (∀ c ∈ cs, isJsSpace c = true) →
      jsNumber cs = some (JsNum.fin 0)) := by
  have hpad := padStart2_natToChars (n % 60) (by omega)
  refine ⟨?_, by omega, by omega, ?_, rfl, rfl, ?_, rfl, ?_, ?_, parseDuration_two, ?_⟩
  · rw [formatTime_nat n hn, hpad]
  · have := parseDuration_formatTime n hn
    rw [hpad] at this
    exact this
  · intro q hq
    unfold formatTime
    simp only [hq, if_true]
  · intro str hcount
    have hlen : (splitChars ':' str.data).length ≠ 2 := by
      rw [length_splitChars]
      omega
    unfold parseDuration
    simp only
    split
    · rename_i a b hab
      have hl2 : ((splitChars ':' str.data).map jsNumber).length = 2 := by
        rw [hab]
        rfl
      rw [List.length_map] at hl2
      exact absurd hl2 hlen
    · rfl
  · intro str a b hs hnan
    unfold parseDuration
    simp only [hs, List.map_cons, List.map_nil]
    rw [if_pos hnan]
  · intro cs hcs
    have hd : cs.dropWhile isJsSpace = [] := (takeWhile_of_all isJsSpace cs hcs).2
    unfold jsNumber trimChars
    simp only [hd, List.reverse_nil, List.dropWhile_nil, if_true]

/-- Witness of C30 (amended): 125 seconds are written "2:05", which parses
back to 125, and "1:02:03" parses to 0. -/
theorem formatTime_parseDuration_witness :
    formatTime (JsNum.fin ((125 : Nat) : ℚ)) = some "2:05" ∧
    parseDuration (some "2:05") = some (JsNum.fin ((125 : Nat) : ℚ)) ∧
    parseDuration (some "1:02:03") = some (JsNum.fin 0) := by
  have h := formatTime_parseDuration 125 (by decide)
  have e : String.mk (natToChars (125 / 60) ++
      [':', digitChar (125 % 60 / 10), digitChar (125 % 60 % 10)]) = "2:05" := by
    have e1 : natToChars (125 / 60) = ['2'] := by
      simp [natToChars]
      rfl
    rw [e1]
    rfl
  rw [e] at h
  exact ⟨h.1, h.2.2.2.1, h.2.2.2.2.2.2.2.2.1 "1:02:03" (by decide)⟩

end MyTunes
